import Mathlib

/-!
# WebP image wrapper: embedding and verified properties

Shallow embedding of `Plugins/WebPImageSupport/.../WebpImageWrapper.cpp`.

* The instance is a record of its six member variables; every member function
  is a total function from the instance (and its arguments) to an `Outcome`:
  the returned value, the instance afterwards and the codec entry points that
  were invoked, in order, with their arguments.
* `int32` / `int64` values are integers; every product the source computes is
  reduced with `wrapInt32` / `wrapInt64` (two's complement wrap-around), and
  the conversion `(float)Quality` is `castToFloat`.
* A `(pointer, size)` argument pair is an optional byte list (`none` is the
  null pointer) together with the size argument; the theorems pass the length
  of the list as the size, or assume that the size does not exceed it.
* Array operations with a count that is not positive add nothing, and the
  contents of a freshly sized array are an arbitrary function `fill`.
* The codec library (libwebp) is a parameter, `LibWebP`.
* A caller is a list of `Operation`s; the reachable states are the instances
  `FWebpImageWrapper.Construct.run lib Calls`.
* The block copies of `SetRaw` are also recorded as a trace, `SetRawCopies`, so
  that the offsets read and written can be bounded.
* The overload of `GetRaw` that fills an `FDecompressedImageOutput` is
  `GetRawDecompressedImage`; the engine function `FMipMapImage::Init` is a
  parameter.
-/

set_option autoImplicit false

/-! ## Engine and codec declarations used by the source -/

/-- Modelled from the spec: the colour-layout enumeration `ERGBFormat` is declared
in the host engine, outside the repository. The members are the ones the source
names (`Invalid`, `RGBA`, `BGRA`, `Gray`, `RGBAF`) and the two further layouts of
the engine enumeration. -/
inductive ERGBFormat where
  | Invalid
  | RGBA
  | BGRA
  | Gray
  | RGBAF
  | BGRE
  | GrayF
deriving DecidableEq, Repr

/-- Modelled from the spec: the host raw-image format enumeration
`ERawImageFormat::Type` is declared in the host engine, outside the repository.
The source names `BGRA8`, `G8`, `RGBA32F` and `Invalid`. -/
inductive ERawImageFormat where
  | G8
  | BGRA8
  | BGRE8
  | RGBA16
  | RGBA16F
  | RGBA32F
  | G16
  | R16F
  | R32F
  | Invalid
deriving DecidableEq, Repr

/-- Two's complement reduction of an integer to the `int32` range. -/
def wrapInt32 (x : Int) : Int := (x + 2147483648) % 4294967296 - 2147483648

/-- Two's complement reduction of an integer to the `int64` range. -/
def wrapInt64 (x : Int) : Int :=
  (x + 9223372036854775808) % 18446744073709551616 - 9223372036854775808

/-- Spacing of the IEEE 754 binary32 values around a magnitude `a` of at most
2^31: 1 below 2^24, then doubling with every further power of two. -/
def floatSpacing (a : Nat) : Nat :=
  if a < 16777216 then 1 else if a < 33554432 then 2 else if a < 67108864 then 4
  else if a < 134217728 then 8 else if a < 268435456 then 16
  else if a < 536870912 then 32 else if a < 1073741824 then 64
  else if a < 2147483648 then 128 else 256

/-- Value of the C++ conversion `(float)x` of an `int32` value `x`: the magnitude
is rounded to the nearest multiple of the spacing of the binary32 values, a
tie going to the even multiple. The result is again an integer. -/
def castToFloat (x : Int) : Int :=
  let a := x.natAbs
  let u := floatSpacing a
  let q := a / u
  let r := a % u
  let m := if 2 * r < u then q else if u < 2 * r then q + 1
    else if q % 2 = 0 then q else q + 1
  Int.sign x * ((m * u : Nat) : Int)

/-- The libwebp entry points the wrapper calls (`webp/decode.h`, `webp/encode.h`);
the library is an external collaborator and is taken as a parameter.

* `WebPGetInfo data` is `none` when the C function returns 0, otherwise the
  width and height it stores.
* `WebPDecodeRGBAInto data size stride` is `none` when the C function returns
  `nullptr`; otherwise it gives the byte found at each offset of the
  `size`-byte output buffer after the call.
* `WebPEncodeRGBA rgba width height stride quality` is the returned size
  together with the output pointer (`none` is `nullptr`); `quality` is the
  value of the `float` argument, an integer because the wrapper converts it
  from an `int32`. -/
structure LibWebP where
  WebPGetInfo : List UInt8 → Option (Int × Int)
  WebPDecodeRGBAInto : List UInt8 → Nat → Int → Option (Nat → UInt8)
  WebPDecodeBGRAInto : List UInt8 → Nat → Int → Option (Nat → UInt8)
  WebPEncodeRGBA : List UInt8 → Int → Int → Int → Int → Nat × Option (List UInt8)
  WebPEncodeBGRA : List UInt8 → Int → Int → Int → Int → Nat × Option (List UInt8)

/-- One invocation of a codec entry point, with the arguments it received. -/
inductive CodecCall where
  | GetInfo (data : List UInt8)
  | DecodeRGBAInto (data : List UInt8) (outputSize : Nat) (stride : Int)
  | DecodeBGRAInto (data : List UInt8) (outputSize : Nat) (stride : Int)
  | EncodeRGBA (rgba : List UInt8) (width height stride quality : Int)
  | EncodeBGRA (bgra : List UInt8) (width height stride quality : Int)
deriving DecidableEq, Repr

/-! ## The instance -/

/-- Member variables of `FWebpImageWrapper` (`WebpImageWrapper.h`). -/
structure FWebpImageWrapper where
  CompressedData : List UInt8
  RawData : List UInt8
  Width : Int
  Height : Int
  RawFormat : ERGBFormat
  RawBitDepth : Int
deriving DecidableEq, Repr

/-- Result of one member-function call: the value returned, the instance after
the call and the codec entry points invoked during the call. -/
structure Outcome (α : Type) where
  ret : α
  self : FWebpImageWrapper
  calls : List CodecCall
deriving DecidableEq

/-- Bytes of a `TArray64` after `SetNumUninitialized(n)` on an empty array: the
contents are unspecified, so they are drawn from an arbitrary `fill`. A
non-positive `n` leaves the array empty. -/
def SetNumUninitialized (fill : Nat → UInt8) (n : Int) : List UInt8 :=
  (List.range n.toNat).map fill

/-- Model of `FMemory::Memcpy(Dest + DestOff, Src + SrcOff, Count)` on byte lists: the
`Count` bytes of `Src` from `SrcOff` replace the bytes of `Dest` from `DestOff`.
Nothing is copied when `Count` is not positive or an offset is negative. -/
def Memcpy (Dest : List UInt8) (DestOff : Int) (Src : List UInt8) (SrcOff : Int)
    (Count : Int) : List UInt8 :=
  if Count ≤ 0 ∨ DestOff < 0 ∨ SrcOff < 0 then Dest
  else
    Dest.take DestOff.toNat ++ ((Src.drop SrcOff.toNat).take Count.toNat
      ++ Dest.drop (DestOff.toNat + Count.toNat))

/-- The row loop of `SetRaw` (lines 167-172): `Rows` iterations, each copying
`DestRowStride` bytes and advancing the two row pointers by their strides. -/
def copyRows (Src : List UInt8) (SourceRowStride DestRowStride : Int) :
    Nat → Int → Int → List UInt8 → List UInt8
  | 0, _, _, Dest => Dest
  | Rows + 1, SrcRow, DestRow, Dest =>
    copyRows Src SourceRowStride DestRowStride Rows
      (SrcRow + SourceRowStride) (DestRow + DestRowStride)
      (Memcpy Dest DestRow Src SrcRow DestRowStride)

/-- Code of `ToRawImageFormat` (lines 9-47). -/
def ToRawImageFormat (InRGBFormat : ERGBFormat) (InBitDepth : Int) : ERawImageFormat :=
  if InBitDepth = 8 then
    match InRGBFormat with
    | ERGBFormat.RGBA => ERawImageFormat.BGRA8
    | ERGBFormat.BGRA => ERawImageFormat.BGRA8
    | ERGBFormat.Gray => ERawImageFormat.G8
    | _ => ERawImageFormat.Invalid
  else if InBitDepth = 16 then ERawImageFormat.Invalid
  else if InBitDepth = 32 then
    match InRGBFormat with
    | ERGBFormat.RGBAF => ERawImageFormat.RGBA32F
    | _ => ERawImageFormat.Invalid
  else ERawImageFormat.Invalid

/-- The constructor `FWebpImageWrapper::FWebpImageWrapper` (lines 49-55): empty
buffers, zero size, no decoded format. -/
def FWebpImageWrapper.Construct : FWebpImageWrapper :=
  ⟨[], [], 0, 0, ERGBFormat.Invalid, 0⟩

/-- Code of `GetWidth` (lines 317-320). -/
def FWebpImageWrapper.GetWidth (self : FWebpImageWrapper) : Int := self.Width

/-- Code of `GetHeight` (lines 322-325). -/
def FWebpImageWrapper.GetHeight (self : FWebpImageWrapper) : Int := self.Height

/-- Code of `GetBitDepth` (lines 333-336). -/
def FWebpImageWrapper.GetBitDepth (self : FWebpImageWrapper) : Int := self.RawBitDepth

/-- Code of `GetFormat` (lines 338-341). -/
def FWebpImageWrapper.GetFormat (self : FWebpImageWrapper) : ERGBFormat := self.RawFormat

/-- Code of `CanSetRawFormat` (lines 343-347); it does not read the instance. -/
def FWebpImageWrapper.CanSetRawFormat (InFormat : ERGBFormat) (InBitDepth : Int) : Bool :=
  (InFormat = ERGBFormat.RGBA ∨ InFormat = ERGBFormat.BGRA) ∧ InBitDepth = 8

/-- Code of `GetSupportedRawFormat` (lines 349-391). -/
def FWebpImageWrapper.GetSupportedRawFormat (InFormat : ERawImageFormat) : ERawImageFormat :=
  if InFormat = ERawImageFormat.BGRA8 ∧
      FWebpImageWrapper.CanSetRawFormat ERGBFormat.BGRA 8 = true then
    ERawImageFormat.BGRA8
  else if InFormat = ERawImageFormat.G8 ∧
      FWebpImageWrapper.CanSetRawFormat ERGBFormat.Gray 8 = true then
    ERawImageFormat.G8
  else if FWebpImageWrapper.CanSetRawFormat ERGBFormat.BGRA 8 = true then
    ERawImageFormat.BGRA8
  else ERawImageFormat.Invalid

/-- Code of `SetCompressed` (lines 57-88). `Data[i]` is read only after the
size check has established twelve bytes. -/
def FWebpImageWrapper.SetCompressed (lib : LibWebP) (self : FWebpImageWrapper)
    (InCompressedData : Option (List UInt8)) (InCompressedSize : Int) : Outcome Bool :=
  match InCompressedData with
  | none => ⟨false, self, []⟩
  | some Data =>
    if InCompressedSize > 0 then
      if InCompressedSize < 12 ∨
          Data.getD 0 0 ≠ 82 ∨ Data.getD 1 0 ≠ 73 ∨ Data.getD 2 0 ≠ 70 ∨ Data.getD 3 0 ≠ 70 ∨
          Data.getD 8 0 ≠ 87 ∨ Data.getD 9 0 ≠ 69 ∨ Data.getD 10 0 ≠ 66 ∨ Data.getD 11 0 ≠ 80 then
        ⟨false, self, []⟩
      else
        let Compressed := Data.take InCompressedSize.toNat
        match lib.WebPGetInfo Compressed with
        | none =>
          ⟨false, ⟨[], [], 0, 0, self.RawFormat, self.RawBitDepth⟩,
            [CodecCall.GetInfo Compressed]⟩
        | some (W, H) =>
          ⟨true, ⟨Compressed, [], W, H, self.RawFormat, self.RawBitDepth⟩,
            [CodecCall.GetInfo Compressed]⟩
    else ⟨false, self, []⟩

/-- Channel count computed in `SetRaw` (lines 111-119). -/
def FWebpImageWrapper.Channels (InFormat : ERGBFormat) : Int :=
  if InFormat = ERGBFormat.RGBA ∨ InFormat = ERGBFormat.BGRA then 4
  else if InFormat = ERGBFormat.Gray then 1
  else 0

/-- Code of `SetRaw` (lines 90-190). `fill` stands for the unspecified contents
of the freshly sized array of line 164. -/
def FWebpImageWrapper.SetRaw (fill : Nat → UInt8) (self : FWebpImageWrapper)
    (InRawData : Option (List UInt8)) (InRawSize : Int) (InWidth InHeight : Int)
    (InFormat : ERGBFormat) (InBitDepth : Int) (InBytesPerRow : Int) : Outcome Bool :=
  match InRawData with
  | none => ⟨false, self, []⟩
  | some Src =>
    if InRawSize ≤ 0 ∨ InWidth ≤ 0 ∨ InHeight ≤ 0 then ⟨false, self, []⟩
    else if FWebpImageWrapper.CanSetRawFormat InFormat InBitDepth = false then
      ⟨false, self, []⟩
    else
      let Channels := FWebpImageWrapper.Channels InFormat
      if Channels = 0 then ⟨false, self, []⟩
      else if InBitDepth ≠ 8 then ⟨false, self, []⟩
      else
        let ExpectedSize :=
          wrapInt64 (wrapInt64 (wrapInt64 (InWidth * InHeight) * Channels)
            * Int.tdiv InBitDepth 8)
        if InRawSize < ExpectedSize then ⟨false, self, []⟩
        else
          let BytesPerPixel := wrapInt32 (Channels * Int.tdiv InBitDepth 8)
          let SourceRowStride :=
            if InBytesPerRow > 0 then InBytesPerRow else wrapInt32 (InWidth * BytesPerPixel)
          let DestRowStride := wrapInt32 (InWidth * BytesPerPixel)
          if SourceRowStride = DestRowStride ∧ InRawSize ≥ ExpectedSize then
            ⟨true, ⟨[], Src.take ExpectedSize.toNat, InWidth, InHeight, InFormat, InBitDepth⟩, []⟩
          else if InRawSize ≥ wrapInt64 (InHeight * SourceRowStride) then
            ⟨true, ⟨[], copyRows Src SourceRowStride DestRowStride InHeight.toNat 0 0
                (SetNumUninitialized fill ExpectedSize),
              InWidth, InHeight, InFormat, InBitDepth⟩, []⟩
          else
            ⟨false, ⟨self.CompressedData, [], 0, 0, ERGBFormat.Invalid, 0⟩, []⟩

/-- Code of `PerformUncompression` (lines 192-236). The output buffer handed to
the codec has `Stride * Height` bytes, a product formed in 32 bits. -/
def FWebpImageWrapper.PerformUncompression (lib : LibWebP) (self : FWebpImageWrapper)
    (InFormat : ERGBFormat) (InBitDepth : Int) : Outcome Bool :=
  if self.CompressedData.length = 0 ∨ self.Width = 0 ∨ self.Height = 0 then
    ⟨false, self, []⟩
  else if InFormat = ERGBFormat.RGBA ∧ InBitDepth = 8 then
    let Stride := wrapInt32 (self.Width * 4)
    let Num := (wrapInt32 (Stride * self.Height)).toNat
    match lib.WebPDecodeRGBAInto self.CompressedData Num Stride with
    | some Pixels =>
      ⟨true, ⟨self.CompressedData, (List.range Num).map Pixels, self.Width, self.Height,
          ERGBFormat.RGBA, 8⟩,
        [CodecCall.DecodeRGBAInto self.CompressedData Num Stride]⟩
    | none =>
      ⟨false, ⟨self.CompressedData, [], self.Width, self.Height, ERGBFormat.Invalid, 0⟩,
        [CodecCall.DecodeRGBAInto self.CompressedData Num Stride]⟩
  else if InFormat = ERGBFormat.BGRA ∧ InBitDepth = 8 then
    let Stride := wrapInt32 (self.Width * 4)
    let Num := (wrapInt32 (Stride * self.Height)).toNat
    match lib.WebPDecodeBGRAInto self.CompressedData Num Stride with
    | some Pixels =>
      ⟨true, ⟨self.CompressedData, (List.range Num).map Pixels, self.Width, self.Height,
          ERGBFormat.BGRA, 8⟩,
        [CodecCall.DecodeBGRAInto self.CompressedData Num Stride]⟩
    | none =>
      ⟨false, ⟨self.CompressedData, [], self.Width, self.Height, ERGBFormat.Invalid, 0⟩,
        [CodecCall.DecodeBGRAInto self.CompressedData Num Stride]⟩
  else
    ⟨false, ⟨self.CompressedData, [], self.Width, self.Height, ERGBFormat.Invalid, 0⟩, []⟩

/-- Code of the flat `GetRaw` (lines 238-253). `OutRawData` is the caller's
array before the call; the second component of the result is the array after. -/
def FWebpImageWrapper.GetRaw (lib : LibWebP) (self : FWebpImageWrapper)
    (InFormat : ERGBFormat) (InBitDepth : Int) (OutRawData : List UInt8) :
    Outcome (Bool × List UInt8) :=
  let Decoded : Outcome Bool :=
    if self.RawData.length = 0 ∨ self.RawFormat = ERGBFormat.Invalid then
      FWebpImageWrapper.PerformUncompression lib self InFormat InBitDepth
    else ⟨false, self, []⟩
  if Decoded.self.RawData.length > 0 ∧ Decoded.self.RawFormat = InFormat ∧
      Decoded.self.RawBitDepth = InBitDepth then
    ⟨(true, Decoded.self.RawData), Decoded.self, Decoded.calls⟩
  else ⟨(false, OutRawData), Decoded.self, Decoded.calls⟩

/-- Bytes returned by `GetCompressed` for an encoder result (lines 424-434). -/
def FWebpImageWrapper.encoded (Result : Nat × Option (List UInt8)) : List UInt8 :=
  match Result with
  | (webp_output_size, some webp_output_buffer) =>
    if webp_output_size > 0 then webp_output_buffer.take webp_output_size else []
  | (_, none) => []

/-- Code of `GetCompressed` (lines 394-435). The encoder receives
`(float)Quality`, here `castToFloat Quality`. -/
def FWebpImageWrapper.GetCompressed (lib : LibWebP) (self : FWebpImageWrapper)
    (Quality : Int) : Outcome (List UInt8) :=
  if self.RawData.length = 0 ∨ self.Width = 0 ∨ self.Height = 0 ∨
      self.RawFormat = ERGBFormat.Invalid then
    ⟨[], self, []⟩
  else if self.RawFormat = ERGBFormat.RGBA ∧ self.RawBitDepth = 8 then
    let stride := wrapInt32 (self.Width * 4)
    ⟨FWebpImageWrapper.encoded
        (lib.WebPEncodeRGBA self.RawData self.Width self.Height stride (castToFloat Quality)),
      self,
      [CodecCall.EncodeRGBA self.RawData self.Width self.Height stride (castToFloat Quality)]⟩
  else if self.RawFormat = ERGBFormat.BGRA ∧ self.RawBitDepth = 8 then
    let stride := wrapInt32 (self.Width * 4)
    ⟨FWebpImageWrapper.encoded
        (lib.WebPEncodeBGRA self.RawData self.Width self.Height stride (castToFloat Quality)),
      self,
      [CodecCall.EncodeBGRA self.RawData self.Width self.Height stride (castToFloat Quality)]⟩
  else ⟨[], self, []⟩

/-! ## Sequences of calls -/

/-- One call a caller can make on an instance: one of the four operations
`SetCompressed`, `SetRaw`, `GetRaw` (the flat overload) and `GetCompressed`,
with its arguments. For `SetRaw` the arbitrary contents of the freshly sized
array are part of the call. -/
inductive Operation where
  | SetCompressed (InCompressedData : Option (List UInt8)) (InCompressedSize : Int)
  | SetRaw (fill : Nat → UInt8) (InRawData : Option (List UInt8))
      (InRawSize InWidth InHeight : Int) (InFormat : ERGBFormat)
      (InBitDepth InBytesPerRow : Int)
  | GetRaw (InFormat : ERGBFormat) (InBitDepth : Int) (OutRawData : List UInt8)
  | GetCompressed (Quality : Int)

/-- The instance after one call, successful or failing. -/
def FWebpImageWrapper.call (lib : LibWebP) (self : FWebpImageWrapper) :
    Operation → FWebpImageWrapper
  | Operation.SetCompressed InCompressedData InCompressedSize =>
    (self.SetCompressed lib InCompressedData InCompressedSize).self
  | Operation.SetRaw fill InRawData InRawSize InWidth InHeight InFormat InBitDepth
      InBytesPerRow =>
    (self.SetRaw fill InRawData InRawSize InWidth InHeight InFormat InBitDepth
      InBytesPerRow).self
  | Operation.GetRaw InFormat InBitDepth OutRawData =>
    (self.GetRaw lib InFormat InBitDepth OutRawData).self
  | Operation.GetCompressed Quality => (self.GetCompressed lib Quality).self

/-- The instance after a sequence of calls made one after the other. The states
reachable from a freshly constructed instance are the values of
`FWebpImageWrapper.Construct.run lib Calls`. -/
def FWebpImageWrapper.run (lib : LibWebP) (self : FWebpImageWrapper)
    (Calls : List Operation) : FWebpImageWrapper :=
  Calls.foldl (FWebpImageWrapper.call lib) self

/-! ## The copies of `SetRaw` as a trace -/

/-- One block copy of `SetRaw`: `Count` bytes read from offset `SrcOff` of the
caller's buffer and written at offset `DestOff` of `RawData`. -/
structure BlockCopy where
  DestOff : Int
  SrcOff : Int
  Count : Int
deriving DecidableEq, Repr

/-- The `Memcpy` calls of the row loop of `SetRaw` (lines 167-172), in order: the
recursion of `copyRows`, recording the arguments of each call. -/
def copyRowsBlocks (SourceRowStride DestRowStride : Int) : Nat → Int → Int → List BlockCopy
  | 0, _, _ => []
  | Rows + 1, SrcRow, DestRow =>
    ⟨DestRow, SrcRow, DestRowStride⟩ ::
      copyRowsBlocks SourceRowStride DestRowStride Rows (SrcRow + SourceRowStride)
        (DestRow + DestRowStride)

/-- The block copies one call of `SetRaw` performs (lines 90-183), under the
conditions of `SetRaw` itself: none when the call fails, the single `Append` of
`ExpectedSize` bytes in the contiguous branch, one `Memcpy` per row in the
row-by-row branch. -/
def FWebpImageWrapper.SetRawCopies (InRawData : Option (List UInt8)) (InRawSize : Int)
    (InWidth InHeight : Int) (InFormat : ERGBFormat) (InBitDepth : Int)
    (InBytesPerRow : Int) : List BlockCopy :=
  match InRawData with
  | none => []
  | some _ =>
    if InRawSize ≤ 0 ∨ InWidth ≤ 0 ∨ InHeight ≤ 0 then []
    else if FWebpImageWrapper.CanSetRawFormat InFormat InBitDepth = false then []
    else
      let Channels := FWebpImageWrapper.Channels InFormat
      if Channels = 0 then []
      else if InBitDepth ≠ 8 then []
      else
        let ExpectedSize :=
          wrapInt64 (wrapInt64 (wrapInt64 (InWidth * InHeight) * Channels) *
            Int.tdiv InBitDepth 8)
        if InRawSize < ExpectedSize then []
        else
          let BytesPerPixel := wrapInt32 (Channels * Int.tdiv InBitDepth 8)
          let SourceRowStride :=
            if InBytesPerRow > 0 then InBytesPerRow else wrapInt32 (InWidth * BytesPerPixel)
          let DestRowStride := wrapInt32 (InWidth * BytesPerPixel)
          if SourceRowStride = DestRowStride ∧ InRawSize ≥ ExpectedSize then
            [⟨0, 0, ExpectedSize⟩]
          else if InRawSize ≥ wrapInt64 (InHeight * SourceRowStride) then
            copyRowsBlocks SourceRowStride DestRowStride InHeight.toNat 0 0
          else []

/-! ## Calls within the limits of the argument types -/

/-- A call whose arguments respect what the types of the source promise. For
`SetRaw`: the pointer addresses at least `InRawSize` bytes, the height and the row
stride are `int32` values, and the row size `InWidth * 4` fits a signed 32-bit
integer. The other calls carry no condition. -/
def Operation.InRange : Operation → Prop
  | Operation.SetRaw _ InRawData InRawSize InWidth InHeight _ _ InBytesPerRow =>
    (match InRawData with
      | none => True
      | some Src => InRawSize ≤ (Src.length : Int)) ∧
    InWidth * 4 < 2147483648 ∧ InHeight < 2147483648 ∧ InBytesPerRow < 2147483648
  | _ => True

/-- Whether a call is within the limits of the argument types can be computed. -/
instance : DecidablePred Operation.InRange := fun op => by
  cases op with
  | SetRaw fill InRawData InRawSize InWidth InHeight InFormat InBitDepth InBytesPerRow =>
    cases InRawData <;> (unfold Operation.InRange; infer_instance)
  | SetCompressed _ _ => exact isTrue trivial
  | GetRaw _ _ _ => exact isTrue trivial
  | GetCompressed _ => exact isTrue trivial

/-- An encode call that reads only inside the pixel buffer it is given: the
encoder reads `height` rows of `width * 4` bytes, row `r` starting at byte
`r * stride`, so the last byte read is at `(height - 1) * stride + width * 4 - 1`. -/
def CodecCall.ReadsInside : CodecCall → Prop
  | CodecCall.EncodeRGBA rgba width height stride _ =>
    0 < width ∧ 0 < height ∧ width * 4 ≤ stride ∧
      (height - 1) * stride + width * 4 ≤ (rgba.length : Int)
  | CodecCall.EncodeBGRA bgra width height stride _ =>
    0 < width ∧ 0 < height ∧ width * 4 ≤ stride ∧
      (height - 1) * stride + width * 4 ≤ (bgra.length : Int)
  | _ => True

/-! ## The overload of `GetRaw` that fills an image with mip information -/

/-- Modelled from the spec: the engine enumeration `EGammaSpace`, declared in the
engine headers and not in this repository. The source names only `sRGB`. -/
inductive EGammaSpace where
  | Linear | Pow22 | sRGB | Invalid
deriving DecidableEq, Repr

/-- Modelled from the spec: the engine record `FMipMapImage::FMipInfo`, declared
in the engine headers and not in this repository, with the four fields the
source assigns. -/
structure FMipInfo where
  Offset : Int
  Size : Int
  Width : Int
  Height : Int
deriving DecidableEq, Repr

/-- Modelled from the spec: the engine record `FMipMapImage`, declared in the
engine headers and not in this repository, with the fields the source reads or
assigns and the gamma space its `Init` receives. -/
structure FMipMapImage where
  SubImages : List FMipInfo
  RawData : List UInt8
  Format : ERawImageFormat
  GammaSpace : EGammaSpace
deriving DecidableEq, Repr

/-- Modelled from the spec: the engine record `FDecompressedImageOutput`, declared
in the engine headers and not in this repository, with the one field the source
uses. -/
structure FDecompressedImageOutput where
  MipMapImage : FMipMapImage
deriving DecidableEq, Repr

/-- Code of the overload of `GetRaw` with an `FDecompressedImageOutput` (lines
255-315). The engine function `FMipMapImage::Init` is the parameter `Init`: it
receives the image to initialise and the five arguments of the call. The flat
overload is called on an empty temporary array; the first sub-image, a reference
in the source, has all four fields assigned. -/
def FWebpImageWrapper.GetRawDecompressedImage (lib : LibWebP)
    (Init : FMipMapImage → Int → Int → Int → ERawImageFormat → EGammaSpace → FMipMapImage)
    (self : FWebpImageWrapper) (InRequestedRGBFormat : ERGBFormat)
    (InRequestedBitDepth : Int) (OutDecompressedImage : FDecompressedImageOutput) :
    Outcome (Bool × FDecompressedImageOutput) :=
  let Flat := self.GetRaw lib InRequestedRGBFormat InRequestedBitDepth []
  let TempRawPixelData := Flat.ret.2
  if Flat.ret.1 = false then ⟨(false, OutDecompressedImage), Flat.self, Flat.calls⟩
  else if Flat.self.RawData.length = 0 ∨ Flat.self.RawFormat ≠ InRequestedRGBFormat ∨
      Flat.self.RawBitDepth ≠ InRequestedBitDepth ∨ Flat.self.Width ≤ 0 ∨
      Flat.self.Height ≤ 0 then
    ⟨(false, OutDecompressedImage), Flat.self, Flat.calls⟩
  else
    let TargetRawImageFormat := ToRawImageFormat InRequestedRGBFormat InRequestedBitDepth
    if TargetRawImageFormat = ERawImageFormat.Invalid then
      ⟨(false, OutDecompressedImage), Flat.self, Flat.calls⟩
    else
      let Initialised := Init OutDecompressedImage.MipMapImage Flat.self.Width
        Flat.self.Height 1 TargetRawImageFormat EGammaSpace.sRGB
      match Initialised.SubImages with
      | _ :: Rest =>
        ⟨(true, ⟨⟨⟨0, (TempRawPixelData.length : Int), Flat.self.Width, Flat.self.Height⟩ :: Rest,
            TempRawPixelData, TargetRawImageFormat, Initialised.GammaSpace⟩⟩),
          Flat.self, Flat.calls⟩
      | [] => ⟨(false, ⟨Initialised⟩), Flat.self, Flat.calls⟩

/-! ## Test doubles used to instantiate the theorems -/

/-- A twelve-byte sequence carrying the `RIFF` and `WEBP` markers. -/
def webpHeader : List UInt8 := [82, 73, 70, 70, 4, 0, 0, 0, 87, 69, 66, 80]

/-- A codec double for images of `W` by `H` pixels. The probe reports `(W, H)`;
every decode call succeeds, filling the whole buffer it is given with the byte
255, exactly when the data is `decodable`; an encode yields `webpHeader`. -/
def testLib (W H : Int) (decodable : Bool) : LibWebP where
  WebPGetInfo := fun _ => some (W, H)
  WebPDecodeRGBAInto := fun _ _ _ => if decodable = true then some (fun _ => 255) else none
  WebPDecodeBGRAInto := fun _ _ _ => if decodable = true then some (fun _ => 255) else none
  WebPEncodeRGBA := fun _ _ _ _ _ => (12, some webpHeader)
  WebPEncodeBGRA := fun _ _ _ _ _ => (12, some webpHeader)

/-- A codec double whose probe fails on every input. -/
def probeFailLib : LibWebP where
  WebPGetInfo := fun _ => none
  WebPDecodeRGBAInto := fun _ _ _ => none
  WebPDecodeBGRAInto := fun _ _ _ => none
  WebPEncodeRGBA := fun _ _ _ _ _ => (0, none)
  WebPEncodeBGRA := fun _ _ _ _ _ => (0, none)

/-- Unspecified array contents used in the concrete instances: the byte 170. -/
def testFill : Nat → UInt8 := fun _ => 170

/-- A buffer of 2 rows of 4294967300 bytes: the first row holds zeros, the
second row holds ones. -/
def twoWideRows : List UInt8 :=
  List.replicate 4294967300 0 ++ List.replicate 4294967300 1

/-- A stand-in for `FMipMapImage::Init` that creates `NumMips` sub-images of the
given size over an empty pixel array. -/
def testInit (_ : FMipMapImage) (Width Height NumMips : Int) (Format : ERawImageFormat)
    (GammaSpace : EGammaSpace) : FMipMapImage :=
  ⟨List.replicate NumMips.toNat ⟨0, 0, Width, Height⟩, [], Format, GammaSpace⟩

/-- A stand-in for an empty `FDecompressedImageOutput`. -/
def emptyImage : FDecompressedImageOutput := ⟨⟨[], [], ERawImageFormat.Invalid, EGammaSpace.Invalid⟩⟩

/-! ## Properties of `SetCompressed` -/

/-- The signature test of `SetCompressed` (lines 64-66) on a buffer holding at
least twelve bytes, in terms of the two four-byte markers. -/
theorem signature_bytes (Data : List UInt8) (h : 12 ≤ Data.length) :
    (Data.getD 0 0 ≠ 82 ∨ Data.getD 1 0 ≠ 73 ∨ Data.getD 2 0 ≠ 70 ∨ Data.getD 3 0 ≠ 70 ∨
      Data.getD 8 0 ≠ 87 ∨ Data.getD 9 0 ≠ 69 ∨ Data.getD 10 0 ≠ 66 ∨ Data.getD 11 0 ≠ 80) ↔
    (Data.take 4 ≠ [82, 73, 70, 70] ∨ (Data.drop 8).take 4 ≠ [87, 69, 66, 80]) := by
  rcases Data with _ | ⟨a0, _ | ⟨a1, _ | ⟨a2, _ | ⟨a3, _ | ⟨a4, _ | ⟨a5, _ | ⟨a6, _ | ⟨a7,
    _ | ⟨a8, _ | ⟨a9, _ | ⟨a10, _ | ⟨a11, rest⟩⟩⟩⟩⟩⟩⟩⟩⟩⟩⟩⟩ <;>
    simp at h ⊢
  tauto

/-- Claim C1. For every prior instance and every byte sequence that is empty,
shorter than twelve bytes, or whose bytes 0..3 are not `RIFF` or whose bytes
8..11 are not `WEBP`, `SetCompressed` returns failure, invokes no codec entry
point and returns the instance with every field as it was. Moreover, for every
byte sequence, overwriting bytes 4..7 with arbitrary values does not change
whether the sequence is rejected before the probe. -/
theorem C1_setCompressed_rejects_bad_signature (lib : LibWebP) (self : FWebpImageWrapper)
    (Data : List UInt8) :
    ((Data.length < 12 ∨ Data.take 4 ≠ [82, 73, 70, 70] ∨
        (Data.drop 8).take 4 ≠ [87, 69, 66, 80]) →
      self.SetCompressed lib (some Data) Data.length = ⟨false, self, []⟩) ∧
    ∀ b4 b5 b6 b7 : UInt8,
      ((self.SetCompressed lib (some ((((Data.set 4 b4).set 5 b5).set 6 b6).set 7 b7))
          Data.length).calls = [] ↔
        (self.SetCompressed lib (some Data) Data.length).calls = []) := by
  constructor
  · intro h
    by_cases hlen : Data.length < 12
    · have : ((Data.length : Int) < 12) := by exact_mod_cast hlen
      simp [FWebpImageWrapper.SetCompressed, this]
    · have h12 : 12 ≤ Data.length := by omega
      have hsig := (signature_bytes Data h12).2 (by tauto)
      simp only [FWebpImageWrapper.SetCompressed]
      rw [if_pos (Or.inr hsig)]
      simp
  · intro b4 b5 b6 b7
    by_cases hlen : Data.length < 12
    · have : ((Data.length : Int) < 12) := by exact_mod_cast hlen
      simp [FWebpImageWrapper.SetCompressed, this]
    · rcases Data with _ | ⟨a0, _ | ⟨a1, _ | ⟨a2, _ | ⟨a3, _ | ⟨a4, _ | ⟨a5, _ | ⟨a6, _ | ⟨a7,
        _ | ⟨a8, _ | ⟨a9, _ | ⟨a10, _ | ⟨a11, rest⟩⟩⟩⟩⟩⟩⟩⟩⟩⟩⟩⟩ <;>
        simp at hlen
      simp only [FWebpImageWrapper.SetCompressed, List.set_cons_succ, List.set_cons_zero,
        List.getD_cons_succ, List.getD_cons_zero]
      split_ifs <;> first | rfl | (split <;> split <;> simp)

/-- Witness for C1: the eleven bytes `RIFF....WEB` are rejected. -/
theorem C1_setCompressed_rejects_bad_signature_witness :
    FWebpImageWrapper.Construct.SetCompressed (testLib 1 1 true)
      (some [82, 73, 70, 70, 0, 0, 0, 0, 87, 69, 66]) 11
      = ⟨false, FWebpImageWrapper.Construct, []⟩ :=
  (C1_setCompressed_rejects_bad_signature _ FWebpImageWrapper.Construct
    [82, 73, 70, 70, 0, 0, 0, 0, 87, 69, 66]).1 (Or.inl (by decide))

/-- Outcome of `SetCompressed` on a byte sequence that carries both markers and on which
the probe succeeds: the bytes are stored, the decoded buffer is emptied and the
probed size is recorded; the decoded layout and depth are not touched. -/
theorem setCompressed_accepts (lib : LibWebP) (self : FWebpImageWrapper)
    (Data : List UInt8) (W H : Int) (hlen : 12 ≤ Data.length)
    (hriff : Data.take 4 = [82, 73, 70, 70]) (hwebp : (Data.drop 8).take 4 = [87, 69, 66, 80])
    (hprobe : lib.WebPGetInfo Data = some (W, H)) :
    self.SetCompressed lib (some Data) Data.length =
      ⟨true, ⟨Data, [], W, H, self.RawFormat, self.RawBitDepth⟩, [CodecCall.GetInfo Data]⟩ := by
  have hsig := (not_congr (signature_bytes Data hlen)).2 (by simp [hriff, hwebp])
  have hpos : (Data.length : Int) > 0 := by omega
  have h12 : ¬ ((Data.length : Int) < 12) := by omega
  simp only [FWebpImageWrapper.SetCompressed]
  rw [if_pos hpos, if_neg (by tauto)]
  simp [hprobe]

/-- Claim C2. For every prior instance and every byte sequence of at least
twelve bytes carrying the `RIFF`/`WEBP` markers on which the codec probe
succeeds with dimensions `(W, H)`, `SetCompressed` returns success, stores
exactly the input as compressed bytes, leaves the decoded buffer empty, and
`GetWidth`/`GetHeight` return `W` and `H` at once: the only codec entry point
invoked is the probe, no decode. -/
theorem C2_setCompressed_accepts_valid (lib : LibWebP) (self : FWebpImageWrapper)
    (Data : List UInt8) (W H : Int) (hlen : 12 ≤ Data.length)
    (hriff : Data.take 4 = [82, 73, 70, 70]) (hwebp : (Data.drop 8).take 4 = [87, 69, 66, 80])
    (hprobe : lib.WebPGetInfo Data = some (W, H)) :
    (self.SetCompressed lib (some Data) Data.length).ret = true ∧
    (self.SetCompressed lib (some Data) Data.length).self.CompressedData = Data ∧
    (self.SetCompressed lib (some Data) Data.length).self.RawData = [] ∧
    (self.SetCompressed lib (some Data) Data.length).self.GetWidth = W ∧
    (self.SetCompressed lib (some Data) Data.length).self.GetHeight = H ∧
    (self.SetCompressed lib (some Data) Data.length).calls = [CodecCall.GetInfo Data] := by
  rw [setCompressed_accepts lib self Data W H hlen hriff hwebp hprobe]
  exact ⟨rfl, rfl, rfl, rfl, rfl, rfl⟩

/-- Witness for C2: the twelve-byte header with a probe reporting 16 by 16. -/
theorem C2_setCompressed_accepts_valid_witness :
    12 ≤ webpHeader.length ∧
    (FWebpImageWrapper.Construct.SetCompressed (testLib 16 16 true) (some webpHeader)
      webpHeader.length).self.GetWidth = 16 ∧
    (FWebpImageWrapper.Construct.SetCompressed (testLib 16 16 true) (some webpHeader)
      webpHeader.length).calls = [CodecCall.GetInfo webpHeader] :=
  have h := C2_setCompressed_accepts_valid (testLib 16 16 true) FWebpImageWrapper.Construct
    webpHeader 16 16 (by decide) (by decide) (by decide) rfl
  ⟨by decide, h.2.2.2.1, h.2.2.2.2.2⟩

/-! ## Properties of `SetRaw` -/

/-- The three nested 64-bit products of line 134 give a value that never exceeds
the exact product `4 * p` of a positive pixel count `p`. -/
theorem expectedSize_le (p : Int) (hp : 0 < p) :
    wrapInt64 (wrapInt64 (wrapInt64 p * 4) * 1) ≤ p * 4 := by
  unfold wrapInt64
  omega

/-- Within the `int64` range the three nested 64-bit products of line 134 are exact. -/
theorem expectedSize_exact (p : Int) (hp : 0 < p) (h : p * 4 < 9223372036854775808) :
    wrapInt64 (wrapInt64 (wrapInt64 p * 4) * 1) = p * 4 := by
  unfold wrapInt64
  omega

/-- The result of `CanSetRawFormat` in terms of the accepted pairs. -/
theorem canSetRawFormat_iff (InFormat : ERGBFormat) (InBitDepth : Int) :
    FWebpImageWrapper.CanSetRawFormat InFormat InBitDepth = true ↔
      (InFormat = ERGBFormat.RGBA ∨ InFormat = ERGBFormat.BGRA) ∧ InBitDepth = 8 := by
  simp [FWebpImageWrapper.CanSetRawFormat]

/-- A call of `SetRaw` with an unsupported (layout, depth) pair fails and leaves
the instance as it was. -/
theorem setRaw_unsupported (fill : Nat → UInt8) (self : FWebpImageWrapper)
    (InRawData : Option (List UInt8)) (InRawSize InWidth InHeight : Int)
    (InFormat : ERGBFormat) (InBitDepth InBytesPerRow : Int)
    (h : ¬ ((InFormat = ERGBFormat.RGBA ∨ InFormat = ERGBFormat.BGRA) ∧ InBitDepth = 8)) :
    self.SetRaw fill InRawData InRawSize InWidth InHeight InFormat InBitDepth InBytesPerRow
      = ⟨false, self, []⟩ := by
  have hcan : FWebpImageWrapper.CanSetRawFormat InFormat InBitDepth = false := by
    rw [← Bool.not_eq_true, canSetRawFormat_iff]; exact h
  cases InRawData with
  | none => rfl
  | some Src =>
    simp only [FWebpImageWrapper.SetRaw, hcan]
    split_ifs <;> rfl

/-- A call of `SetRaw` with a null pointer or a non-positive size, width or
height fails and leaves the instance as it was. -/
theorem setRaw_invalid_arguments (fill : Nat → UInt8) (self : FWebpImageWrapper)
    (InRawData : Option (List UInt8)) (InRawSize InWidth InHeight : Int)
    (InFormat : ERGBFormat) (InBitDepth InBytesPerRow : Int)
    (h : InRawData = none ∨ InRawSize ≤ 0 ∨ InWidth ≤ 0 ∨ InHeight ≤ 0) :
    self.SetRaw fill InRawData InRawSize InWidth InHeight InFormat InBitDepth InBytesPerRow
      = ⟨false, self, []⟩ := by
  cases InRawData with
  | none => rfl
  | some Src =>
    have h2 : InRawSize ≤ 0 ∨ InWidth ≤ 0 ∨ InHeight ≤ 0 := by simpa using h
    simp only [FWebpImageWrapper.SetRaw]
    rw [if_pos h2]

/-- The body of `SetRaw` once the argument and format checks have passed: the
size check, the contiguous copy, the row-by-row copy and the reset branch. -/
theorem setRaw_supported (fill : Nat → UInt8) (self : FWebpImageWrapper)
    (Src : List UInt8) (InRawSize InWidth InHeight : Int) (InFormat : ERGBFormat)
    (InBytesPerRow : Int) (hn : 0 < InRawSize) (hW : 0 < InWidth) (hH : 0 < InHeight)
    (hf : InFormat = ERGBFormat.RGBA ∨ InFormat = ERGBFormat.BGRA) :
    self.SetRaw fill (some Src) InRawSize InWidth InHeight InFormat 8 InBytesPerRow =
      if InRawSize < wrapInt64 (wrapInt64 (wrapInt64 (InWidth * InHeight) * 4) * 1) then
        ⟨false, self, []⟩
      else if (if InBytesPerRow > 0 then InBytesPerRow else wrapInt32 (InWidth * 4))
          = wrapInt32 (InWidth * 4) then
        ⟨true, ⟨[], Src.take
            (wrapInt64 (wrapInt64 (wrapInt64 (InWidth * InHeight) * 4) * 1)).toNat,
          InWidth, InHeight, InFormat, 8⟩, []⟩
      else if InRawSize ≥ wrapInt64 (InHeight *
          (if InBytesPerRow > 0 then InBytesPerRow else wrapInt32 (InWidth * 4))) then
        ⟨true, ⟨[], copyRows Src
            (if InBytesPerRow > 0 then InBytesPerRow else wrapInt32 (InWidth * 4))
            (wrapInt32 (InWidth * 4)) InHeight.toNat 0 0
            (SetNumUninitialized fill
              (wrapInt64 (wrapInt64 (wrapInt64 (InWidth * InHeight) * 4) * 1))),
          InWidth, InHeight, InFormat, 8⟩, []⟩
      else ⟨false, ⟨self.CompressedData, [], 0, 0, ERGBFormat.Invalid, 0⟩, []⟩ := by
  have hch : FWebpImageWrapper.Channels InFormat = 4 := by
    simp [FWebpImageWrapper.Channels, hf]
  have hcan : FWebpImageWrapper.CanSetRawFormat InFormat 8 = true :=
    (canSetRawFormat_iff _ _).2 ⟨hf, rfl⟩
  have h88 : Int.tdiv 8 8 = 1 := by decide
  have h4 : wrapInt32 (4 * 1) = 4 := by decide
  have hargs : ¬ (InRawSize ≤ 0 ∨ InWidth ≤ 0 ∨ InHeight ≤ 0) := by omega
  simp only [FWebpImageWrapper.SetRaw, hcan, hch, h88, h4]
  rw [if_neg hargs]
  simp only [Bool.true_eq_false, ↓reduceIte, OfNat.ofNat_ne_zero, ne_eq, not_true_eq_false]
  by_cases hsz : InRawSize < wrapInt64 (wrapInt64 (wrapInt64 (InWidth * InHeight) * 4) * 1)
  · simp only [hsz, ↓reduceIte]
  · have hge : InRawSize ≥ wrapInt64 (wrapInt64 (wrapInt64 (InWidth * InHeight) * 4) * 1) := by
      omega
    simp only [hsz, ↓reduceIte, hge, and_true]

/-- Counterexample to C3 as stated: 8-bit grayscale is rejected by `SetRaw` and by
`CanSetRawFormat`, although the one-byte buffer covers the 1 by 1 image. -/
theorem C3_gray_is_rejected :
    (FWebpImageWrapper.Construct.SetRaw testFill (some [7]) 1 1 1 ERGBFormat.Gray 8 0).ret
      = false ∧
    FWebpImageWrapper.CanSetRawFormat ERGBFormat.Gray 8 = false := by
  decide

/-- Claim C3, amended. For every positive width and height and every non-empty
buffer of at least width*height*channels bytes passed with the default row
stride 0, `SetRaw` accepts exactly the pairs (RGBA, 8) and (BGRA, 8) and rejects
every other (colour layout, bit depth) pair, 8-bit grayscale and every 16-bit
input included; `CanSetRawFormat` is true for exactly the same two pairs. -/
theorem C3_setRaw_accepted_formats (fill : Nat → UInt8) (self : FWebpImageWrapper)
    (Src : List UInt8) (InWidth InHeight : Int) (InFormat : ERGBFormat) (InBitDepth : Int)
    (hW : 0 < InWidth) (hH : 0 < InHeight) (hne : Src ≠ [])
    (hsize : InWidth * InHeight * FWebpImageWrapper.Channels InFormat ≤ Src.length) :
    ((self.SetRaw fill (some Src) Src.length InWidth InHeight InFormat InBitDepth 0).ret = true ↔
      (InFormat = ERGBFormat.RGBA ∨ InFormat = ERGBFormat.BGRA) ∧ InBitDepth = 8) ∧
    (FWebpImageWrapper.CanSetRawFormat InFormat InBitDepth = true ↔
      (InFormat = ERGBFormat.RGBA ∨ InFormat = ERGBFormat.BGRA) ∧ InBitDepth = 8) := by
  refine ⟨?_, canSetRawFormat_iff _ _⟩
  have hlen : 0 < (Src.length : Int) := by
    have : 0 < Src.length := List.length_pos.2 hne
    omega
  by_cases hfmt : (InFormat = ERGBFormat.RGBA ∨ InFormat = ERGBFormat.BGRA) ∧ InBitDepth = 8
  · obtain ⟨hf, hd⟩ := hfmt
    subst hd
    have hch : FWebpImageWrapper.Channels InFormat = 4 := by
      simp [FWebpImageWrapper.Channels, hf]
    rw [hch] at hsize
    have hexp := expectedSize_le (InWidth * InHeight) (Int.mul_pos hW hH)
    rw [setRaw_supported fill self Src _ _ _ _ 0 hlen hW hH hf, if_neg (by omega)]
    simp [hf]
  · rw [setRaw_unsupported fill self _ _ _ _ _ _ _ hfmt]
    simp [hfmt]

/-- Witness for C3 (amended): a 1 by 1 image with a four-byte buffer. -/
theorem C3_setRaw_accepted_formats_witness :
    (FWebpImageWrapper.Construct.SetRaw testFill (some [1, 2, 3, 4])
        ([1, 2, 3, 4] : List UInt8).length 1 1 ERGBFormat.BGRA 8 0).ret = true ↔
      (ERGBFormat.BGRA = ERGBFormat.RGBA ∨ ERGBFormat.BGRA = ERGBFormat.BGRA) ∧ (8 : Int) = 8 :=
  (C3_setRaw_accepted_formats testFill FWebpImageWrapper.Construct [1, 2, 3, 4] 1 1
    ERGBFormat.BGRA 8 (by decide) (by decide) (by decide) (by decide)).1

/-- The copy `Memcpy` with natural-number offsets and a positive count. -/
theorem memcpy_natCast (Dest Src : List UInt8) (b a d : Nat) (hd : 0 < d) :
    Memcpy Dest (b : Int) Src (a : Int) (d : Int) =
      Dest.take b ++ ((Src.drop a).take d ++ Dest.drop (b + d)) := by
  have h : ¬ ((d : Int) ≤ 0 ∨ (b : Int) < 0 ∨ (a : Int) < 0) := by omega
  simp only [Memcpy, if_neg h, Int.toNat_ofNat]

/-- Effect of copying one row inside the bounds of both buffers: the length of
the destination is kept, the bytes before the row are kept, and the row holds
the source bytes. -/
theorem memcpy_row (Dest Src : List UInt8) (b a d : Nat)
    (hdst : b + d ≤ Dest.length) (hsrc : a + d ≤ Src.length) :
    (Dest.take b ++ ((Src.drop a).take d ++ Dest.drop (b + d))).length = Dest.length ∧
    (∀ i, i < b →
      (Dest.take b ++ ((Src.drop a).take d ++ Dest.drop (b + d)))[i]? = Dest[i]?) ∧
    (∀ j, j < d →
      (Dest.take b ++ ((Src.drop a).take d ++ Dest.drop (b + d)))[b + j]? = Src[a + j]?) := by
  have hlb : (Dest.take b).length = b := List.length_take_of_le (by omega)
  have hld : ((Src.drop a).take d).length = d :=
    List.length_take_of_le (by rw [List.length_drop]; omega)
  refine ⟨?_, ?_, ?_⟩
  · simp only [List.length_append, hlb, hld, List.length_drop]
    omega
  · intro i hi
    rw [List.getElem?_append_left (by omega), List.getElem?_take_of_lt hi]
  · intro j hj
    rw [List.getElem?_append_right (by omega), hlb, Nat.add_sub_cancel_left,
      List.getElem?_append_left (by omega), List.getElem?_take_of_lt hj, List.getElem?_drop]

/-- The row loop of `SetRaw` with in-range strides and offsets: after `n` rows the
destination keeps its length and the bytes before the first row, and byte `j`
of row `r` is the source byte at `r * s + j` from the source offset. -/
theorem copyRows_spec (Src : List UInt8) (s d : Nat) (hd : 0 < d) :
    ∀ (n a b : Nat) (Dest : List UInt8), b + n * d ≤ Dest.length →
      (∀ r, r < n → a + r * s + d ≤ Src.length) →
      (copyRows Src (s : Int) (d : Int) n (a : Int) (b : Int) Dest).length = Dest.length ∧
      (∀ i, i < b → (copyRows Src (s : Int) (d : Int) n (a : Int) (b : Int) Dest)[i]? = Dest[i]?) ∧
      (∀ r j, r < n → j < d →
        (copyRows Src (s : Int) (d : Int) n (a : Int) (b : Int) Dest)[b + r * d + j]?
          = Src[a + r * s + j]?) := by
  intro n
  induction n with
  | zero =>
    intro a b Dest _ _
    exact ⟨rfl, fun _ _ => rfl, fun r j hr _ => absurd hr (Nat.not_lt_zero r)⟩
  | succ n ih =>
    intro a b Dest hdst hsrc
    have hmul : (n + 1) * d = n * d + d := Nat.succ_mul n d
    have hsrc0 : a + d ≤ Src.length := by simpa using hsrc 0 (Nat.succ_pos n)
    obtain ⟨hlen, hframe, hrow⟩ := memcpy_row Dest Src b a d (by omega) hsrc0
    have hstep : copyRows Src (s : Int) (d : Int) (n + 1) (a : Int) (b : Int) Dest =
        copyRows Src (s : Int) (d : Int) n ((a + s : Nat) : Int) ((b + d : Nat) : Int)
          (Dest.take b ++ ((Src.drop a).take d ++ Dest.drop (b + d))) := by
      rw [copyRows, memcpy_natCast Dest Src b a d hd, Nat.cast_add, Nat.cast_add]
    obtain ⟨ihlen, ihframe, ihrow⟩ := ih (a + s) (b + d)
      (Dest.take b ++ ((Src.drop a).take d ++ Dest.drop (b + d)))
      (by rw [hlen]; omega)
      (by
        intro r hr
        have := hsrc (r + 1) (by omega)
        rw [Nat.succ_mul] at this
        omega)
    rw [hstep]
    refine ⟨by rw [ihlen, hlen], ?_, ?_⟩
    · intro i hi
      rw [ihframe i (by omega), hframe i hi]
    · intro r j hr hj
      cases r with
      | zero =>
        rw [Nat.zero_mul, Nat.zero_mul, Nat.add_zero, Nat.add_zero,
          ihframe (b + j) (by omega), hrow j hj]
      | succ r =>
        have e1 : b + (r + 1) * d + j = b + d + r * d + j := by rw [Nat.succ_mul]; omega
        have e2 : a + (r + 1) * s + j = a + s + r * s + j := by rw [Nat.succ_mul]; omega
        rw [e1, e2]
        exact ihrow r j (by omega) hj

/-- A successful `SetRaw` had a non-empty buffer, positive dimensions and one of
the two supported 8-bit layouts. -/
theorem setRaw_success_args (fill : Nat → UInt8) (self : FWebpImageWrapper)
    (InRawData : Option (List UInt8)) (InRawSize InWidth InHeight : Int)
    (InFormat : ERGBFormat) (InBitDepth InBytesPerRow : Int)
    (h : (self.SetRaw fill InRawData InRawSize InWidth InHeight InFormat InBitDepth
      InBytesPerRow).ret = true) :
    0 < InRawSize ∧ 0 < InWidth ∧ 0 < InHeight ∧
    (InFormat = ERGBFormat.RGBA ∨ InFormat = ERGBFormat.BGRA) ∧ InBitDepth = 8 := by
  by_cases hargs : InRawData = none ∨ InRawSize ≤ 0 ∨ InWidth ≤ 0 ∨ InHeight ≤ 0
  · rw [setRaw_invalid_arguments fill self _ _ _ _ _ _ _ hargs] at h
    exact absurd h (by simp)
  by_cases hfmt : (InFormat = ERGBFormat.RGBA ∨ InFormat = ERGBFormat.BGRA) ∧ InBitDepth = 8
  · exact ⟨by omega, by omega, by omega, hfmt.1, hfmt.2⟩
  · rw [setRaw_unsupported fill self _ _ _ _ _ _ _ hfmt] at h
    exact absurd h (by simp)

/-- The outcome of `SetRaw` for a supported layout when the row size `w * 4` and
the other `int32` arguments are in range, with all sizes as natural numbers:
failure without change when the buffer is short, the first `w * h * 4` bytes
when the stride is the row size, the row-by-row copy when the buffer covers
`h * s` bytes, and the reset otherwise. -/
theorem setRaw_in_range (fill : Nat → UInt8) (self : FWebpImageWrapper)
    (Src : List UInt8) (n w h : Nat) (InFormat : ERGBFormat) (InBytesPerRow : Int)
    (hn : 0 < n) (hw : 0 < w) (hh : 0 < h)
    (hf : InFormat = ERGBFormat.RGBA ∨ InFormat = ERGBFormat.BGRA)
    (hrow : w * 4 < 2147483648) (hH : h < 2147483648) (hS : InBytesPerRow < 2147483648) :
    self.SetRaw fill (some Src) (n : Int) (w : Int) (h : Int) InFormat 8 InBytesPerRow =
      if n < w * h * 4 then ⟨false, self, []⟩
      else if InBytesPerRow ≤ 0 ∨ InBytesPerRow = ((w * 4 : Nat) : Int) then
        ⟨true, ⟨[], Src.take (w * h * 4), (w : Int), (h : Int), InFormat, 8⟩, []⟩
      else if h * InBytesPerRow.toNat ≤ n then
        ⟨true, ⟨[], copyRows Src ((InBytesPerRow.toNat : Nat) : Int) ((w * 4 : Nat) : Int) h
            ((0 : Nat) : Int) ((0 : Nat) : Int) ((List.range (w * h * 4)).map fill),
          (w : Int), (h : Int), InFormat, 8⟩, []⟩
      else ⟨false, ⟨self.CompressedData, [], 0, 0, ERGBFormat.Invalid, 0⟩, []⟩ := by
  have hprod : w * h * 4 < 4611686018427387904 := by
    have h1 : w * 4 * h < 2147483648 * 2147483648 := Nat.mul_lt_mul'' hrow hH
    have h2 : w * 4 * h = w * h * 4 := by ring
    omega
  have hE : wrapInt64 (wrapInt64 (wrapInt64 ((w : Int) * (h : Int)) * 4) * 1)
      = ((w * h * 4 : Nat) : Int) := by
    have hp : (0 : Int) < (w : Int) * (h : Int) := by positivity
    have hc : ((w * h * 4 : Nat) : Int) = (w : Int) * (h : Int) * 4 := by push_cast; ring
    rw [expectedSize_exact _ hp (by omega), hc]
  have hD : wrapInt32 ((w : Int) * 4) = ((w * 4 : Nat) : Int) := by
    unfold wrapInt32; push_cast; omega
  rw [setRaw_supported fill self Src _ _ _ _ _ (by exact_mod_cast hn) (by exact_mod_cast hw)
    (by exact_mod_cast hh) hf, hE, hD]
  by_cases hshort : n < w * h * 4
  · rw [if_pos (by exact_mod_cast hshort), if_pos hshort]
  rw [if_neg (by exact_mod_cast hshort), if_neg hshort]
  by_cases hpos : InBytesPerRow > 0
  · obtain ⟨s, rfl⟩ := Int.eq_ofNat_of_zero_le (le_of_lt hpos)
    have hnot : ¬ ((s : Int) ≤ 0) := by omega
    simp only [hpos, ↓reduceIte, Int.toNat_ofNat, hnot, false_or]
    by_cases heq : (s : Int) = ((w * 4 : Nat) : Int)
    · rw [if_pos heq, if_pos heq]
    · rw [if_neg heq, if_neg heq]
      have hHS : h * s < 4611686018427387904 := by
        have h1 : h * s < 2147483648 * 2147483648 := Nat.mul_lt_mul'' hH (by omega)
        omega
      have hG : wrapInt64 ((h : Int) * (s : Int)) = ((h * s : Nat) : Int) := by
        rw [← Nat.cast_mul]
        unfold wrapInt64
        omega
      rw [hG]
      simp only [ge_iff_le, Nat.cast_le, Nat.cast_zero, SetNumUninitialized, Int.toNat_ofNat]
  · have hle : InBytesPerRow ≤ 0 := by omega
    simp only [hpos, ↓reduceIte, hle, true_or, Int.toNat_ofNat]

/-- The buffer `twoWideRows` has 8589934600 bytes. -/
theorem twoWideRows_length : twoWideRows.length = 8589934600 := by
  simp only [twoWideRows, List.length_append, List.length_replicate]

/-- Counterexample to C4 as stated: for a 1073741825 by 2 RGBA image with a
supplied row stride of 4, the 32-bit row size 1073741825*4 wraps to 4 and the
buffer is copied contiguously. `SetRaw` succeeds, but the byte of row 1,
column 0 of the decoded buffer (index 1*(w*4)+0) is the source byte at
4294967300, which is 1, and not the source byte at 1*4+0, which is 0. -/
theorem C4_row_size_wraps :
    (FWebpImageWrapper.Construct.SetRaw testFill (some twoWideRows) twoWideRows.length
        1073741825 2 ERGBFormat.RGBA 8 4).ret = true ∧
    (FWebpImageWrapper.Construct.SetRaw testFill (some twoWideRows) twoWideRows.length
        1073741825 2 ERGBFormat.RGBA 8 4).self.RawData[1 * (1073741825 * 4) + 0]? = some 1 ∧
    twoWideRows[1 * 4 + 0]? = some 0 := by
  have hE : wrapInt64 (wrapInt64 (wrapInt64 (1073741825 * 2) * 4) * 1) = 8589934600 := by
    decide
  have hD : wrapInt32 (1073741825 * 4) = 4 := by decide
  have hlen := twoWideRows_length
  have hcast : ((twoWideRows.length : Nat) : Int) = 8589934600 := by rw [hlen]; rfl
  have hnat : (8589934600 : Int).toNat = 8589934600 := by decide
  rw [setRaw_supported testFill _ twoWideRows _ _ _ _ 4 (by rw [hcast]; decide) (by decide)
    (by decide) (Or.inl rfl), hE, hD, hcast, if_neg (by decide), if_pos (by decide)]
  simp only [hnat]
  rw [List.take_of_length_le (by rw [hlen])]
  refine ⟨trivial, ?_, ?_⟩
  · rw [twoWideRows, List.getElem?_append_right (by rw [List.length_replicate]),
      List.length_replicate]
    exact List.getElem?_replicate_of_lt (by decide)
  · rw [twoWideRows, List.getElem?_append_left (by rw [List.length_replicate]; decide)]
    exact List.getElem?_replicate_of_lt (by decide)

/-- Claim C4, amended. Whenever `SetRaw` succeeds with arguments (bytes, w, h,
layout, 8, rowStride) whose row size w*bpp is representable in a signed 32-bit
integer (h and rowStride being `int32` values), with bpp the channel count and
s the effective source stride (rowStride if rowStride > 0, otherwise w*bpp):
the decoded buffer has length exactly w*h*bpp, and for every row r < h and
every column byte j < w*bpp its byte at r*(w*bpp)+j is bytes[r*s+j]; the width,
height, layout and bit depth queries return w, h, layout and 8; and the
compressed buffer is empty. -/
theorem C4_setRaw_success_layout (fill : Nat → UInt8) (self : FWebpImageWrapper)
    (Src : List UInt8) (InWidth InHeight : Int) (InFormat : ERGBFormat) (InBytesPerRow : Int)
    (hsucc : (self.SetRaw fill (some Src) Src.length InWidth InHeight InFormat 8
      InBytesPerRow).ret = true)
    (hrow : InWidth * FWebpImageWrapper.Channels InFormat < 2147483648)
    (hH : InHeight < 2147483648) (hS : InBytesPerRow < 2147483648) :
    (((self.SetRaw fill (some Src) Src.length InWidth InHeight InFormat 8
        InBytesPerRow).self.RawData.length : Int)
      = InWidth * InHeight * FWebpImageWrapper.Channels InFormat) ∧
    (∀ row col : Nat, (row : Int) < InHeight →
      (col : Int) < InWidth * FWebpImageWrapper.Channels InFormat →
      (self.SetRaw fill (some Src) Src.length InWidth InHeight InFormat 8
          InBytesPerRow).self.RawData[
            row * (InWidth * FWebpImageWrapper.Channels InFormat).toNat + col]?
        = Src[row * (if InBytesPerRow > 0 then InBytesPerRow
            else InWidth * FWebpImageWrapper.Channels InFormat).toNat + col]?) ∧
    (self.SetRaw fill (some Src) Src.length InWidth InHeight InFormat 8
      InBytesPerRow).self.GetWidth = InWidth ∧
    (self.SetRaw fill (some Src) Src.length InWidth InHeight InFormat 8
      InBytesPerRow).self.GetHeight = InHeight ∧
    (self.SetRaw fill (some Src) Src.length InWidth InHeight InFormat 8
      InBytesPerRow).self.GetFormat = InFormat ∧
    (self.SetRaw fill (some Src) Src.length InWidth InHeight InFormat 8
      InBytesPerRow).self.GetBitDepth = 8 ∧
    (self.SetRaw fill (some Src) Src.length InWidth InHeight InFormat 8
      InBytesPerRow).self.CompressedData = [] := by
  obtain ⟨hn, hW, hHpos, hf, -⟩ := setRaw_success_args fill self _ _ _ _ _ _ _ hsucc
  have hch : FWebpImageWrapper.Channels InFormat = 4 := by
    simp [FWebpImageWrapper.Channels, hf]
  rw [hch] at hrow ⊢
  obtain ⟨w, rfl⟩ := Int.eq_ofNat_of_zero_le (le_of_lt hW)
  obtain ⟨h, rfl⟩ := Int.eq_ofNat_of_zero_le (le_of_lt hHpos)
  have hw : 0 < w := by omega
  have hh : 0 < h := by omega
  have hlen : 0 < Src.length := by omega
  have hr : w * 4 < 2147483648 := by omega
  have hw4 : ((w : Int) * 4).toNat = w * 4 := by omega
  rw [setRaw_in_range fill self Src Src.length w h InFormat InBytesPerRow hlen hw hh hf hr
    (by omega) hS] at hsucc ⊢
  simp only [FWebpImageWrapper.GetWidth, FWebpImageWrapper.GetHeight,
    FWebpImageWrapper.GetFormat, FWebpImageWrapper.GetBitDepth, hw4]
  by_cases hshort : Src.length < w * h * 4
  · rw [if_pos hshort] at hsucc
    exact absurd hsucc (by simp)
  rw [if_neg hshort] at hsucc ⊢
  by_cases hdef : InBytesPerRow ≤ 0 ∨ InBytesPerRow = ((w * 4 : Nat) : Int)
  · rw [if_pos hdef]
    have hs : (if InBytesPerRow > 0 then InBytesPerRow else (w : Int) * 4).toNat = w * 4 := by
      split_ifs <;> omega
    refine ⟨?_, ?_, rfl, rfl, rfl, rfl, rfl⟩
    · rw [List.length_take_of_le (by omega)]
      push_cast; ring
    · intro row col hrow hcol
      rw [hs]
      have h1 : (row + 1) * (w * 4) ≤ h * (w * 4) := Nat.mul_le_mul_right _ (by omega)
      have h2 : h * (w * 4) = w * h * 4 := by ring
      rw [Nat.succ_mul] at h1
      exact List.getElem?_take_of_lt (by omega)
  rw [if_neg hdef] at hsucc ⊢
  have hpos : InBytesPerRow > 0 := by omega
  obtain ⟨s, rfl⟩ := Int.eq_ofNat_of_zero_le (le_of_lt hpos)
  simp only [Int.toNat_ofNat] at hsucc ⊢
  by_cases hcover : h * s ≤ Src.length
  swap
  · rw [if_neg hcover] at hsucc
    exact absurd hsucc (by simp)
  rw [if_pos hcover]
  have hsrc : ∀ r, r < h → 0 + r * s + w * 4 ≤ Src.length := by
    intro r hr
    have h1 : (r + 1) * s ≤ h * s := Nat.mul_le_mul_right _ (by omega)
    have h2 : (r + 1) * (w * 4) ≤ h * (w * 4) := Nat.mul_le_mul_right _ (by omega)
    have h3 : h * (w * 4) = w * h * 4 := by ring
    rw [Nat.succ_mul] at h1 h2
    rcases Nat.le_total s (w * 4) with hle | hle
    · have h4 : r * s ≤ r * (w * 4) := Nat.mul_le_mul_left _ hle
      omega
    · omega
  obtain ⟨hl, -, hcopy⟩ := copyRows_spec Src s (w * 4) (by omega) h 0 0
    ((List.range (w * h * 4)).map fill)
    (by rw [List.length_map, List.length_range]; have : h * (w * 4) = w * h * 4 := by ring
        omega)
    hsrc
  refine ⟨?_, ?_, rfl, rfl, rfl, rfl, rfl⟩
  · rw [hl, List.length_map, List.length_range]
    push_cast; ring
  · intro row col hrow hcol
    have := hcopy row col (by omega) (by omega)
    simp only [Nat.zero_add] at this
    simp only [hpos, ↓reduceIte, Int.toNat_ofNat]
    exact this

/-- Witness for C4 (amended): a 1 by 2 RGBA image passed with a row stride of six
bytes; the two padding bytes of each row are dropped. -/
theorem C4_setRaw_success_layout_witness :
    (FWebpImageWrapper.Construct.SetRaw testFill (some [1, 2, 3, 4, 0, 0, 5, 6, 7, 8, 0, 0])
        ([1, 2, 3, 4, 0, 0, 5, 6, 7, 8, 0, 0] : List UInt8).length 1 2 ERGBFormat.RGBA 8 6).ret
      = true ∧
    (FWebpImageWrapper.Construct.SetRaw testFill (some [1, 2, 3, 4, 0, 0, 5, 6, 7, 8, 0, 0])
        ([1, 2, 3, 4, 0, 0, 5, 6, 7, 8, 0, 0] : List UInt8).length 1 2 ERGBFormat.RGBA 8
        6).self.RawData = [1, 2, 3, 4, 5, 6, 7, 8] ∧
    ((FWebpImageWrapper.Construct.SetRaw testFill (some [1, 2, 3, 4, 0, 0, 5, 6, 7, 8, 0, 0])
        ([1, 2, 3, 4, 0, 0, 5, 6, 7, 8, 0, 0] : List UInt8).length 1 2 ERGBFormat.RGBA 8
        6).self.RawData.length : Int) = 1 * 2 * FWebpImageWrapper.Channels ERGBFormat.RGBA :=
  ⟨by decide, by decide,
    (C4_setRaw_success_layout testFill FWebpImageWrapper.Construct
      [1, 2, 3, 4, 0, 0, 5, 6, 7, 8, 0, 0] 1 2 ERGBFormat.RGBA 6 (by decide) (by decide)
      (by decide) (by decide)).1⟩

/-- Counterexample to C5 as stated, in two parts. On an instance that already
holds a 1 by 1 image, a call of `SetRaw` whose one-byte buffer is too short for
the 1 by 1 RGBA image fails, and the width and height are still 1 afterwards, not
zero. And a call with a four-byte buffer for a 2147483647 by 2147483647 RGBA
image, far shorter than width*height*4, does not fail: the 64-bit expected size
of line 134 wraps to -17179869180, the size check of line 135 lets the call
pass, and `SetRaw` returns success with the width and height stored. -/
theorem C5_short_buffer_keeps_dimensions_or_passes :
    ((FWebpImageWrapper.Construct.SetRaw testFill (some [1, 2, 3, 4]) 4 1 1
        ERGBFormat.RGBA 8 0).self.SetRaw testFill (some [9]) 1 1 1 ERGBFormat.RGBA 8 0).ret
      = false ∧
    ((FWebpImageWrapper.Construct.SetRaw testFill (some [1, 2, 3, 4]) 4 1 1
        ERGBFormat.RGBA 8 0).self.SetRaw testFill (some [9]) 1 1 1
        ERGBFormat.RGBA 8 0).self.GetWidth = 1 ∧
    ((FWebpImageWrapper.Construct.SetRaw testFill (some [1, 2, 3, 4]) 4 1 1
        ERGBFormat.RGBA 8 0).self.SetRaw testFill (some [9]) 1 1 1
        ERGBFormat.RGBA 8 0).self.GetHeight = 1 ∧
    (4 : Int) < 2147483647 * 2147483647 * FWebpImageWrapper.Channels ERGBFormat.RGBA *
      Int.tdiv 8 8 ∧
    wrapInt64 (wrapInt64 (wrapInt64 (2147483647 * 2147483647) *
      FWebpImageWrapper.Channels ERGBFormat.RGBA) * Int.tdiv 8 8) = -17179869180 ∧
    (FWebpImageWrapper.Construct.SetRaw testFill (some [1, 2, 3, 4]) 4 2147483647 2147483647
        ERGBFormat.RGBA 8 0).ret = true ∧
    (FWebpImageWrapper.Construct.SetRaw testFill (some [1, 2, 3, 4]) 4 2147483647 2147483647
        ERGBFormat.RGBA 8 0).self.GetWidth = 2147483647 ∧
    (FWebpImageWrapper.Construct.SetRaw testFill (some [1, 2, 3, 4]) 4 2147483647 2147483647
        ERGBFormat.RGBA 8 0).self.GetHeight = 2147483647 := by
  decide

/-- Claim C5, amended. For every prior instance and every call of `SetRaw` whose
size argument is below width*height*channels*bytesPerChannel (a product below
2^63, so that the 64-bit expected size does not wrap), `SetRaw` returns failure,
invokes no codec entry point and leaves every field of the instance exactly as
it was: nothing of the call is retained, and width and height keep their prior
values (zero only if they were zero before). -/
theorem C5_setRaw_short_buffer_unchanged (fill : Nat → UInt8) (self : FWebpImageWrapper)
    (InRawData : Option (List UInt8)) (InRawSize InWidth InHeight : Int)
    (InFormat : ERGBFormat) (InBitDepth InBytesPerRow : Int)
    (hshort : InRawSize <
      InWidth * InHeight * FWebpImageWrapper.Channels InFormat * Int.tdiv InBitDepth 8)
    (hrange : InWidth * InHeight * FWebpImageWrapper.Channels InFormat * Int.tdiv InBitDepth 8
      < 9223372036854775808) :
    self.SetRaw fill InRawData InRawSize InWidth InHeight InFormat InBitDepth InBytesPerRow
      = ⟨false, self, []⟩ := by
  by_cases hargs : InRawData = none ∨ InRawSize ≤ 0 ∨ InWidth ≤ 0 ∨ InHeight ≤ 0
  · exact setRaw_invalid_arguments fill self _ _ _ _ _ _ _ hargs
  by_cases hfmt : (InFormat = ERGBFormat.RGBA ∨ InFormat = ERGBFormat.BGRA) ∧ InBitDepth = 8
  swap
  · exact setRaw_unsupported fill self _ _ _ _ _ _ _ hfmt
  obtain ⟨hf, hd⟩ := hfmt
  subst hd
  have hch : FWebpImageWrapper.Channels InFormat = 4 := by
    simp [FWebpImageWrapper.Channels, hf]
  have h88 : Int.tdiv 8 8 = 1 := by decide
  rw [hch, h88] at hshort hrange
  cases InRawData with
  | none => exact absurd (Or.inl rfl) hargs
  | some Src =>
    have hn : 0 < InRawSize := by omega
    have hW : 0 < InWidth := by omega
    have hH : 0 < InHeight := by omega
    have hexact := expectedSize_exact (InWidth * InHeight) (Int.mul_pos hW hH) (by omega)
    rw [setRaw_supported fill self Src _ _ _ _ _ hn hW hH hf, if_pos (by omega)]

/-- Witness for C5 (amended): the short call of the counterexample leaves the
prior 1 by 1 instance untouched. -/
theorem C5_setRaw_short_buffer_unchanged_witness :
    (FWebpImageWrapper.mk [] [1, 2, 3, 4] 1 1 ERGBFormat.RGBA 8).SetRaw testFill (some [9]) 1 1 1
        ERGBFormat.RGBA 8 0
      = ⟨false, FWebpImageWrapper.mk [] [1, 2, 3, 4] 1 1 ERGBFormat.RGBA 8, []⟩ :=
  C5_setRaw_short_buffer_unchanged testFill _ (some [9]) 1 1 1 ERGBFormat.RGBA 8 0
    (by decide) (by decide)

/-! ## Properties of `GetRaw` and `PerformUncompression` -/

/-- Claim C6. For every instance and every requested (layout, depth): the
instance after the flat `GetRaw` is the instance after the optional lazy decode
(`PerformUncompression` runs exactly when the decoded buffer is empty or the
decoded layout is `Invalid`); `GetRaw` returns success if and only if in that
instance the decoded buffer is non-empty and its layout and bit depth both equal
the request; on success the returned bytes are the decoded buffer, and on
failure the caller's output array is what it was before the call. -/
theorem C6_getRaw_success_iff_exact_match (lib : LibWebP) (self : FWebpImageWrapper)
    (InFormat : ERGBFormat) (InBitDepth : Int) (OutRawData : List UInt8) :
    (self.GetRaw lib InFormat InBitDepth OutRawData).self =
      (if self.RawData = [] ∨ self.RawFormat = ERGBFormat.Invalid then
        (self.PerformUncompression lib InFormat InBitDepth).self else self) ∧
    ((self.GetRaw lib InFormat InBitDepth OutRawData).ret.1 = true ↔
      (self.GetRaw lib InFormat InBitDepth OutRawData).self.RawData ≠ [] ∧
      (self.GetRaw lib InFormat InBitDepth OutRawData).self.GetFormat = InFormat ∧
      (self.GetRaw lib InFormat InBitDepth OutRawData).self.GetBitDepth = InBitDepth) ∧
    ((self.GetRaw lib InFormat InBitDepth OutRawData).ret.2 =
      if (self.GetRaw lib InFormat InBitDepth OutRawData).ret.1 = true then
        (self.GetRaw lib InFormat InBitDepth OutRawData).self.RawData
      else OutRawData) := by
  simp only [FWebpImageWrapper.GetRaw, FWebpImageWrapper.GetFormat,
    FWebpImageWrapper.GetBitDepth, List.length_eq_zero, List.length_pos]
  refine ⟨?_, ?_, ?_⟩
  · split_ifs <;> rfl
  · split_ifs <;> simp_all
  · split_ifs <;> simp_all

/-- Witness for C6: a compressed-only 1 by 1 instance is decoded on the first
`GetRaw(BGRA, 8)`, which returns the four decoded bytes. -/
theorem C6_getRaw_success_iff_exact_match_witness :
    ((FWebpImageWrapper.mk webpHeader [] 1 1 ERGBFormat.Invalid 0).GetRaw (testLib 1 1 true)
        ERGBFormat.BGRA 8 []).ret.1 = true ∧
    ((FWebpImageWrapper.mk webpHeader [] 1 1 ERGBFormat.Invalid 0).GetRaw (testLib 1 1 true)
        ERGBFormat.BGRA 8 []).self.GetFormat = ERGBFormat.BGRA ∧
    ((FWebpImageWrapper.mk webpHeader [] 1 1 ERGBFormat.Invalid 0).GetRaw (testLib 1 1 true)
        ERGBFormat.BGRA 8 []).self.GetBitDepth = 8 :=
  have h := (C6_getRaw_success_iff_exact_match (testLib 1 1 true)
    (FWebpImageWrapper.mk webpHeader [] 1 1 ERGBFormat.Invalid 0) ERGBFormat.BGRA 8 []).2.1.1
    (by decide)
  ⟨by decide, h.2.1, h.2.2⟩

/-- Outcome of `GetRaw` on an instance that already holds decoded pixels: no decode is
attempted and the instance is returned as it was. -/
theorem getRaw_cached (lib : LibWebP) (self : FWebpImageWrapper) (InFormat : ERGBFormat)
    (InBitDepth : Int) (OutRawData : List UInt8)
    (hdata : self.RawData ≠ []) (hfmt : self.RawFormat ≠ ERGBFormat.Invalid) :
    self.GetRaw lib InFormat InBitDepth OutRawData =
      ⟨if self.RawFormat = InFormat ∧ self.RawBitDepth = InBitDepth then (true, self.RawData)
        else (false, OutRawData), self, []⟩ := by
  have hlen : ¬ (self.RawData.length = 0 ∨ self.RawFormat = ERGBFormat.Invalid) := by
    simp [hdata, hfmt]
  have hpos : self.RawData.length > 0 := List.length_pos.2 hdata
  simp only [FWebpImageWrapper.GetRaw, if_neg hlen, hpos, true_and]
  split_ifs <;> rfl

/-- On an instance without decoded pixels `GetRaw` runs `PerformUncompression`
and then compares the decoded state with the request. -/
theorem getRaw_decodes (lib : LibWebP) (self : FWebpImageWrapper) (InFormat : ERGBFormat)
    (InBitDepth : Int) (OutRawData : List UInt8)
    (h : self.RawData = [] ∨ self.RawFormat = ERGBFormat.Invalid) :
    self.GetRaw lib InFormat InBitDepth OutRawData =
      ⟨if (self.PerformUncompression lib InFormat InBitDepth).self.RawData ≠ [] ∧
            (self.PerformUncompression lib InFormat InBitDepth).self.RawFormat = InFormat ∧
            (self.PerformUncompression lib InFormat InBitDepth).self.RawBitDepth = InBitDepth
        then (true, (self.PerformUncompression lib InFormat InBitDepth).self.RawData)
        else (false, OutRawData),
        (self.PerformUncompression lib InFormat InBitDepth).self,
        (self.PerformUncompression lib InFormat InBitDepth).calls⟩ := by
  have hlen : self.RawData.length = 0 ∨ self.RawFormat = ERGBFormat.Invalid := by
    simpa using h
  simp only [FWebpImageWrapper.GetRaw, if_pos hlen, gt_iff_lt, List.length_pos]
  split_ifs <;> rfl

/-- Without compressed bytes or with a zero dimension `PerformUncompression`
fails at once and leaves the instance as it was. -/
theorem performUncompression_no_source (lib : LibWebP) (self : FWebpImageWrapper)
    (InFormat : ERGBFormat) (InBitDepth : Int)
    (h : self.CompressedData = [] ∨ self.Width = 0 ∨ self.Height = 0) :
    self.PerformUncompression lib InFormat InBitDepth = ⟨false, self, []⟩ := by
  have h2 : self.CompressedData.length = 0 ∨ self.Width = 0 ∨ self.Height = 0 := by
    simpa using h
  simp only [FWebpImageWrapper.PerformUncompression, if_pos h2]

/-- Outcome of `PerformUncompression` to (RGBA, 8) with a compressed source: one call of the
RGBA decoder on a buffer of `Stride * Height` bytes. -/
theorem performUncompression_RGBA (lib : LibWebP) (self : FWebpImageWrapper)
    (h : ¬ (self.CompressedData = [] ∨ self.Width = 0 ∨ self.Height = 0)) :
    self.PerformUncompression lib ERGBFormat.RGBA 8 =
      match lib.WebPDecodeRGBAInto self.CompressedData
          (wrapInt32 (wrapInt32 (self.Width * 4) * self.Height)).toNat
          (wrapInt32 (self.Width * 4)) with
      | some Pixels =>
        ⟨true, ⟨self.CompressedData,
            (List.range (wrapInt32 (wrapInt32 (self.Width * 4) * self.Height)).toNat).map Pixels,
            self.Width, self.Height, ERGBFormat.RGBA, 8⟩,
          [CodecCall.DecodeRGBAInto self.CompressedData
            (wrapInt32 (wrapInt32 (self.Width * 4) * self.Height)).toNat
            (wrapInt32 (self.Width * 4))]⟩
      | none =>
        ⟨false, ⟨self.CompressedData, [], self.Width, self.Height, ERGBFormat.Invalid, 0⟩,
          [CodecCall.DecodeRGBAInto self.CompressedData
            (wrapInt32 (wrapInt32 (self.Width * 4) * self.Height)).toNat
            (wrapInt32 (self.Width * 4))]⟩ := by
  have h2 : ¬ (self.CompressedData.length = 0 ∨ self.Width = 0 ∨ self.Height = 0) := by
    simpa using h
  simp only [FWebpImageWrapper.PerformUncompression, if_neg h2, and_self, ↓reduceIte]

/-- Outcome of `PerformUncompression` to (BGRA, 8) with a compressed source: one call of the
BGRA decoder on a buffer of `Stride * Height` bytes. -/
theorem performUncompression_BGRA (lib : LibWebP) (self : FWebpImageWrapper)
    (h : ¬ (self.CompressedData = [] ∨ self.Width = 0 ∨ self.Height = 0)) :
    self.PerformUncompression lib ERGBFormat.BGRA 8 =
      match lib.WebPDecodeBGRAInto self.CompressedData
          (wrapInt32 (wrapInt32 (self.Width * 4) * self.Height)).toNat
          (wrapInt32 (self.Width * 4)) with
      | some Pixels =>
        ⟨true, ⟨self.CompressedData,
            (List.range (wrapInt32 (wrapInt32 (self.Width * 4) * self.Height)).toNat).map Pixels,
            self.Width, self.Height, ERGBFormat.BGRA, 8⟩,
          [CodecCall.DecodeBGRAInto self.CompressedData
            (wrapInt32 (wrapInt32 (self.Width * 4) * self.Height)).toNat
            (wrapInt32 (self.Width * 4))]⟩
      | none =>
        ⟨false, ⟨self.CompressedData, [], self.Width, self.Height, ERGBFormat.Invalid, 0⟩,
          [CodecCall.DecodeBGRAInto self.CompressedData
            (wrapInt32 (wrapInt32 (self.Width * 4) * self.Height)).toNat
            (wrapInt32 (self.Width * 4))]⟩ := by
  have h2 : ¬ (self.CompressedData.length = 0 ∨ self.Width = 0 ∨ self.Height = 0) := by
    simpa using h
  simp only [FWebpImageWrapper.PerformUncompression, if_neg h2, and_self, ↓reduceIte,
    reduceCtorEq, false_and]

/-- A successful flat `GetRaw` leaves decoded pixels in exactly the requested
layout and depth, and returns them. -/
theorem getRaw_success (lib : LibWebP) (self : FWebpImageWrapper) (InFormat : ERGBFormat)
    (InBitDepth : Int) (OutRawData : List UInt8)
    (h : (self.GetRaw lib InFormat InBitDepth OutRawData).ret.1 = true) :
    (self.GetRaw lib InFormat InBitDepth OutRawData).self.RawData ≠ [] ∧
    (self.GetRaw lib InFormat InBitDepth OutRawData).self.RawFormat = InFormat ∧
    (self.GetRaw lib InFormat InBitDepth OutRawData).self.RawBitDepth = InBitDepth ∧
    (self.GetRaw lib InFormat InBitDepth OutRawData).ret.2 =
      (self.GetRaw lib InFormat InBitDepth OutRawData).self.RawData := by
  simp only [FWebpImageWrapper.GetRaw, List.length_eq_zero, gt_iff_lt, List.length_pos] at h ⊢
  split_ifs at h ⊢ <;> simp_all

/-- Counterexample to C7 as stated: with a codec whose decode fails, the second
of two successive `GetRaw(BGRA, 8)` calls on a compressed-only instance invokes
the decoder again. -/
theorem C7_failed_decode_is_retried :
    ((FWebpImageWrapper.Construct.SetCompressed (testLib 1 1 false) (some webpHeader)
        12).self.GetRaw (testLib 1 1 false) ERGBFormat.BGRA 8 []).calls
      = [CodecCall.DecodeBGRAInto webpHeader 4 4] ∧
    (((FWebpImageWrapper.Construct.SetCompressed (testLib 1 1 false) (some webpHeader)
        12).self.GetRaw (testLib 1 1 false) ERGBFormat.BGRA 8 []).self.GetRaw
        (testLib 1 1 false) ERGBFormat.BGRA 8 []).calls
      = [CodecCall.DecodeBGRAInto webpHeader 4 4] := by
  decide

/-- Claim C7, amended. With every codec invocation recorded: for every instance,
when `GetRaw(BGRA, 8)` is called twice in succession, the second call returns
the same result and bytes as the first and leaves the instance as the first
call left it; and whenever the first call succeeded, or made no codec call, the
second call invokes no codec entry point (a decode that failed is attempted
again). -/
theorem C7_getRaw_twice (lib : LibWebP) (self : FWebpImageWrapper) (OutRawData : List UInt8) :
    (((self.GetRaw lib ERGBFormat.BGRA 8 OutRawData).ret.1 = true ∨
        (self.GetRaw lib ERGBFormat.BGRA 8 OutRawData).calls = []) →
      ((self.GetRaw lib ERGBFormat.BGRA 8 OutRawData).self.GetRaw lib ERGBFormat.BGRA 8
        (self.GetRaw lib ERGBFormat.BGRA 8 OutRawData).ret.2).calls = []) ∧
    ((self.GetRaw lib ERGBFormat.BGRA 8 OutRawData).self.GetRaw lib ERGBFormat.BGRA 8
        (self.GetRaw lib ERGBFormat.BGRA 8 OutRawData).ret.2).ret =
      (self.GetRaw lib ERGBFormat.BGRA 8 OutRawData).ret ∧
    ((self.GetRaw lib ERGBFormat.BGRA 8 OutRawData).self.GetRaw lib ERGBFormat.BGRA 8
        (self.GetRaw lib ERGBFormat.BGRA 8 OutRawData).ret.2).self =
      (self.GetRaw lib ERGBFormat.BGRA 8 OutRawData).self := by
  by_cases hc : self.RawData ≠ [] ∧ self.RawFormat ≠ ERGBFormat.Invalid
  · rw [getRaw_cached lib self _ _ _ hc.1 hc.2]
    simp only
    rw [getRaw_cached lib self _ _ _ hc.1 hc.2]
    split_ifs <;> simp
  have hd : self.RawData = [] ∨ self.RawFormat = ERGBFormat.Invalid := by tauto
  by_cases hsrc : self.CompressedData = [] ∨ self.Width = 0 ∨ self.Height = 0
  · have hno : ¬ (self.RawData ≠ [] ∧ self.RawFormat = ERGBFormat.BGRA ∧
        self.RawBitDepth = 8) := by
      rintro ⟨h1, h2, -⟩
      rcases hd with hd | hd
      · exact h1 hd
      · rw [hd] at h2; exact absurd h2 (by decide)
    rw [getRaw_decodes lib self _ _ _ hd, performUncompression_no_source lib self _ _ hsrc]
    simp only [if_neg hno]
    rw [getRaw_decodes lib self _ _ _ hd, performUncompression_no_source lib self _ _ hsrc]
    simp only [if_neg hno]
    simp
  rw [getRaw_decodes lib self _ _ _ hd, performUncompression_BGRA lib self hsrc]
  cases hdec : lib.WebPDecodeBGRAInto self.CompressedData
      (wrapInt32 (wrapInt32 (self.Width * 4) * self.Height)).toNat (wrapInt32 (self.Width * 4)) with
  | none =>
    simp only [ne_eq, not_true_eq_false, false_and, ↓reduceIte]
    rw [getRaw_decodes lib _ _ _ _ (Or.inl rfl),
      performUncompression_BGRA lib
        ⟨self.CompressedData, [], self.Width, self.Height, ERGBFormat.Invalid, 0⟩ hsrc]
    simp [hdec]
  | some Pixels =>
    by_cases hempty : (List.range
        (wrapInt32 (wrapInt32 (self.Width * 4) * self.Height)).toNat).map Pixels = []
    · simp only [hempty, ne_eq, not_true_eq_false, false_and, ↓reduceIte]
      rw [getRaw_decodes lib _ _ _ _ (Or.inl rfl),
        performUncompression_BGRA lib
          ⟨self.CompressedData, [], self.Width, self.Height, ERGBFormat.BGRA, 8⟩ hsrc]
      simp [hdec, hempty]
    · simp only [ne_eq, hempty, not_false_eq_true, and_self, ↓reduceIte]
      rw [getRaw_cached lib
        ⟨self.CompressedData, (List.range
          (wrapInt32 (wrapInt32 (self.Width * 4) * self.Height)).toNat).map Pixels,
          self.Width, self.Height, ERGBFormat.BGRA, 8⟩ _ _ _ hempty (by simp)]
      simp

/-- Witness for C7 (amended): after a successful first decode the second call is
served from the cached pixels. -/
theorem C7_getRaw_twice_witness :
    ((FWebpImageWrapper.mk webpHeader [] 1 1 ERGBFormat.Invalid 0).GetRaw (testLib 1 1 true)
        ERGBFormat.BGRA 8 []).ret.1 = true ∧
    (((FWebpImageWrapper.mk webpHeader [] 1 1 ERGBFormat.Invalid 0).GetRaw (testLib 1 1 true)
        ERGBFormat.BGRA 8 []).self.GetRaw (testLib 1 1 true) ERGBFormat.BGRA 8
      ((FWebpImageWrapper.mk webpHeader [] 1 1 ERGBFormat.Invalid 0).GetRaw (testLib 1 1 true)
        ERGBFormat.BGRA 8 []).ret.2).calls = [] :=
  ⟨by decide, (C7_getRaw_twice (testLib 1 1 true)
    (FWebpImageWrapper.mk webpHeader [] 1 1 ERGBFormat.Invalid 0) []).1 (Or.inl (by decide))⟩

/-- Counterexample to C8 as stated: after a successful `GetRaw(RGBA, 8)` on a
compressed-only instance, `GetRaw(BGRA, 8)` fails without any codec call,
although the BGRA decoder would succeed on the retained compressed bytes. -/
theorem C8_second_target_is_not_decoded :
    ((FWebpImageWrapper.Construct.SetCompressed (testLib 1 1 true) (some webpHeader)
        12).self.GetRaw (testLib 1 1 true) ERGBFormat.RGBA 8 []).ret.1 = true ∧
    (((FWebpImageWrapper.Construct.SetCompressed (testLib 1 1 true) (some webpHeader)
        12).self.GetRaw (testLib 1 1 true) ERGBFormat.RGBA 8 []).self.GetRaw
        (testLib 1 1 true) ERGBFormat.BGRA 8 []).ret.1 = false ∧
    (((FWebpImageWrapper.Construct.SetCompressed (testLib 1 1 true) (some webpHeader)
        12).self.GetRaw (testLib 1 1 true) ERGBFormat.RGBA 8 []).self.GetRaw
        (testLib 1 1 true) ERGBFormat.BGRA 8 []).calls = [] ∧
    ((FWebpImageWrapper.Construct.SetCompressed (testLib 1 1 true) (some webpHeader)
        12).self.GetRaw (testLib 1 1 true) ERGBFormat.RGBA 8 []).self.CompressedData
      = webpHeader ∧
    ((testLib 1 1 true).WebPDecodeBGRAInto webpHeader 4 4).isSome = true := by
  decide

/-- Claim C8, amended. For every instance on which `GetRaw` to one implemented
target has succeeded, a following `GetRaw` for the other implemented target
invokes no codec entry point and fails: the instance (decoded pixels in the
first layout, retained compressed bytes, dimensions) and the caller's output
array are left as they were. This holds for (RGBA, 8) followed by (BGRA, 8) and
for (BGRA, 8) followed by (RGBA, 8). -/
theorem C8_getRaw_other_target_fails (lib : LibWebP) (self : FWebpImageWrapper)
    (OutRawData OutRawData2 : List UInt8) :
    ((self.GetRaw lib ERGBFormat.RGBA 8 OutRawData).ret.1 = true →
      (self.GetRaw lib ERGBFormat.RGBA 8 OutRawData).self.GetRaw lib ERGBFormat.BGRA 8 OutRawData2
        = ⟨(false, OutRawData2), (self.GetRaw lib ERGBFormat.RGBA 8 OutRawData).self, []⟩) ∧
    ((self.GetRaw lib ERGBFormat.BGRA 8 OutRawData).ret.1 = true →
      (self.GetRaw lib ERGBFormat.BGRA 8 OutRawData).self.GetRaw lib ERGBFormat.RGBA 8 OutRawData2
        = ⟨(false, OutRawData2), (self.GetRaw lib ERGBFormat.BGRA 8 OutRawData).self, []⟩) := by
  constructor
  · intro h
    obtain ⟨hdata, hfmt, -, -⟩ := getRaw_success lib self _ _ _ h
    rw [getRaw_cached lib _ _ _ _ hdata (by rw [hfmt]; decide)]
    simp [hfmt]
  · intro h
    obtain ⟨hdata, hfmt, -, -⟩ := getRaw_success lib self _ _ _ h
    rw [getRaw_cached lib _ _ _ _ hdata (by rw [hfmt]; decide)]
    simp [hfmt]

/-- Witness for C8 (amended): RGBA is decoded first, then BGRA is requested. -/
theorem C8_getRaw_other_target_fails_witness :
    ((FWebpImageWrapper.mk webpHeader [] 1 1 ERGBFormat.Invalid 0).GetRaw (testLib 1 1 true)
        ERGBFormat.RGBA 8 []).ret.1 = true ∧
    ((FWebpImageWrapper.mk webpHeader [] 1 1 ERGBFormat.Invalid 0).GetRaw (testLib 1 1 true)
        ERGBFormat.RGBA 8 []).self.GetRaw (testLib 1 1 true) ERGBFormat.BGRA 8 [7]
      = ⟨(false, [7]), ((FWebpImageWrapper.mk webpHeader [] 1 1 ERGBFormat.Invalid 0).GetRaw
          (testLib 1 1 true) ERGBFormat.RGBA 8 []).self, []⟩ :=
  ⟨by decide, (C8_getRaw_other_target_fails (testLib 1 1 true)
    (FWebpImageWrapper.mk webpHeader [] 1 1 ERGBFormat.Invalid 0) [] [7]).1 (by decide)⟩

/-! ## Properties of `GetCompressed` -/

/-- The conversion `(float)x` is exact for magnitudes up to 2^24, the qualities
0 to 100 included. -/
theorem castToFloat_exact (x : Int) (h : -16777216 ≤ x ∧ x ≤ 16777216) :
    castToFloat x = x := by
  unfold castToFloat floatSpacing
  by_cases hlt : x.natAbs < 16777216
  · simp only [if_pos hlt, Nat.div_one, Nat.mod_one, Nat.mul_zero, Nat.lt_one_iff,
      ↓reduceIte, Nat.mul_one]
    exact Int.sign_mul_natAbs x
  · have ha : x.natAbs = 16777216 := by omega
    rw [ha]
    simp only [Nat.lt_irrefl, ↓reduceIte]
    have hx : Int.sign x * ((x.natAbs : Nat) : Int) = x := Int.sign_mul_natAbs x
    rw [ha] at hx
    exact hx

/-- Outcome of `GetCompressed` on an instance that holds RGBA pixels at 8 bits:
one call of the RGBA encoder with the 32-bit stride and `(float)Quality`. -/
theorem getCompressed_RGBA (lib : LibWebP) (self : FWebpImageWrapper) (Quality : Int)
    (h : self.RawData ≠ [] ∧ self.Width ≠ 0 ∧ self.Height ≠ 0 ∧
      self.RawFormat = ERGBFormat.RGBA ∧ self.RawBitDepth = 8) :
    self.GetCompressed lib Quality =
      ⟨FWebpImageWrapper.encoded (lib.WebPEncodeRGBA self.RawData self.Width self.Height
          (wrapInt32 (self.Width * 4)) (castToFloat Quality)),
        self,
        [CodecCall.EncodeRGBA self.RawData self.Width self.Height
          (wrapInt32 (self.Width * 4)) (castToFloat Quality)]⟩ := by
  obtain ⟨h1, h2, h3, h4, h5⟩ := h
  simp [FWebpImageWrapper.GetCompressed, h1, h2, h3, h4, h5]

/-- Outcome of `GetCompressed` on an instance that holds BGRA pixels at 8 bits:
one call of the BGRA encoder with the 32-bit stride and `(float)Quality`. -/
theorem getCompressed_BGRA (lib : LibWebP) (self : FWebpImageWrapper) (Quality : Int)
    (h : self.RawData ≠ [] ∧ self.Width ≠ 0 ∧ self.Height ≠ 0 ∧
      self.RawFormat = ERGBFormat.BGRA ∧ self.RawBitDepth = 8) :
    self.GetCompressed lib Quality =
      ⟨FWebpImageWrapper.encoded (lib.WebPEncodeBGRA self.RawData self.Width self.Height
          (wrapInt32 (self.Width * 4)) (castToFloat Quality)),
        self,
        [CodecCall.EncodeBGRA self.RawData self.Width self.Height
          (wrapInt32 (self.Width * 4)) (castToFloat Quality)]⟩ := by
  obtain ⟨h1, h2, h3, h4, h5⟩ := h
  simp [FWebpImageWrapper.GetCompressed, h1, h2, h3, h4, h5]

/-- Counterexample to C9 as stated, in two parts. The encoder receives
`(float)Quality`, not the quality value: a 1 by 1 RGBA image compressed with the
quality 16777217 is encoded with 16777216. And the stride is the 32-bit product:
after `SetRaw` of a 1073741825 by 2 RGBA image the encoder is called with the
stride 4, while width*4 is 4294967300. -/
theorem C9_quality_is_rounded_and_stride_wraps :
    ((FWebpImageWrapper.Construct.SetRaw testFill (some [1, 2, 3, 4]) 4 1 1 ERGBFormat.RGBA 8
        0).self.GetCompressed (testLib 1 1 true) 16777217).calls
      = [CodecCall.EncodeRGBA [1, 2, 3, 4] 1 1 4 16777216] ∧
    (FWebpImageWrapper.Construct.SetRaw testFill (some twoWideRows) twoWideRows.length
        1073741825 2 ERGBFormat.RGBA 8 0).ret = true ∧
    (FWebpImageWrapper.Construct.SetRaw testFill (some twoWideRows) twoWideRows.length
        1073741825 2 ERGBFormat.RGBA 8 0).self.Width * 4 = 4294967300 ∧
    ((FWebpImageWrapper.Construct.SetRaw testFill (some twoWideRows) twoWideRows.length
        1073741825 2 ERGBFormat.RGBA 8 0).self.GetCompressed (testLib 1 1 true) 80).calls
      = [CodecCall.EncodeRGBA twoWideRows 1073741825 2 4 80] := by
  have hE : wrapInt64 (wrapInt64 (wrapInt64 (1073741825 * 2) * 4) * 1) = 8589934600 := by
    decide
  have hD : wrapInt32 (1073741825 * 4) = 4 := by decide
  have hlen := twoWideRows_length
  have hcast : ((twoWideRows.length : Nat) : Int) = 8589934600 := by rw [hlen]; rfl
  have hnat : (8589934600 : Int).toNat = 8589934600 := by decide
  have hstride : (if (0 : Int) > 0 then (0 : Int) else (4 : Int)) = 4 := by decide
  have hset : FWebpImageWrapper.Construct.SetRaw testFill (some twoWideRows)
      twoWideRows.length 1073741825 2 ERGBFormat.RGBA 8 0
      = ⟨true, ⟨[], twoWideRows, 1073741825, 2, ERGBFormat.RGBA, 8⟩, []⟩ := by
    rw [setRaw_supported testFill _ twoWideRows _ _ _ _ 0 (by rw [hcast]; decide) (by decide)
      (by decide) (Or.inl rfl), hE, hD, hcast, if_neg (by decide), if_pos hstride, hnat,
      List.take_of_length_le (by rw [hlen])]
  have hne : twoWideRows ≠ [] := by
    intro h
    have := congrArg List.length h
    rw [hlen] at this
    exact absurd this (by decide)
  have h80 : castToFloat 80 = 80 := by decide
  rw [hset]
  refine ⟨by decide, rfl, by decide, ?_⟩
  rw [getCompressed_RGBA (testLib 1 1 true) _ 80 ⟨hne, by decide, by decide, rfl, rfl⟩]
  simp only [hD, h80]

/-- Claim C9, amended. For every instance and every quality value `GetCompressed`
leaves the instance unchanged. It returns the empty byte sequence, without
calling the codec, when the decoded buffer is empty, the width or height is
zero, or the decoded layout/depth is neither (RGBA, 8) nor (BGRA, 8). Otherwise,
when the row size width*4 is representable in a signed 32-bit integer, it calls
the encoder of the decoded layout exactly once with (decoded bytes, width,
height, stride = width*4, `(float)`quality) and returns what that call produced:
the empty sequence when the codec returns size zero or a null buffer, and
otherwise exactly the returned number of bytes of the codec's output buffer.
The value `(float)`quality is the quality itself for every quality of
magnitude up to 2^24, the range 0 to 100 included. -/
theorem C9_getCompressed (lib : LibWebP) (self : FWebpImageWrapper) (Quality : Int) :
    (self.GetCompressed lib Quality).self = self ∧
    ((self.RawData = [] ∨ self.Width = 0 ∨ self.Height = 0 ∨
        ¬ ((self.RawFormat = ERGBFormat.RGBA ∨ self.RawFormat = ERGBFormat.BGRA) ∧
          self.RawBitDepth = 8)) →
      (self.GetCompressed lib Quality).ret = [] ∧ (self.GetCompressed lib Quality).calls = []) ∧
    ((self.RawData ≠ [] ∧ self.Width ≠ 0 ∧ self.Height ≠ 0 ∧
        self.RawFormat = ERGBFormat.RGBA ∧ self.RawBitDepth = 8) →
      (-2147483648 ≤ self.Width * 4 ∧ self.Width * 4 < 2147483648) →
      (self.GetCompressed lib Quality).calls =
        [CodecCall.EncodeRGBA self.RawData self.Width self.Height (self.Width * 4)
          (castToFloat Quality)] ∧
      (self.GetCompressed lib Quality).ret = FWebpImageWrapper.encoded
        (lib.WebPEncodeRGBA self.RawData self.Width self.Height (self.Width * 4)
          (castToFloat Quality))) ∧
    ((self.RawData ≠ [] ∧ self.Width ≠ 0 ∧ self.Height ≠ 0 ∧
        self.RawFormat = ERGBFormat.BGRA ∧ self.RawBitDepth = 8) →
      (-2147483648 ≤ self.Width * 4 ∧ self.Width * 4 < 2147483648) →
      (self.GetCompressed lib Quality).calls =
        [CodecCall.EncodeBGRA self.RawData self.Width self.Height (self.Width * 4)
          (castToFloat Quality)] ∧
      (self.GetCompressed lib Quality).ret = FWebpImageWrapper.encoded
        (lib.WebPEncodeBGRA self.RawData self.Width self.Height (self.Width * 4)
          (castToFloat Quality))) ∧
    (∀ (Size : Nat) (Buffer : Option (List UInt8)),
      (Size = 0 ∨ Buffer = none) → FWebpImageWrapper.encoded (Size, Buffer) = []) ∧
    (∀ (Size : Nat) (Buffer : List UInt8),
      0 < Size → FWebpImageWrapper.encoded (Size, some Buffer) = Buffer.take Size) ∧
    ((-16777216 ≤ Quality ∧ Quality ≤ 16777216) → castToFloat Quality = Quality) := by
  refine ⟨?_, ?_, ?_, ?_, ?_, ?_, castToFloat_exact Quality⟩
  · simp only [FWebpImageWrapper.GetCompressed]
    split_ifs <;> rfl
  · intro h
    simp only [FWebpImageWrapper.GetCompressed, List.length_eq_zero]
    split_ifs with h1 h2 h3
    · exact ⟨rfl, rfl⟩
    · exact absurd h (by simp_all)
    · exact absurd h (by simp_all)
    · exact ⟨rfl, rfl⟩
  · intro h hrange
    have hs : wrapInt32 (self.Width * 4) = self.Width * 4 := by unfold wrapInt32; omega
    rw [getCompressed_RGBA lib self Quality h, hs]
    exact ⟨rfl, rfl⟩
  · intro h hrange
    have hs : wrapInt32 (self.Width * 4) = self.Width * 4 := by unfold wrapInt32; omega
    rw [getCompressed_BGRA lib self Quality h, hs]
    exact ⟨rfl, rfl⟩
  · rintro Size Buffer (h | h)
    · subst h
      cases Buffer <;> simp [FWebpImageWrapper.encoded]
    · subst h
      simp [FWebpImageWrapper.encoded]
  · intro Size Buffer h
    simp [FWebpImageWrapper.encoded, h]

/-- Witness for C9 (amended): a 1 by 1 RGBA instance is encoded with stride 4 and
the quality 80. -/
theorem C9_getCompressed_witness :
    ((FWebpImageWrapper.mk [] [1, 2, 3, 4] 1 1 ERGBFormat.RGBA 8).GetCompressed
        (testLib 1 1 true) 80).calls
      = [CodecCall.EncodeRGBA [1, 2, 3, 4] 1 (1 : Int) ((1 : Int) * 4) (castToFloat 80)] ∧
    castToFloat 80 = 80 ∧
    ((FWebpImageWrapper.mk [] [1, 2, 3, 4] 1 1 ERGBFormat.RGBA 8).GetCompressed
        (testLib 1 1 true) 80).ret = webpHeader :=
  ⟨((C9_getCompressed (testLib 1 1 true) (FWebpImageWrapper.mk [] [1, 2, 3, 4] 1 1
      ERGBFormat.RGBA 8) 80).2.2.1 (by decide) (by decide)).1,
    (C9_getCompressed (testLib 1 1 true) (FWebpImageWrapper.mk [] [1, 2, 3, 4] 1 1
      ERGBFormat.RGBA 8) 80).2.2.2.2.2.2 (by decide),
    by decide⟩

/-! ## Round trip through the codec -/

/-- Counterexample to C10 as stated: for a 32768 by 32768 RGBA image the codec
double encodes the raw buffer to bytes carrying the markers, probes them to
(32768, 32768) and succeeds on every decode call. Still, `SetRaw`,
`GetCompressed`, `SetCompressed` and then `GetRaw(RGBA, 8)` fails: the 32-bit
product `Stride * Height` = 131072 * 32768 wraps to 0, so the decoder is called
with a buffer of 0 bytes and the decoded buffer stays empty. -/
theorem C10_large_image_does_not_round_trip :
    (FWebpImageWrapper.Construct.SetRaw testFill (some (List.replicate 4294967296 0))
        (List.replicate 4294967296 (0 : UInt8)).length 32768 32768 ERGBFormat.RGBA 8 0).ret
      = true ∧
    ((FWebpImageWrapper.Construct.SetRaw testFill (some (List.replicate 4294967296 0))
        (List.replicate 4294967296 (0 : UInt8)).length 32768 32768 ERGBFormat.RGBA 8
        0).self.GetCompressed (testLib 32768 32768 true) 80).ret = webpHeader ∧
    (testLib 32768 32768 true).WebPGetInfo webpHeader = some (32768, 32768) ∧
    ((testLib 32768 32768 true).WebPDecodeRGBAInto webpHeader (32768 * 32768 * 4)
        (32768 * 4)).isSome = true ∧
    (((FWebpImageWrapper.Construct.SetRaw testFill (some (List.replicate 4294967296 0))
        (List.replicate 4294967296 (0 : UInt8)).length 32768 32768 ERGBFormat.RGBA 8
        0).self.SetCompressed (testLib 32768 32768 true) (some webpHeader)
        webpHeader.length).self.GetRaw (testLib 32768 32768 true) ERGBFormat.RGBA 8 []).ret.1
      = false ∧
    (((FWebpImageWrapper.Construct.SetRaw testFill (some (List.replicate 4294967296 0))
        (List.replicate 4294967296 (0 : UInt8)).length 32768 32768 ERGBFormat.RGBA 8
        0).self.SetCompressed (testLib 32768 32768 true) (some webpHeader)
        webpHeader.length).self.GetRaw (testLib 32768 32768 true) ERGBFormat.RGBA 8 []).calls
      = [CodecCall.DecodeRGBAInto webpHeader 0 131072] := by
  have hlen : (List.replicate 4294967296 (0 : UInt8)).length = 4294967296 :=
    List.length_replicate _ _
  have hset : FWebpImageWrapper.Construct.SetRaw testFill (some (List.replicate 4294967296 0))
      (List.replicate 4294967296 (0 : UInt8)).length 32768 32768 ERGBFormat.RGBA 8 0
      = ⟨true, ⟨[], List.replicate 4294967296 0, 32768, 32768, ERGBFormat.RGBA, 8⟩, []⟩ := by
    have h := setRaw_in_range testFill FWebpImageWrapper.Construct
      (List.replicate 4294967296 0) 4294967296 32768 32768 ERGBFormat.RGBA 0 (by decide)
      (by decide) (by decide) (Or.inl rfl) (by decide) (by decide) (by decide)
    rw [if_neg (by decide), if_pos (Or.inl (by decide)),
      List.take_of_length_le (by rw [hlen])] at h
    rw [hlen]
    exact h
  have hcomp : ∀ rd : List UInt8, rd ≠ [] →
      ((FWebpImageWrapper.mk [] rd 32768 32768 ERGBFormat.RGBA 8).GetCompressed
        (testLib 32768 32768 true) 80).ret = webpHeader := by
    intro rd hrd
    simp only [FWebpImageWrapper.GetCompressed, List.length_eq_zero, hrd, false_or]
    rfl
  have hdecode : ∀ rd : List UInt8,
      (((FWebpImageWrapper.mk [] rd 32768 32768 ERGBFormat.RGBA 8).SetCompressed
        (testLib 32768 32768 true) (some webpHeader) webpHeader.length).self.GetRaw
        (testLib 32768 32768 true) ERGBFormat.RGBA 8 []).ret.1 = false ∧
      (((FWebpImageWrapper.mk [] rd 32768 32768 ERGBFormat.RGBA 8).SetCompressed
        (testLib 32768 32768 true) (some webpHeader) webpHeader.length).self.GetRaw
        (testLib 32768 32768 true) ERGBFormat.RGBA 8 []).calls
        = [CodecCall.DecodeRGBAInto webpHeader 0 131072] := by
    intro rd
    exact ⟨rfl, rfl⟩
  rw [hset]
  refine ⟨rfl, hcomp _ ?_, rfl, by decide, (hdecode _).1, (hdecode _).2⟩
  intro h
  have := congrArg List.length h
  rw [hlen] at this
  exact absurd this (by decide)

/-- Claim C10, amended. Round trip for images whose pixel buffer fits a signed
32-bit size (w*h*4 < 2^31, which the container limit of 16383 per side
guarantees), with a codec whose encode of the w-by-h image yields bytes that
carry the `RIFF`/`WEBP` markers, probe to (w, h) and decode into a buffer of
w*h*4 bytes with stride w*4: for every w, h > 0 and every raw 8-bit RGBA buffer
of size w*h*4, `SetRaw` followed by `GetCompressed` yields those non-empty
bytes, and `SetCompressed` of them (on any instance, the same one included)
followed by `GetRaw(RGBA, 8)` succeeds with width w, height h and a buffer of
length exactly w*h*4. -/
theorem C10_round_trip (lib : LibWebP) (fill : Nat → UInt8) (self other : FWebpImageWrapper)
    (Src : List UInt8) (InWidth InHeight Quality : Int) (OutRawData Encoded : List UInt8)
    (Pixels : Nat → UInt8)
    (hW : 0 < InWidth) (hH : 0 < InHeight) (hsmall : InWidth * InHeight * 4 < 2147483648)
    (hlen : (Src.length : Int) = InWidth * InHeight * 4)
    (henc : FWebpImageWrapper.encoded
      (lib.WebPEncodeRGBA Src InWidth InHeight (InWidth * 4) (castToFloat Quality))
        = Encoded)
    (h12 : 12 ≤ Encoded.length) (hriff : Encoded.take 4 = [82, 73, 70, 70])
    (hwebp : (Encoded.drop 8).take 4 = [87, 69, 66, 80])
    (hprobe : lib.WebPGetInfo Encoded = some (InWidth, InHeight))
    (hdec : lib.WebPDecodeRGBAInto Encoded (InWidth * InHeight * 4).toNat (InWidth * 4)
      = some Pixels) :
    ((self.SetRaw fill (some Src) Src.length InWidth InHeight ERGBFormat.RGBA 8
        0).self.GetCompressed lib Quality).ret = Encoded ∧
    Encoded ≠ [] ∧
    ((other.SetCompressed lib (some Encoded) Encoded.length).self.GetRaw lib ERGBFormat.RGBA 8
        OutRawData).ret.1 = true ∧
    ((other.SetCompressed lib (some Encoded) Encoded.length).self.GetRaw lib ERGBFormat.RGBA 8
        OutRawData).self.GetWidth = InWidth ∧
    ((other.SetCompressed lib (some Encoded) Encoded.length).self.GetRaw lib ERGBFormat.RGBA 8
        OutRawData).self.GetHeight = InHeight ∧
    ((((other.SetCompressed lib (some Encoded) Encoded.length).self.GetRaw lib ERGBFormat.RGBA 8
        OutRawData).ret.2.length : Int) = InWidth * InHeight * 4) := by
  obtain ⟨w, rfl⟩ := Int.eq_ofNat_of_zero_le (le_of_lt hW)
  obtain ⟨h, rfl⟩ := Int.eq_ofNat_of_zero_le (le_of_lt hH)
  have hw : 0 < w := by omega
  have hh : 0 < h := by omega
  have hprod : w * h * 4 < 2147483648 := by
    have : ((w * h * 4 : Nat) : Int) = (w : Int) * (h : Int) * 4 := by push_cast; ring
    omega
  have hlenN : Src.length = w * h * 4 := by
    have : ((w * h * 4 : Nat) : Int) = (w : Int) * (h : Int) * 4 := by push_cast; ring
    omega
  have hwle : w * 4 ≤ w * h * 4 := by
    have : w * 1 ≤ w * h := Nat.mul_le_mul_left w hh
    omega
  have hhle : h ≤ w * h * 4 := by
    have : 1 * h ≤ w * h := Nat.mul_le_mul_right h hw
    omega
  have hstride : wrapInt32 ((w : Int) * 4) = (w : Int) * 4 := by
    unfold wrapInt32; omega
  have hnum : (wrapInt32 ((w : Int) * 4 * (h : Int))).toNat = w * h * 4 := by
    have : (w : Int) * 4 * (h : Int) = ((w * h * 4 : Nat) : Int) := by push_cast; ring
    rw [this]
    unfold wrapInt32; omega
  have htoNat : ((w : Int) * (h : Int) * 4).toNat = w * h * 4 := by
    have : (w : Int) * (h : Int) * 4 = ((w * h * 4 : Nat) : Int) := by push_cast; ring
    rw [this, Int.toNat_ofNat]
  have hne : Encoded ≠ [] := by
    intro h0
    rw [h0] at h12
    exact absurd h12 (by decide)
  have hsrcne : Src ≠ [] := by
    intro h0
    rw [h0] at hlenN
    simp only [List.length_nil] at hlenN
    omega
  refine ⟨?_, hne, ?_⟩
  · rw [setRaw_in_range fill self Src Src.length w h ERGBFormat.RGBA 0 (by omega) hw hh
      (Or.inl rfl) (by omega) (by omega) (by decide), if_neg (by omega),
      if_pos (Or.inl (le_refl 0)), List.take_of_length_le (by omega)]
    simp only [FWebpImageWrapper.GetCompressed, List.length_eq_zero, hsrcne, false_or,
      and_self, ↓reduceIte, hstride]
    have h1 : ¬ ((w : Int) = 0 ∨ (h : Int) = 0 ∨ ERGBFormat.RGBA = ERGBFormat.Invalid) := by
      simp; omega
    rw [if_neg h1]
    exact henc
  · rw [setCompressed_accepts lib other Encoded _ _ h12 hriff hwebp hprobe]
    rw [getRaw_decodes lib _ _ _ _ (Or.inl rfl),
      performUncompression_RGBA lib
        ⟨Encoded, [], (w : Int), (h : Int), other.RawFormat, other.RawBitDepth⟩
        (by simp [hne]; omega)]
    simp only [hstride, hnum]
    rw [htoNat] at hdec
    rw [hdec]
    have hdata : (List.range (w * h * 4)).map Pixels ≠ [] := by
      intro h0
      have := congrArg List.length h0
      simp only [List.length_map, List.length_range, List.length_nil] at this
      omega
    simp only [ne_eq, hdata, not_false_eq_true, and_self, ↓reduceIte,
      FWebpImageWrapper.GetWidth, FWebpImageWrapper.GetHeight, List.length_map,
      List.length_range, true_and]
    push_cast; ring

/-- Witness for C10 (amended): a 16 by 16 raw RGBA buffer of 1024 bytes goes
through the codec double and comes back as 1024 bytes. -/
theorem C10_round_trip_witness :
    ((FWebpImageWrapper.Construct.SetRaw testFill (some (List.replicate 1024 255))
        (List.replicate 1024 (255 : UInt8)).length 16 16 ERGBFormat.RGBA 8
        0).self.GetCompressed (testLib 16 16 true) 80).ret = webpHeader ∧
    (((FWebpImageWrapper.Construct.SetCompressed (testLib 16 16 true) (some webpHeader)
        webpHeader.length).self.GetRaw (testLib 16 16 true) ERGBFormat.RGBA 8
        []).ret.2.length : Int) = 16 * 16 * 4 :=
  have h := C10_round_trip (testLib 16 16 true) testFill FWebpImageWrapper.Construct
    FWebpImageWrapper.Construct (List.replicate 1024 255) 16 16 80 [] webpHeader (fun _ => 255)
    (by decide) (by decide) (by decide) (by rw [List.length_replicate]; decide) (by decide)
    (by decide) (by decide) (by decide) rfl rfl
  ⟨h.1, h.2.2.2.2.2⟩

/-! ## The format bridge -/

/-- Claim C11. The map `ToRawImageFormat` is exactly this table, for every
(colour layout, bit depth): (RGBA, 8) and (BGRA, 8) both map to `BGRA8`;
(Gray, 8) maps to `G8`; (RGBAF, 32) maps to `RGBA32F`; every other combination,
every 16-bit input and every other bit depth included, maps to `Invalid`. -/
theorem C11_toRawImageFormat_table (InRGBFormat : ERGBFormat) (InBitDepth : Int) :
    ToRawImageFormat InRGBFormat InBitDepth =
      (if (InRGBFormat = ERGBFormat.RGBA ∨ InRGBFormat = ERGBFormat.BGRA) ∧ InBitDepth = 8 then
        ERawImageFormat.BGRA8
      else if InRGBFormat = ERGBFormat.Gray ∧ InBitDepth = 8 then ERawImageFormat.G8
      else if InRGBFormat = ERGBFormat.RGBAF ∧ InBitDepth = 32 then ERawImageFormat.RGBA32F
      else ERawImageFormat.Invalid) ∧
    ToRawImageFormat InRGBFormat 16 = ERawImageFormat.Invalid := by
  constructor
  · by_cases h8 : InBitDepth = 8
    · subst h8
      cases InRGBFormat <;> simp [ToRawImageFormat]
    · by_cases h16 : InBitDepth = 16
      · subst h16
        cases InRGBFormat <;> simp [ToRawImageFormat]
      · by_cases h32 : InBitDepth = 32
        · subst h32
          cases InRGBFormat <;> simp [ToRawImageFormat]
        · simp [ToRawImageFormat, h8, h16, h32]
  · simp [ToRawImageFormat]

/-- Claim C12. For every host raw format passed in, supported or not (`G8`, the
16-bit and float formats and `Invalid` itself included), `GetSupportedRawFormat`
returns `BGRA8` and never `Invalid`: the test guarding the last `BGRA8` return,
`CanSetRawFormat(BGRA, 8)`, is always true, so the final `Invalid` fallback is
never reached. -/
theorem C12_getSupportedRawFormat_is_BGRA8 (InFormat : ERawImageFormat) :
    FWebpImageWrapper.GetSupportedRawFormat InFormat = ERawImageFormat.BGRA8 ∧
    FWebpImageWrapper.GetSupportedRawFormat InFormat ≠ ERawImageFormat.Invalid ∧
    FWebpImageWrapper.CanSetRawFormat ERGBFormat.BGRA 8 = true := by
  have h : FWebpImageWrapper.GetSupportedRawFormat InFormat = ERawImageFormat.BGRA8 := by
    cases InFormat <;> decide
  refine ⟨h, ?_, by decide⟩
  rw [h]
  decide

/-! ## What each operation can do to the instance -/

/-- The three ways `SetCompressed` can end: the instance is left as it was; or
the probe failed and both buffers and the size are cleared; or the probe
succeeded and the bytes and the probed size are stored. The decoded layout and
depth keep their prior values in every case. -/
theorem setCompressed_cases (lib : LibWebP) (self : FWebpImageWrapper)
    (InCompressedData : Option (List UInt8)) (InCompressedSize : Int) :
    self.SetCompressed lib InCompressedData InCompressedSize = ⟨false, self, []⟩ ∨
    (∃ Compressed, lib.WebPGetInfo Compressed = none ∧
      self.SetCompressed lib InCompressedData InCompressedSize =
        ⟨false, ⟨[], [], 0, 0, self.RawFormat, self.RawBitDepth⟩,
          [CodecCall.GetInfo Compressed]⟩) ∨
    (∃ Compressed W H, lib.WebPGetInfo Compressed = some (W, H) ∧
      self.SetCompressed lib InCompressedData InCompressedSize =
        ⟨true, ⟨Compressed, [], W, H, self.RawFormat, self.RawBitDepth⟩,
          [CodecCall.GetInfo Compressed]⟩) := by
  cases InCompressedData with
  | none => exact Or.inl rfl
  | some Data =>
    simp only [FWebpImageWrapper.SetCompressed]
    split_ifs with h1 h2
    · exact Or.inl rfl
    · cases hp : lib.WebPGetInfo (Data.take InCompressedSize.toNat) with
      | none => exact Or.inr (Or.inl ⟨_, hp, rfl⟩)
      | some WH =>
        obtain ⟨W, H⟩ := WH
        exact Or.inr (Or.inr ⟨_, W, H, hp, rfl⟩)
    · exact Or.inl rfl

/-- The three ways `SetRaw` can end: the instance is left as it was; or the
stride check failed and the decoded state and the size are reset while the
compressed bytes stay; or the call succeeded with positive dimensions and a
supported 8-bit layout, and the compressed bytes are gone. -/
theorem setRaw_cases (fill : Nat → UInt8) (self : FWebpImageWrapper)
    (InRawData : Option (List UInt8)) (InRawSize InWidth InHeight : Int)
    (InFormat : ERGBFormat) (InBitDepth InBytesPerRow : Int) :
    self.SetRaw fill InRawData InRawSize InWidth InHeight InFormat InBitDepth InBytesPerRow
      = ⟨false, self, []⟩ ∨
    self.SetRaw fill InRawData InRawSize InWidth InHeight InFormat InBitDepth InBytesPerRow
      = ⟨false, ⟨self.CompressedData, [], 0, 0, ERGBFormat.Invalid, 0⟩, []⟩ ∨
    (0 < InWidth ∧ 0 < InHeight ∧
      (InFormat = ERGBFormat.RGBA ∨ InFormat = ERGBFormat.BGRA) ∧ InBitDepth = 8 ∧
      ∃ Raw, self.SetRaw fill InRawData InRawSize InWidth InHeight InFormat InBitDepth
        InBytesPerRow = ⟨true, ⟨[], Raw, InWidth, InHeight, InFormat, 8⟩, []⟩) := by
  by_cases hargs : InRawData = none ∨ InRawSize ≤ 0 ∨ InWidth ≤ 0 ∨ InHeight ≤ 0
  · exact Or.inl (setRaw_invalid_arguments fill self _ _ _ _ _ _ _ hargs)
  by_cases hfmt : (InFormat = ERGBFormat.RGBA ∨ InFormat = ERGBFormat.BGRA) ∧ InBitDepth = 8
  swap
  · exact Or.inl (setRaw_unsupported fill self _ _ _ _ _ _ _ hfmt)
  obtain ⟨hf, hd⟩ := hfmt
  subst hd
  cases InRawData with
  | none => exact absurd (Or.inl rfl) hargs
  | some Src =>
    have hn : 0 < InRawSize := by omega
    have hW : 0 < InWidth := by omega
    have hH : 0 < InHeight := by omega
    rw [setRaw_supported fill self Src _ _ _ _ _ hn hW hH hf]
    split_ifs
    all_goals first
      | exact Or.inl rfl
      | exact Or.inr (Or.inl rfl)
      | exact Or.inr (Or.inr ⟨hW, hH, hf, rfl, _, rfl⟩)

/-- The three ways `PerformUncompression` can end: nothing happens (no usable
source); or the decoded state is cleared (unsupported target or codec failure);
or the codec succeeded and the instance holds the decoded buffer in layout RGBA
or BGRA at 8 bits. In the last case decoding the instance again to its own
layout reproduces the very same outcome. The compressed bytes, width and height
are never changed. -/
theorem performUncompression_cases (lib : LibWebP) (self : FWebpImageWrapper)
    (InFormat : ERGBFormat) (InBitDepth : Int) :
    self.PerformUncompression lib InFormat InBitDepth = ⟨false, self, []⟩ ∨
    ((self.PerformUncompression lib InFormat InBitDepth).ret = false ∧
      (self.PerformUncompression lib InFormat InBitDepth).self =
        ⟨self.CompressedData, [], self.Width, self.Height, ERGBFormat.Invalid, 0⟩) ∨
    ((self.PerformUncompression lib InFormat InBitDepth).ret = true ∧
      (InFormat = ERGBFormat.RGBA ∨ InFormat = ERGBFormat.BGRA) ∧ InBitDepth = 8 ∧
      (∃ Raw, (self.PerformUncompression lib InFormat InBitDepth).self =
        ⟨self.CompressedData, Raw, self.Width, self.Height, InFormat, 8⟩) ∧
      (self.PerformUncompression lib InFormat InBitDepth).self.PerformUncompression lib
          InFormat 8 = self.PerformUncompression lib InFormat InBitDepth) := by
  by_cases hsrc : self.CompressedData = [] ∨ self.Width = 0 ∨ self.Height = 0
  · exact Or.inl (performUncompression_no_source lib self _ _ hsrc)
  by_cases hR : InFormat = ERGBFormat.RGBA ∧ InBitDepth = 8
  · obtain ⟨rfl, rfl⟩ := hR
    rw [performUncompression_RGBA lib self hsrc]
    cases hdec : lib.WebPDecodeRGBAInto self.CompressedData
        (wrapInt32 (wrapInt32 (self.Width * 4) * self.Height)).toNat
        (wrapInt32 (self.Width * 4)) with
    | none => exact Or.inr (Or.inl ⟨rfl, rfl⟩)
    | some Pixels =>
      refine Or.inr (Or.inr ⟨rfl, Or.inl rfl, rfl, ⟨_, rfl⟩, ?_⟩)
      rw [performUncompression_RGBA lib
        ⟨self.CompressedData, (List.range
          (wrapInt32 (wrapInt32 (self.Width * 4) * self.Height)).toNat).map Pixels,
          self.Width, self.Height, ERGBFormat.RGBA, 8⟩ hsrc]
      simp only [hdec]
  by_cases hB : InFormat = ERGBFormat.BGRA ∧ InBitDepth = 8
  · obtain ⟨rfl, rfl⟩ := hB
    rw [performUncompression_BGRA lib self hsrc]
    cases hdec : lib.WebPDecodeBGRAInto self.CompressedData
        (wrapInt32 (wrapInt32 (self.Width * 4) * self.Height)).toNat
        (wrapInt32 (self.Width * 4)) with
    | none => exact Or.inr (Or.inl ⟨rfl, rfl⟩)
    | some Pixels =>
      refine Or.inr (Or.inr ⟨rfl, Or.inr rfl, rfl, ⟨_, rfl⟩, ?_⟩)
      rw [performUncompression_BGRA lib
        ⟨self.CompressedData, (List.range
          (wrapInt32 (wrapInt32 (self.Width * 4) * self.Height)).toNat).map Pixels,
          self.Width, self.Height, ERGBFormat.BGRA, 8⟩ hsrc]
      simp only [hdec]
  · have h2 : ¬ (self.CompressedData.length = 0 ∨ self.Width = 0 ∨ self.Height = 0) := by
      simpa using hsrc
    refine Or.inr (Or.inl ?_)
    simp only [FWebpImageWrapper.PerformUncompression, if_neg h2, if_neg hR, if_neg hB,
      and_self]

/-- The instance after the flat `GetRaw`: unchanged when decoded pixels are
held, otherwise the instance `PerformUncompression` leaves. -/
theorem getRaw_self (lib : LibWebP) (self : FWebpImageWrapper) (InFormat : ERGBFormat)
    (InBitDepth : Int) (OutRawData : List UInt8) :
    (self.GetRaw lib InFormat InBitDepth OutRawData).self =
      if self.RawData = [] ∨ self.RawFormat = ERGBFormat.Invalid then
        (self.PerformUncompression lib InFormat InBitDepth).self
      else self := by
  simp only [FWebpImageWrapper.GetRaw, List.length_eq_zero]
  split_ifs <;> rfl

/-- The operation `GetCompressed` never changes the instance. -/
theorem getCompressed_self (lib : LibWebP) (self : FWebpImageWrapper) (Quality : Int) :
    (self.GetCompressed lib Quality).self = self := by
  simp only [FWebpImageWrapper.GetCompressed]
  split_ifs <;> rfl

/-- A property that holds for an instance and is kept by every call holds after
every sequence of calls. -/
theorem run_induction (lib : LibWebP) (P : FWebpImageWrapper → Prop)
    (hstep : ∀ (s : FWebpImageWrapper) (op : Operation), P s → P (s.call lib op)) :
    ∀ (Calls : List Operation) (self : FWebpImageWrapper), P self → P (self.run lib Calls) := by
  intro Calls
  induction Calls with
  | nil => intro self h; exact h
  | cons op rest ih =>
    intro self h
    exact ih (self.call lib op) (hstep self op h)

/-- The routine `PerformUncompression` never changes the compressed bytes, the
width or the height. -/
theorem performUncompression_keeps (lib : LibWebP) (self : FWebpImageWrapper)
    (InFormat : ERGBFormat) (InBitDepth : Int) :
    (self.PerformUncompression lib InFormat InBitDepth).self.CompressedData
      = self.CompressedData ∧
    (self.PerformUncompression lib InFormat InBitDepth).self.Width = self.Width ∧
    (self.PerformUncompression lib InFormat InBitDepth).self.Height = self.Height := by
  rcases performUncompression_cases lib self InFormat InBitDepth with
    h | ⟨-, h⟩ | ⟨-, -, -, ⟨Raw, h⟩, -⟩ <;> rw [h] <;> exact ⟨rfl, rfl, rfl⟩

/-- The flat `GetRaw` never changes the compressed bytes, the width or the
height. -/
theorem getRaw_keeps (lib : LibWebP) (self : FWebpImageWrapper) (InFormat : ERGBFormat)
    (InBitDepth : Int) (OutRawData : List UInt8) :
    (self.GetRaw lib InFormat InBitDepth OutRawData).self.CompressedData
      = self.CompressedData ∧
    (self.GetRaw lib InFormat InBitDepth OutRawData).self.Width = self.Width ∧
    (self.GetRaw lib InFormat InBitDepth OutRawData).self.Height = self.Height := by
  rw [getRaw_self]
  split_ifs
  · exact performUncompression_keeps lib self InFormat InBitDepth
  · exact ⟨rfl, rfl, rfl⟩

/-! ## Invariants of the reachable states -/

/-- Claim C13, the code at the failing input. After a successful `SetRaw` of a
1 by 1 RGBA image followed by a successful `SetCompressed`, the decoded buffer is
empty while the decoded layout is still RGBA and the bit depth still 8: the
stated equivalence does not hold in this reachable state. -/
theorem C13_layout_survives_setCompressed :
    (FWebpImageWrapper.Construct.run (testLib 1 1 true)
      [Operation.SetRaw testFill (some [1, 2, 3, 4]) 4 1 1 ERGBFormat.RGBA 8 0,
        Operation.SetCompressed (some webpHeader) 12]).RawData = [] ∧
    (FWebpImageWrapper.Construct.run (testLib 1 1 true)
      [Operation.SetRaw testFill (some [1, 2, 3, 4]) 4 1 1 ERGBFormat.RGBA 8 0,
        Operation.SetCompressed (some webpHeader) 12]).GetFormat = ERGBFormat.RGBA ∧
    (FWebpImageWrapper.Construct.run (testLib 1 1 true)
      [Operation.SetRaw testFill (some [1, 2, 3, 4]) 4 1 1 ERGBFormat.RGBA 8 0,
        Operation.SetCompressed (some webpHeader) 12]).GetBitDepth = 8 ∧
    ¬ ((FWebpImageWrapper.Construct.run (testLib 1 1 true)
        [Operation.SetRaw testFill (some [1, 2, 3, 4]) 4 1 1 ERGBFormat.RGBA 8 0,
          Operation.SetCompressed (some webpHeader) 12]).RawData ≠ [] ↔
      ((FWebpImageWrapper.Construct.run (testLib 1 1 true)
        [Operation.SetRaw testFill (some [1, 2, 3, 4]) 4 1 1 ERGBFormat.RGBA 8 0,
          Operation.SetCompressed (some webpHeader) 12]).GetFormat ≠ ERGBFormat.Invalid ∧
        0 < (FWebpImageWrapper.Construct.run (testLib 1 1 true)
        [Operation.SetRaw testFill (some [1, 2, 3, 4]) 4 1 1 ERGBFormat.RGBA 8 0,
          Operation.SetCompressed (some webpHeader) 12]).GetBitDepth)) := by
  decide

/-- Claim C14. Assuming the codec probe reports only positive dimensions on
success, in every state reachable from a freshly constructed instance by any
sequence of `SetCompressed`, `SetRaw`, `GetRaw` and `GetCompressed` calls
(successful or failing), the width and the height are either both zero or both
positive. -/
theorem C14_width_height_both_zero_or_positive (lib : LibWebP)
    (hprobe : ∀ (Data : List UInt8) (W H : Int),
      lib.WebPGetInfo Data = some (W, H) → 0 < W ∧ 0 < H)
    (Calls : List Operation) :
    ((FWebpImageWrapper.Construct.run lib Calls).GetWidth = 0 ∧
      (FWebpImageWrapper.Construct.run lib Calls).GetHeight = 0) ∨
    (0 < (FWebpImageWrapper.Construct.run lib Calls).GetWidth ∧
      0 < (FWebpImageWrapper.Construct.run lib Calls).GetHeight) := by
  refine run_induction lib
    (fun s => (s.GetWidth = 0 ∧ s.GetHeight = 0) ∨ (0 < s.GetWidth ∧ 0 < s.GetHeight))
    ?_ Calls FWebpImageWrapper.Construct (Or.inl ⟨rfl, rfl⟩)
  intro s op hs
  simp only [FWebpImageWrapper.GetWidth, FWebpImageWrapper.GetHeight] at hs ⊢
  cases op with
  | SetCompressed InCompressedData InCompressedSize =>
    simp only [FWebpImageWrapper.call]
    rcases setCompressed_cases lib s InCompressedData InCompressedSize with
      h | ⟨c, -, h⟩ | ⟨c, W, H, hp, h⟩ <;> rw [h]
    · exact hs
    · exact Or.inl ⟨rfl, rfl⟩
    · exact Or.inr (hprobe c W H hp)
  | SetRaw fill InRawData InRawSize InWidth InHeight InFormat InBitDepth InBytesPerRow =>
    simp only [FWebpImageWrapper.call]
    rcases setRaw_cases fill s InRawData InRawSize InWidth InHeight InFormat InBitDepth
      InBytesPerRow with h | h | ⟨hW, hH, -, -, Raw, h⟩ <;> rw [h]
    · exact hs
    · exact Or.inl ⟨rfl, rfl⟩
    · exact Or.inr ⟨hW, hH⟩
  | GetRaw InFormat InBitDepth OutRawData =>
    simp only [FWebpImageWrapper.call]
    obtain ⟨-, hw, hh⟩ := getRaw_keeps lib s InFormat InBitDepth OutRawData
    rw [hw, hh]
    exact hs
  | GetCompressed Quality =>
    simp only [FWebpImageWrapper.call, getCompressed_self]
    exact hs

/-- Witness for C14: with a probe that reports 3 by 2, the instance after a
rejected `SetRaw`, an accepted `SetCompressed` and a `GetRaw` has positive width
and height. -/
theorem C14_width_height_both_zero_or_positive_witness :
    (∀ (Data : List UInt8) (W H : Int),
      (testLib 3 2 true).WebPGetInfo Data = some (W, H) → 0 < W ∧ 0 < H) ∧
    (FWebpImageWrapper.Construct.run (testLib 3 2 true)
      [Operation.SetRaw testFill (some [1]) 1 1 1 ERGBFormat.RGBA 8 0,
        Operation.SetCompressed (some webpHeader) 12,
        Operation.GetRaw ERGBFormat.BGRA 8 []]).GetWidth = 3 ∧
    (((FWebpImageWrapper.Construct.run (testLib 3 2 true)
      [Operation.SetRaw testFill (some [1]) 1 1 1 ERGBFormat.RGBA 8 0,
        Operation.SetCompressed (some webpHeader) 12,
        Operation.GetRaw ERGBFormat.BGRA 8 []]).GetWidth = 0 ∧
      (FWebpImageWrapper.Construct.run (testLib 3 2 true)
      [Operation.SetRaw testFill (some [1]) 1 1 1 ERGBFormat.RGBA 8 0,
        Operation.SetCompressed (some webpHeader) 12,
        Operation.GetRaw ERGBFormat.BGRA 8 []]).GetHeight = 0) ∨
    (0 < (FWebpImageWrapper.Construct.run (testLib 3 2 true)
      [Operation.SetRaw testFill (some [1]) 1 1 1 ERGBFormat.RGBA 8 0,
        Operation.SetCompressed (some webpHeader) 12,
        Operation.GetRaw ERGBFormat.BGRA 8 []]).GetWidth ∧
      0 < (FWebpImageWrapper.Construct.run (testLib 3 2 true)
      [Operation.SetRaw testFill (some [1]) 1 1 1 ERGBFormat.RGBA 8 0,
        Operation.SetCompressed (some webpHeader) 12,
        Operation.GetRaw ERGBFormat.BGRA 8 []]).GetHeight)) :=
  have hp : ∀ (Data : List UInt8) (W H : Int),
      (testLib 3 2 true).WebPGetInfo Data = some (W, H) → 0 < W ∧ 0 < H := by
    intro Data W H h
    simp only [testLib, Option.some.injEq, Prod.mk.injEq] at h
    omega
  ⟨hp, by decide, C14_width_height_both_zero_or_positive (testLib 3 2 true) hp _⟩

/-- In every reachable state: a non-empty decoded buffer has layout RGBA or BGRA
at 8 bits; and when the compressed bytes and the decoded buffer are both
non-empty, decoding the compressed bytes to the current layout succeeds and
reproduces the instance, the decoded buffer included. -/
theorem reachable_decoded_state (lib : LibWebP) (Calls : List Operation) :
    ((FWebpImageWrapper.Construct.run lib Calls).RawData ≠ [] →
      ((FWebpImageWrapper.Construct.run lib Calls).RawFormat = ERGBFormat.RGBA ∨
        (FWebpImageWrapper.Construct.run lib Calls).RawFormat = ERGBFormat.BGRA) ∧
      (FWebpImageWrapper.Construct.run lib Calls).RawBitDepth = 8) ∧
    ((FWebpImageWrapper.Construct.run lib Calls).CompressedData ≠ [] →
      (FWebpImageWrapper.Construct.run lib Calls).RawData ≠ [] →
      ((FWebpImageWrapper.Construct.run lib Calls).PerformUncompression lib
          (FWebpImageWrapper.Construct.run lib Calls).RawFormat
          (FWebpImageWrapper.Construct.run lib Calls).RawBitDepth).ret = true ∧
      ((FWebpImageWrapper.Construct.run lib Calls).PerformUncompression lib
          (FWebpImageWrapper.Construct.run lib Calls).RawFormat
          (FWebpImageWrapper.Construct.run lib Calls).RawBitDepth).self
        = FWebpImageWrapper.Construct.run lib Calls) := by
  refine run_induction lib
    (fun s => (s.RawData ≠ [] →
        (s.RawFormat = ERGBFormat.RGBA ∨ s.RawFormat = ERGBFormat.BGRA) ∧ s.RawBitDepth = 8) ∧
      (s.CompressedData ≠ [] → s.RawData ≠ [] →
        (s.PerformUncompression lib s.RawFormat s.RawBitDepth).ret = true ∧
        (s.PerformUncompression lib s.RawFormat s.RawBitDepth).self = s))
    ?_ Calls FWebpImageWrapper.Construct
    ⟨fun h => absurd rfl h, fun h => absurd rfl h⟩
  intro s op hs
  have hempty : ∀ t : FWebpImageWrapper, t.RawData = [] →
      (t.RawData ≠ [] →
        (t.RawFormat = ERGBFormat.RGBA ∨ t.RawFormat = ERGBFormat.BGRA) ∧ t.RawBitDepth = 8) ∧
      (t.CompressedData ≠ [] → t.RawData ≠ [] →
        (t.PerformUncompression lib t.RawFormat t.RawBitDepth).ret = true ∧
        (t.PerformUncompression lib t.RawFormat t.RawBitDepth).self = t) :=
    fun t ht => ⟨fun h => absurd ht h, fun _ h => absurd ht h⟩
  cases op with
  | SetCompressed InCompressedData InCompressedSize =>
    simp only [FWebpImageWrapper.call]
    rcases setCompressed_cases lib s InCompressedData InCompressedSize with
      h | ⟨c, -, h⟩ | ⟨c, W, H, hp, h⟩ <;> rw [h]
    · exact hs
    · exact hempty _ rfl
    · exact hempty _ rfl
  | SetRaw fill InRawData InRawSize InWidth InHeight InFormat InBitDepth InBytesPerRow =>
    simp only [FWebpImageWrapper.call]
    rcases setRaw_cases fill s InRawData InRawSize InWidth InHeight InFormat InBitDepth
      InBytesPerRow with h | h | ⟨-, -, hf, -, Raw, h⟩ <;> rw [h]
    · exact hs
    · exact hempty _ rfl
    · exact ⟨fun _ => ⟨hf, rfl⟩, fun hc => absurd rfl hc⟩
  | GetRaw InFormat InBitDepth OutRawData =>
    simp only [FWebpImageWrapper.call]
    rw [getRaw_self]
    split_ifs
    · rcases performUncompression_cases lib s InFormat InBitDepth with
        h | ⟨-, h⟩ | ⟨hret, hf, -, ⟨Raw, h⟩, hidem⟩
      · rw [h]; exact hs
      · rw [h]; exact hempty _ rfl
      · rw [h] at hidem ⊢
        refine ⟨fun _ => ⟨hf, rfl⟩, fun _ _ => ?_⟩
        simp only
        rw [hidem]
        exact ⟨hret, h⟩
    · exact hs
  | GetCompressed Quality =>
    simp only [FWebpImageWrapper.call, getCompressed_self]
    exact hs

/-- Counterexample to C15 as stated: after an accepted `SetCompressed` and a
successful `GetRaw(BGRA, 8)` the compressed bytes and the decoded buffer are
both non-empty. -/
theorem C15_decoded_instance_keeps_compressed :
    (FWebpImageWrapper.Construct.run (testLib 1 1 true)
      [Operation.SetCompressed (some webpHeader) 12,
        Operation.GetRaw ERGBFormat.BGRA 8 []]).CompressedData = webpHeader ∧
    (FWebpImageWrapper.Construct.run (testLib 1 1 true)
      [Operation.SetCompressed (some webpHeader) 12,
        Operation.GetRaw ERGBFormat.BGRA 8 []]).RawData = [255, 255, 255, 255] := by
  decide

/-- Claim C15, amended. In every state reachable from a freshly constructed
instance by any sequence of `SetCompressed`, `SetRaw`, `GetRaw` and
`GetCompressed` calls, the compressed bytes and the decoded buffer are both
non-empty only as compressed bytes with their decoded pixels: the layout is RGBA
or BGRA at 8 bits, and decoding the retained compressed bytes to that layout
succeeds and yields exactly the instance, decoded buffer included (the state a
successful lazy decode in `GetRaw` leaves). Besides that fourth state the
instance is empty, compressed-only or raw-only. A successful `SetCompressed`
leaves the decoded buffer empty and a successful `SetRaw` leaves the compressed
buffer empty. -/
theorem C15_both_buffers_only_as_decode_cache (lib : LibWebP) (Calls : List Operation) :
    (((FWebpImageWrapper.Construct.run lib Calls).CompressedData ≠ [] ∧
        (FWebpImageWrapper.Construct.run lib Calls).RawData ≠ []) →
      ((FWebpImageWrapper.Construct.run lib Calls).GetFormat = ERGBFormat.RGBA ∨
        (FWebpImageWrapper.Construct.run lib Calls).GetFormat = ERGBFormat.BGRA) ∧
      (FWebpImageWrapper.Construct.run lib Calls).GetBitDepth = 8 ∧
      ((FWebpImageWrapper.Construct.run lib Calls).PerformUncompression lib
          (FWebpImageWrapper.Construct.run lib Calls).GetFormat
          (FWebpImageWrapper.Construct.run lib Calls).GetBitDepth).ret = true ∧
      ((FWebpImageWrapper.Construct.run lib Calls).PerformUncompression lib
          (FWebpImageWrapper.Construct.run lib Calls).GetFormat
          (FWebpImageWrapper.Construct.run lib Calls).GetBitDepth).self
        = FWebpImageWrapper.Construct.run lib Calls) ∧
    (∀ (self : FWebpImageWrapper) (InCompressedData : Option (List UInt8))
        (InCompressedSize : Int),
      (self.SetCompressed lib InCompressedData InCompressedSize).ret = true →
      (self.SetCompressed lib InCompressedData InCompressedSize).self.RawData = []) ∧
    (∀ (fill : Nat → UInt8) (self : FWebpImageWrapper) (InRawData : Option (List UInt8))
        (InRawSize InWidth InHeight : Int) (InFormat : ERGBFormat)
        (InBitDepth InBytesPerRow : Int),
      (self.SetRaw fill InRawData InRawSize InWidth InHeight InFormat InBitDepth
        InBytesPerRow).ret = true →
      (self.SetRaw fill InRawData InRawSize InWidth InHeight InFormat InBitDepth
        InBytesPerRow).self.CompressedData = []) := by
  refine ⟨?_, ?_, ?_⟩
  · rintro ⟨hc, hr⟩
    obtain ⟨h1, h2⟩ := reachable_decoded_state lib Calls
    obtain ⟨hf, hd⟩ := h1 hr
    obtain ⟨hret, hself⟩ := h2 hc hr
    exact ⟨hf, hd, hret, hself⟩
  · intro self InCompressedData InCompressedSize h
    rcases setCompressed_cases lib self InCompressedData InCompressedSize with
      h' | ⟨c, -, h'⟩ | ⟨c, W, H, -, h'⟩
    · rw [h'] at h; exact absurd h (by simp)
    · rw [h'] at h; exact absurd h (by simp)
    · rw [h']
  · intro fill self InRawData InRawSize InWidth InHeight InFormat InBitDepth InBytesPerRow h
    rcases setRaw_cases fill self InRawData InRawSize InWidth InHeight InFormat InBitDepth
      InBytesPerRow with h' | h' | ⟨-, -, -, -, Raw, h'⟩
    · rw [h'] at h; exact absurd h (by simp)
    · rw [h'] at h; exact absurd h (by simp)
    · rw [h']

/-- Witness for C15 (amended): the instance after `SetCompressed` and a
successful `GetRaw(BGRA, 8)` holds both buffers, and decoding it again to BGRA
gives the same instance. -/
theorem C15_both_buffers_only_as_decode_cache_witness :
    ((FWebpImageWrapper.Construct.run (testLib 1 1 true)
      [Operation.SetCompressed (some webpHeader) 12,
        Operation.GetRaw ERGBFormat.BGRA 8 []]).CompressedData ≠ [] ∧
      (FWebpImageWrapper.Construct.run (testLib 1 1 true)
      [Operation.SetCompressed (some webpHeader) 12,
        Operation.GetRaw ERGBFormat.BGRA 8 []]).RawData ≠ []) ∧
    (FWebpImageWrapper.Construct.run (testLib 1 1 true)
      [Operation.SetCompressed (some webpHeader) 12,
        Operation.GetRaw ERGBFormat.BGRA 8 []]).GetBitDepth = 8 :=
  ⟨by decide, ((C15_both_buffers_only_as_decode_cache (testLib 1 1 true)
    [Operation.SetCompressed (some webpHeader) 12,
      Operation.GetRaw ERGBFormat.BGRA 8 []]).1 (by decide)).2.1⟩

/-! ## Failure paths -/

/-- Outcome of `SetCompressed` when the signature is accepted and the probe
fails: both buffers are emptied and the size is zeroed; the decoded layout and
depth keep their prior values. -/
theorem setCompressed_probe_fails (lib : LibWebP) (self : FWebpImageWrapper)
    (Data : List UInt8) (hlen : 12 ≤ Data.length)
    (hriff : Data.take 4 = [82, 73, 70, 70]) (hwebp : (Data.drop 8).take 4 = [87, 69, 66, 80])
    (hprobe : lib.WebPGetInfo Data = none) :
    self.SetCompressed lib (some Data) Data.length =
      ⟨false, ⟨[], [], 0, 0, self.RawFormat, self.RawBitDepth⟩, [CodecCall.GetInfo Data]⟩ := by
  have hsig := (not_congr (signature_bytes Data hlen)).2 (by simp [hriff, hwebp])
  have hpos : (Data.length : Int) > 0 := by omega
  have h12 : ¬ ((Data.length : Int) < 12) := by omega
  simp only [FWebpImageWrapper.SetCompressed]
  rw [if_pos hpos, if_neg (by tauto)]
  simp [hprobe]

/-- Claim C16, the code at the failing input. On an instance that holds a 1 by 1
RGBA image set with `SetRaw`, a `SetCompressed` of marked bytes on which the
probe fails returns failure with zero width and height and both buffers empty,
but the decoded layout is still RGBA and the bit depth still 8: the instance is
not equal to a freshly constructed one. -/
theorem C16_probe_failure_keeps_layout :
    ((FWebpImageWrapper.Construct.SetRaw testFill (some [1, 2, 3, 4]) 4 1 1 ERGBFormat.RGBA 8
        0).self.SetCompressed probeFailLib (some webpHeader) 12)
      = ⟨false, ⟨[], [], 0, 0, ERGBFormat.RGBA, 8⟩, [CodecCall.GetInfo webpHeader]⟩ ∧
    ((FWebpImageWrapper.Construct.SetRaw testFill (some [1, 2, 3, 4]) 4 1 1 ERGBFormat.RGBA 8
        0).self.SetCompressed probeFailLib (some webpHeader) 12).self
      ≠ FWebpImageWrapper.Construct := by
  decide

/-- Outcome of `SetRaw` for `int32` arguments with a supported layout, a buffer
of at least w*h*4 bytes, and a supplied row stride that differs from the row
size and that the buffer does not cover for h rows: failure, with the decoded
state and the size reset and the compressed bytes left as they were. -/
theorem setRaw_stride_not_covered (fill : Nat → UInt8) (self : FWebpImageWrapper)
    (Src : List UInt8) (InWidth InHeight : Int) (InFormat : ERGBFormat) (InBytesPerRow : Int)
    (hW : 0 < InWidth) (hH : 0 < InHeight)
    (hf : InFormat = ERGBFormat.RGBA ∨ InFormat = ERGBFormat.BGRA)
    (hrow : InWidth * 4 < 2147483648) (hH31 : InHeight < 2147483648)
    (hS31 : InBytesPerRow < 2147483648)
    (hsize : InWidth * InHeight * 4 ≤ Src.length)
    (hstride : InWidth * 4 < InBytesPerRow)
    (hshort : (Src.length : Int) < InHeight * InBytesPerRow) :
    self.SetRaw fill (some Src) Src.length InWidth InHeight InFormat 8 InBytesPerRow =
      ⟨false, ⟨self.CompressedData, [], 0, 0, ERGBFormat.Invalid, 0⟩, []⟩ := by
  obtain ⟨w, rfl⟩ := Int.eq_ofNat_of_zero_le (le_of_lt hW)
  obtain ⟨h, rfl⟩ := Int.eq_ofNat_of_zero_le (le_of_lt hH)
  obtain ⟨s, rfl⟩ := Int.eq_ofNat_of_zero_le (show 0 ≤ InBytesPerRow by omega)
  have hprod : ((w * h * 4 : Nat) : Int) = (w : Int) * (h : Int) * 4 := by push_cast; ring
  have hhs : ((h * s : Nat) : Int) = (h : Int) * (s : Int) := by push_cast; ring
  have hlen : 0 < Src.length := by
    have : 0 < w * h := Nat.mul_pos (by omega) (by omega)
    omega
  rw [setRaw_in_range fill self Src Src.length w h InFormat (s : Int) hlen (by omega)
    (by omega) hf (by omega) (by omega) hS31, if_neg (by omega), if_neg (by omega)]
  simp only [Int.toNat_ofNat]
  rw [if_neg (by omega)]

/-- Claim C17, the code at the failing input. On an instance holding accepted
compressed bytes, a `SetRaw` of a 1 by 1 RGBA image with a four-byte buffer and a
row stride of 8 fails and resets the width, height, layout, depth and decoded
buffer, but the compressed bytes are still held afterwards. -/
theorem C17_reset_keeps_compressed_bytes :
    ((FWebpImageWrapper.Construct.SetCompressed (testLib 1 1 true) (some webpHeader)
        12).self.SetRaw testFill (some [1, 2, 3, 4]) 4 1 1 ERGBFormat.RGBA 8 8)
      = ⟨false, ⟨webpHeader, [], 0, 0, ERGBFormat.Invalid, 0⟩, []⟩ ∧
    ((FWebpImageWrapper.Construct.SetCompressed (testLib 1 1 true) (some webpHeader)
        12).self.SetRaw testFill (some [1, 2, 3, 4]) 4 1 1 ERGBFormat.RGBA 8
        8).self.CompressedData ≠ [] := by
  decide

/-! ## Lazy decode of a compressed-only instance -/

/-- For dimensions within the container limit, 1 ≤ w, h ≤ 16383, the 32-bit
products `Width * 4` and `Stride * Height` are exact, and the buffer size
w*h*4 is positive and below 2^31. -/
theorem decode_size_in_range (W H : Int) (hW : 1 ≤ W ∧ W ≤ 16383) (hH : 1 ≤ H ∧ H ≤ 16383) :
    wrapInt32 (W * 4) = W * 4 ∧
    wrapInt32 (wrapInt32 (W * 4) * H) = W * H * 4 ∧
    0 < W * H * 4 ∧ W * H * 4 < 2147483648 := by
  have hp : W * H ≤ 16383 * 16383 := Int.mul_le_mul hW.2 hH.2 (by omega) (by omega)
  have hp0 : 0 < W * H := Int.mul_pos (by omega) (by omega)
  have h1 : wrapInt32 (W * 4) = W * 4 := by unfold wrapInt32; omega
  have h2 : W * 4 * H = W * H * 4 := by ring
  refine ⟨h1, ?_, by omega, by omega⟩
  rw [h1, h2]
  unfold wrapInt32
  omega

/-- The flat `GetRaw(RGBA, 8)` on a compressed-only instance within the
container limit: one call of the RGBA decoder with a buffer of w*h*4 bytes and
stride w*4, whose result decides the outcome. -/
theorem getRaw_compressed_only_RGBA (lib : LibWebP) (self : FWebpImageWrapper)
    (OutRawData : List UInt8) (hc : self.CompressedData ≠ []) (hr : self.RawData = [])
    (hW : 1 ≤ self.Width ∧ self.Width ≤ 16383) (hH : 1 ≤ self.Height ∧ self.Height ≤ 16383) :
    self.GetRaw lib ERGBFormat.RGBA 8 OutRawData =
      match lib.WebPDecodeRGBAInto self.CompressedData (self.Width * self.Height * 4).toNat
          (self.Width * 4) with
      | some Pixels =>
        ⟨(true, (List.range (self.Width * self.Height * 4).toNat).map Pixels),
          ⟨self.CompressedData, (List.range (self.Width * self.Height * 4).toNat).map Pixels,
            self.Width, self.Height, ERGBFormat.RGBA, 8⟩,
          [CodecCall.DecodeRGBAInto self.CompressedData (self.Width * self.Height * 4).toNat
            (self.Width * 4)]⟩
      | none =>
        ⟨(false, OutRawData),
          ⟨self.CompressedData, [], self.Width, self.Height, ERGBFormat.Invalid, 0⟩,
          [CodecCall.DecodeRGBAInto self.CompressedData (self.Width * self.Height * 4).toNat
            (self.Width * 4)]⟩ := by
  obtain ⟨h1, h2, h3, -⟩ := decode_size_in_range self.Width self.Height hW hH
  have hsrc : ¬ (self.CompressedData = [] ∨ self.Width = 0 ∨ self.Height = 0) := by
    rintro (h | h | h)
    · exact hc h
    · omega
    · omega
  rw [getRaw_decodes lib self _ _ _ (Or.inl hr), performUncompression_RGBA lib self hsrc,
    h2, h1]
  cases hdec : lib.WebPDecodeRGBAInto self.CompressedData (self.Width * self.Height * 4).toNat
      (self.Width * 4) with
  | none => simp
  | some Pixels =>
    have hne : (List.range (self.Width * self.Height * 4).toNat).map Pixels ≠ [] := by
      intro h0
      have := congrArg List.length h0
      simp only [List.length_map, List.length_range, List.length_nil] at this
      omega
    simp [hne]

/-- The flat `GetRaw(BGRA, 8)` on a compressed-only instance within the
container limit: one call of the BGRA decoder with a buffer of w*h*4 bytes and
stride w*4, whose result decides the outcome. -/
theorem getRaw_compressed_only_BGRA (lib : LibWebP) (self : FWebpImageWrapper)
    (OutRawData : List UInt8) (hc : self.CompressedData ≠ []) (hr : self.RawData = [])
    (hW : 1 ≤ self.Width ∧ self.Width ≤ 16383) (hH : 1 ≤ self.Height ∧ self.Height ≤ 16383) :
    self.GetRaw lib ERGBFormat.BGRA 8 OutRawData =
      match lib.WebPDecodeBGRAInto self.CompressedData (self.Width * self.Height * 4).toNat
          (self.Width * 4) with
      | some Pixels =>
        ⟨(true, (List.range (self.Width * self.Height * 4).toNat).map Pixels),
          ⟨self.CompressedData, (List.range (self.Width * self.Height * 4).toNat).map Pixels,
            self.Width, self.Height, ERGBFormat.BGRA, 8⟩,
          [CodecCall.DecodeBGRAInto self.CompressedData (self.Width * self.Height * 4).toNat
            (self.Width * 4)]⟩
      | none =>
        ⟨(false, OutRawData),
          ⟨self.CompressedData, [], self.Width, self.Height, ERGBFormat.Invalid, 0⟩,
          [CodecCall.DecodeBGRAInto self.CompressedData (self.Width * self.Height * 4).toNat
            (self.Width * 4)]⟩ := by
  obtain ⟨h1, h2, h3, -⟩ := decode_size_in_range self.Width self.Height hW hH
  have hsrc : ¬ (self.CompressedData = [] ∨ self.Width = 0 ∨ self.Height = 0) := by
    rintro (h | h | h)
    · exact hc h
    · omega
    · omega
  rw [getRaw_decodes lib self _ _ _ (Or.inl hr), performUncompression_BGRA lib self hsrc,
    h2, h1]
  cases hdec : lib.WebPDecodeBGRAInto self.CompressedData (self.Width * self.Height * 4).toNat
      (self.Width * 4) with
  | none => simp
  | some Pixels =>
    have hne : (List.range (self.Width * self.Height * 4).toNat).map Pixels ≠ [] := by
      intro h0
      have := congrArg List.length h0
      simp only [List.length_map, List.length_range, List.length_nil] at this
      omega
    simp [hne]

/-- Claim C18. For every compressed-only instance (compressed bytes non-empty,
decoded buffer empty) whose dimensions satisfy 1 ≤ w, h ≤ 16383, and for each of
the targets (RGBA, 8) and (BGRA, 8): the destination size `Stride * Height`
formed in signed 32-bit arithmetic does not overflow and equals w*h*4, with
stride w*4; `GetRaw` invokes the decoder of the target exactly once, with that
buffer size and stride; when the codec succeeds `GetRaw` succeeds and returns
exactly w*h*4 bytes, the decoded buffer, with the decoded layout and depth equal
to the target; and when the codec fails `GetRaw` fails, does not write the
output array, and leaves the decoded buffer empty, the layout `Invalid` and the
depth 0 while width, height and compressed bytes are unchanged. -/
theorem C18_getRaw_decode_within_limit (lib : LibWebP) (self : FWebpImageWrapper)
    (OutRawData : List UInt8) (hc : self.CompressedData ≠ []) (hr : self.RawData = [])
    (hW : 1 ≤ self.Width ∧ self.Width ≤ 16383) (hH : 1 ≤ self.Height ∧ self.Height ≤ 16383) :
    (wrapInt32 (self.Width * 4) = self.Width * 4 ∧
      wrapInt32 (wrapInt32 (self.Width * 4) * self.Height) = self.Width * self.Height * 4 ∧
      self.Width * self.Height * 4 < 2147483648) ∧
    ((self.GetRaw lib ERGBFormat.RGBA 8 OutRawData).calls =
        [CodecCall.DecodeRGBAInto self.CompressedData (self.Width * self.Height * 4).toNat
          (self.Width * 4)] ∧
      (self.GetRaw lib ERGBFormat.BGRA 8 OutRawData).calls =
        [CodecCall.DecodeBGRAInto self.CompressedData (self.Width * self.Height * 4).toNat
          (self.Width * 4)]) ∧
    (∀ Pixels, lib.WebPDecodeRGBAInto self.CompressedData (self.Width * self.Height * 4).toNat
        (self.Width * 4) = some Pixels →
      (self.GetRaw lib ERGBFormat.RGBA 8 OutRawData).ret.1 = true ∧
      ((self.GetRaw lib ERGBFormat.RGBA 8 OutRawData).ret.2.length : Int)
        = self.Width * self.Height * 4 ∧
      (self.GetRaw lib ERGBFormat.RGBA 8 OutRawData).self =
        ⟨self.CompressedData, (self.GetRaw lib ERGBFormat.RGBA 8 OutRawData).ret.2,
          self.Width, self.Height, ERGBFormat.RGBA, 8⟩) ∧
    (∀ Pixels, lib.WebPDecodeBGRAInto self.CompressedData (self.Width * self.Height * 4).toNat
        (self.Width * 4) = some Pixels →
      (self.GetRaw lib ERGBFormat.BGRA 8 OutRawData).ret.1 = true ∧
      ((self.GetRaw lib ERGBFormat.BGRA 8 OutRawData).ret.2.length : Int)
        = self.Width * self.Height * 4 ∧
      (self.GetRaw lib ERGBFormat.BGRA 8 OutRawData).self =
        ⟨self.CompressedData, (self.GetRaw lib ERGBFormat.BGRA 8 OutRawData).ret.2,
          self.Width, self.Height, ERGBFormat.BGRA, 8⟩) ∧
    (lib.WebPDecodeRGBAInto self.CompressedData (self.Width * self.Height * 4).toNat
        (self.Width * 4) = none →
      (self.GetRaw lib ERGBFormat.RGBA 8 OutRawData).ret = (false, OutRawData) ∧
      (self.GetRaw lib ERGBFormat.RGBA 8 OutRawData).self =
        ⟨self.CompressedData, [], self.Width, self.Height, ERGBFormat.Invalid, 0⟩) ∧
    (lib.WebPDecodeBGRAInto self.CompressedData (self.Width * self.Height * 4).toNat
        (self.Width * 4) = none →
      (self.GetRaw lib ERGBFormat.BGRA 8 OutRawData).ret = (false, OutRawData) ∧
      (self.GetRaw lib ERGBFormat.BGRA 8 OutRawData).self =
        ⟨self.CompressedData, [], self.Width, self.Height, ERGBFormat.Invalid, 0⟩) := by
  obtain ⟨h1, h2, h3, h4⟩ := decode_size_in_range self.Width self.Height hW hH
  have hR := getRaw_compressed_only_RGBA lib self OutRawData hc hr hW hH
  have hB := getRaw_compressed_only_BGRA lib self OutRawData hc hr hW hH
  have hlen : ∀ Pixels : Nat → UInt8,
      (((List.range (self.Width * self.Height * 4).toNat).map Pixels).length : Int)
        = self.Width * self.Height * 4 := by
    intro Pixels
    rw [List.length_map, List.length_range]
    omega
  refine ⟨⟨h1, h2, h4⟩, ⟨?_, ?_⟩, ?_, ?_, ?_, ?_⟩
  · rw [hR]; split <;> rfl
  · rw [hB]; split <;> rfl
  · intro Pixels hdec
    rw [hR, hdec]
    exact ⟨rfl, hlen Pixels, rfl⟩
  · intro Pixels hdec
    rw [hB, hdec]
    exact ⟨rfl, hlen Pixels, rfl⟩
  · intro hdec
    rw [hR, hdec]
    exact ⟨rfl, rfl⟩
  · intro hdec
    rw [hB, hdec]
    exact ⟨rfl, rfl⟩

/-- Witness for C18: a compressed-only 2 by 3 instance is decoded to BGRA into
24 bytes. -/
theorem C18_getRaw_decode_within_limit_witness :
    ((FWebpImageWrapper.mk webpHeader [] 2 3 ERGBFormat.Invalid 0).GetRaw (testLib 2 3 true)
        ERGBFormat.BGRA 8 []).ret.1 = true ∧
    (((FWebpImageWrapper.mk webpHeader [] 2 3 ERGBFormat.Invalid 0).GetRaw (testLib 2 3 true)
        ERGBFormat.BGRA 8 []).ret.2.length : Int) = 2 * 3 * 4 :=
  have h := (C18_getRaw_decode_within_limit (testLib 2 3 true)
    (FWebpImageWrapper.mk webpHeader [] 2 3 ERGBFormat.Invalid 0) [] (by decide) rfl
    (by decide) (by decide)).2.2.2.1 (fun _ => 255) rfl
  ⟨h.1, h.2.1⟩

/-- Outcome of `PerformUncompression` for a target other than (RGBA, 8) and
(BGRA, 8) when a compressed source with non-zero dimensions is present: no codec
call, failure, and the decoded state cleared. -/
theorem performUncompression_unsupported (lib : LibWebP) (self : FWebpImageWrapper)
    (InFormat : ERGBFormat) (InBitDepth : Int)
    (hsrc : ¬ (self.CompressedData = [] ∨ self.Width = 0 ∨ self.Height = 0))
    (ht : ¬ ((InFormat = ERGBFormat.RGBA ∨ InFormat = ERGBFormat.BGRA) ∧ InBitDepth = 8)) :
    self.PerformUncompression lib InFormat InBitDepth =
      ⟨false, ⟨self.CompressedData, [], self.Width, self.Height, ERGBFormat.Invalid, 0⟩, []⟩ := by
  have h2 : ¬ (self.CompressedData.length = 0 ∨ self.Width = 0 ∨ self.Height = 0) := by
    simpa using hsrc
  have hR : ¬ (InFormat = ERGBFormat.RGBA ∧ InBitDepth = 8) := by tauto
  have hB : ¬ (InFormat = ERGBFormat.BGRA ∧ InBitDepth = 8) := by tauto
  simp only [FWebpImageWrapper.PerformUncompression, if_neg h2, if_neg hR, if_neg hB]

/-- On instances without decoded pixels the outcome of `PerformUncompression`
depends only on the compressed bytes, the width and the height. -/
theorem performUncompression_congr (lib : LibWebP) (s t : FWebpImageWrapper)
    (InFormat : ERGBFormat) (InBitDepth : Int)
    (hc : s.CompressedData = t.CompressedData) (hw : s.Width = t.Width)
    (hh : s.Height = t.Height)
    (hsrc : ¬ (s.CompressedData = [] ∨ s.Width = 0 ∨ s.Height = 0)) :
    s.PerformUncompression lib InFormat InBitDepth
      = t.PerformUncompression lib InFormat InBitDepth := by
  have h2 : ¬ (s.CompressedData.length = 0 ∨ s.Width = 0 ∨ s.Height = 0) := by
    simpa using hsrc
  have h3 : ¬ (t.CompressedData.length = 0 ∨ t.Width = 0 ∨ t.Height = 0) := by
    rw [← hc, ← hw, ← hh]; exact h2
  simp only [FWebpImageWrapper.PerformUncompression, if_neg h2, if_neg h3, hc, hw, hh]

/-- The flat `GetRaw` on an instance with compressed bytes and no decoded buffer,
for a target other than (RGBA, 8) and (BGRA, 8): it fails without a codec call
and without writing the output array. When the width and height are non-zero
the decoded state is cleared (layout `Invalid`, depth 0) and a later request
for (RGBA, 8) or (BGRA, 8) behaves as on the original instance; when the width
or the height is zero the instance is left as it was. -/
theorem getRaw_unsupported_compressed_only (lib : LibWebP) (self : FWebpImageWrapper)
    (InFormat : ERGBFormat) (InBitDepth : Int) (OutRawData : List UInt8)
    (hc : self.CompressedData ≠ []) (hr : self.RawData = [])
    (ht : ¬ ((InFormat = ERGBFormat.RGBA ∨ InFormat = ERGBFormat.BGRA) ∧ InBitDepth = 8)) :
    self.GetRaw lib InFormat InBitDepth OutRawData =
      ⟨(false, OutRawData),
        (if self.Width = 0 ∨ self.Height = 0 then self
          else ⟨self.CompressedData, [], self.Width, self.Height, ERGBFormat.Invalid, 0⟩),
        []⟩ ∧
    (self.GetRaw lib InFormat InBitDepth OutRawData).self.RawData = [] ∧
    (self.GetRaw lib InFormat InBitDepth OutRawData).self.CompressedData
      = self.CompressedData ∧
    (self.GetRaw lib InFormat InBitDepth OutRawData).self.GetWidth = self.GetWidth ∧
    (self.GetRaw lib InFormat InBitDepth OutRawData).self.GetHeight = self.GetHeight ∧
    ((self.Width ≠ 0 ∧ self.Height ≠ 0) →
      (self.GetRaw lib InFormat InBitDepth OutRawData).self.GetFormat = ERGBFormat.Invalid ∧
      (self.GetRaw lib InFormat InBitDepth OutRawData).self.GetBitDepth = 0 ∧
      ∀ Later : List UInt8,
        (self.GetRaw lib InFormat InBitDepth OutRawData).self.GetRaw lib ERGBFormat.RGBA 8 Later
          = self.GetRaw lib ERGBFormat.RGBA 8 Later ∧
        (self.GetRaw lib InFormat InBitDepth OutRawData).self.GetRaw lib ERGBFormat.BGRA 8 Later
          = self.GetRaw lib ERGBFormat.BGRA 8 Later) := by
  have hmain : self.GetRaw lib InFormat InBitDepth OutRawData =
      ⟨(false, OutRawData),
        (if self.Width = 0 ∨ self.Height = 0 then self
          else ⟨self.CompressedData, [], self.Width, self.Height, ERGBFormat.Invalid, 0⟩),
        []⟩ := by
    rw [getRaw_decodes lib self _ _ _ (Or.inl hr)]
    by_cases hz : self.Width = 0 ∨ self.Height = 0
    · rw [performUncompression_no_source lib self _ _ (Or.inr hz), if_pos hz]
      simp [hr]
    · rw [performUncompression_unsupported lib self _ _ (by tauto) ht, if_neg hz]
      simp
  rw [hmain]
  refine ⟨rfl, ?_, ?_, ?_, ?_, ?_⟩
  · simp only; split_ifs
    · exact hr
    · rfl
  · simp only; split_ifs <;> rfl
  · simp only [FWebpImageWrapper.GetWidth]; split_ifs <;> rfl
  · simp only [FWebpImageWrapper.GetHeight]; split_ifs <;> rfl
  · rintro ⟨hw, hh⟩
    have hz : ¬ (self.Width = 0 ∨ self.Height = 0) := by tauto
    have hsrc : ¬ (self.CompressedData = [] ∨ self.Width = 0 ∨ self.Height = 0) := by tauto
    simp only [if_neg hz, FWebpImageWrapper.GetFormat, FWebpImageWrapper.GetBitDepth, true_and]
    intro Later
    constructor
    · rw [getRaw_decodes lib _ _ _ _ (Or.inl rfl), getRaw_decodes lib self _ _ _ (Or.inl hr),
        performUncompression_congr lib
          ⟨self.CompressedData, [], self.Width, self.Height, ERGBFormat.Invalid, 0⟩ self
          ERGBFormat.RGBA 8 rfl rfl rfl hsrc]
    · rw [getRaw_decodes lib _ _ _ _ (Or.inl rfl), getRaw_decodes lib self _ _ _ (Or.inl hr),
        performUncompression_congr lib
          ⟨self.CompressedData, [], self.Width, self.Height, ERGBFormat.Invalid, 0⟩ self
          ERGBFormat.BGRA 8 rfl rfl rfl hsrc]

/-- With a probe that reports only positive dimensions, a reachable state that
holds compressed bytes has positive width and height, or it is the state the
reset branch of `SetRaw` leaves: width and height zero, no decoded buffer,
layout `Invalid` and depth 0. -/
theorem reachable_compressed_size (lib : LibWebP)
    (hprobe : ∀ (Data : List UInt8) (W H : Int),
      lib.WebPGetInfo Data = some (W, H) → 0 < W ∧ 0 < H)
    (Calls : List Operation) :
    (FWebpImageWrapper.Construct.run lib Calls).CompressedData ≠ [] →
      (0 < (FWebpImageWrapper.Construct.run lib Calls).Width ∧
        0 < (FWebpImageWrapper.Construct.run lib Calls).Height) ∨
      ((FWebpImageWrapper.Construct.run lib Calls).Width = 0 ∧
        (FWebpImageWrapper.Construct.run lib Calls).Height = 0 ∧
        (FWebpImageWrapper.Construct.run lib Calls).RawData = [] ∧
        (FWebpImageWrapper.Construct.run lib Calls).RawFormat = ERGBFormat.Invalid ∧
        (FWebpImageWrapper.Construct.run lib Calls).RawBitDepth = 0) := by
  refine run_induction lib
    (fun s => s.CompressedData ≠ [] →
      (0 < s.Width ∧ 0 < s.Height) ∨
      (s.Width = 0 ∧ s.Height = 0 ∧ s.RawData = [] ∧ s.RawFormat = ERGBFormat.Invalid ∧
        s.RawBitDepth = 0))
    ?_ Calls FWebpImageWrapper.Construct (fun h => absurd rfl h)
  intro s op hs
  cases op with
  | SetCompressed InCompressedData InCompressedSize =>
    simp only [FWebpImageWrapper.call]
    rcases setCompressed_cases lib s InCompressedData InCompressedSize with
      h | ⟨c, -, h⟩ | ⟨c, W, H, hp, h⟩ <;> rw [h]
    · exact hs
    · exact fun h => absurd rfl h
    · exact fun _ => Or.inl (hprobe c W H hp)
  | SetRaw fill InRawData InRawSize InWidth InHeight InFormat InBitDepth InBytesPerRow =>
    simp only [FWebpImageWrapper.call]
    rcases setRaw_cases fill s InRawData InRawSize InWidth InHeight InFormat InBitDepth
      InBytesPerRow with h | h | ⟨-, -, -, -, Raw, h⟩ <;> rw [h]
    · exact hs
    · exact fun _ => Or.inr ⟨rfl, rfl, rfl, rfl, rfl⟩
    · exact fun h => absurd rfl h
  | GetRaw InFormat InBitDepth OutRawData =>
    simp only [FWebpImageWrapper.call]
    obtain ⟨hcd, hw, hh⟩ := getRaw_keeps lib s InFormat InBitDepth OutRawData
    intro hne
    rw [hcd] at hne
    rcases hs hne with hpos | ⟨h0, h1, h2, h3, h4⟩
    · rw [hw, hh]
      exact Or.inl hpos
    · rw [getRaw_self, if_pos (Or.inl h2),
        performUncompression_no_source lib s _ _ (Or.inr (Or.inl h0))]
      exact Or.inr ⟨h0, h1, h2, h3, h4⟩
  | GetCompressed Quality =>
    simp only [FWebpImageWrapper.call, getCompressed_self]
    exact hs

/-- Claim C19. Assuming the codec probe reports only positive dimensions on
success: for every reachable compressed-only instance (compressed bytes
non-empty, decoded buffer empty) and every requested target other than (RGBA, 8)
and (BGRA, 8), `GetRaw` fails without invoking any codec entry point and without
writing the output array; afterwards the decoded buffer is empty, the decoded
layout is `Invalid` and the bit depth 0, while the width, height and compressed
bytes are unchanged, and a later request for (RGBA, 8) or (BGRA, 8) behaves
exactly as it would have on the original instance, so it can still succeed. -/
theorem C19_getRaw_unsupported_target (lib : LibWebP)
    (hprobe : ∀ (Data : List UInt8) (W H : Int),
      lib.WebPGetInfo Data = some (W, H) → 0 < W ∧ 0 < H)
    (Calls : List Operation) (InFormat : ERGBFormat) (InBitDepth : Int)
    (OutRawData : List UInt8)
    (hc : (FWebpImageWrapper.Construct.run lib Calls).CompressedData ≠ [])
    (hr : (FWebpImageWrapper.Construct.run lib Calls).RawData = [])
    (ht : ¬ ((InFormat = ERGBFormat.RGBA ∨ InFormat = ERGBFormat.BGRA) ∧ InBitDepth = 8)) :
    ((FWebpImageWrapper.Construct.run lib Calls).GetRaw lib InFormat InBitDepth
      OutRawData).ret = (false, OutRawData) ∧
    ((FWebpImageWrapper.Construct.run lib Calls).GetRaw lib InFormat InBitDepth
      OutRawData).calls = [] ∧
    ((FWebpImageWrapper.Construct.run lib Calls).GetRaw lib InFormat InBitDepth
      OutRawData).self.RawData = [] ∧
    ((FWebpImageWrapper.Construct.run lib Calls).GetRaw lib InFormat InBitDepth
      OutRawData).self.GetFormat = ERGBFormat.Invalid ∧
    ((FWebpImageWrapper.Construct.run lib Calls).GetRaw lib InFormat InBitDepth
      OutRawData).self.GetBitDepth = 0 ∧
    ((FWebpImageWrapper.Construct.run lib Calls).GetRaw lib InFormat InBitDepth
      OutRawData).self.GetWidth = (FWebpImageWrapper.Construct.run lib Calls).GetWidth ∧
    ((FWebpImageWrapper.Construct.run lib Calls).GetRaw lib InFormat InBitDepth
      OutRawData).self.GetHeight = (FWebpImageWrapper.Construct.run lib Calls).GetHeight ∧
    ((FWebpImageWrapper.Construct.run lib Calls).GetRaw lib InFormat InBitDepth
      OutRawData).self.CompressedData
      = (FWebpImageWrapper.Construct.run lib Calls).CompressedData ∧
    (∀ Later : List UInt8,
      ((FWebpImageWrapper.Construct.run lib Calls).GetRaw lib InFormat InBitDepth
          OutRawData).self.GetRaw lib ERGBFormat.RGBA 8 Later
        = (FWebpImageWrapper.Construct.run lib Calls).GetRaw lib ERGBFormat.RGBA 8 Later ∧
      ((FWebpImageWrapper.Construct.run lib Calls).GetRaw lib InFormat InBitDepth
          OutRawData).self.GetRaw lib ERGBFormat.BGRA 8 Later
        = (FWebpImageWrapper.Construct.run lib Calls).GetRaw lib ERGBFormat.BGRA 8 Later) := by
  have hsize := reachable_compressed_size lib hprobe Calls hc
  generalize FWebpImageWrapper.Construct.run lib Calls = s at hc hr hsize ⊢
  obtain ⟨hmain, h1, h2, h3, h4, hnz⟩ :=
    getRaw_unsupported_compressed_only lib s InFormat InBitDepth OutRawData hc hr ht
  rcases hsize with ⟨hW, hH⟩ | ⟨hW, hH, -, hf, hd⟩
  · obtain ⟨h5, h6, hlater⟩ := hnz ⟨by omega, by omega⟩
    refine ⟨?_, ?_, h1, h5, h6, h3, h4, h2, hlater⟩
    · rw [hmain]
    · rw [hmain]
  · have hsame : (s.GetRaw lib InFormat InBitDepth OutRawData).self = s := by
      rw [hmain]
      exact if_pos (Or.inl hW)
    refine ⟨?_, ?_, h1, ?_, ?_, h3, h4, h2, ?_⟩
    · rw [hmain]
    · rw [hmain]
    · rw [hsame]; exact hf
    · rw [hsame]; exact hd
    · intro Later
      rw [hsame]
      exact ⟨rfl, rfl⟩

/-- Witness for C19: with a probe that reports 1 by 1, the instance after a
`SetRaw` of an RGBA image and an accepted `SetCompressed` is compressed-only with
the stale layout RGBA; `GetRaw(Gray, 8)` fails on it and leaves the layout
`Invalid`. -/
theorem C19_getRaw_unsupported_target_witness :
    ((FWebpImageWrapper.Construct.run (testLib 1 1 true)
      [Operation.SetRaw testFill (some [1, 2, 3, 4]) 4 1 1 ERGBFormat.RGBA 8 0,
        Operation.SetCompressed (some webpHeader) 12]).GetRaw (testLib 1 1 true)
      ERGBFormat.Gray 8 [9]).ret = (false, [9]) ∧
    ((FWebpImageWrapper.Construct.run (testLib 1 1 true)
      [Operation.SetRaw testFill (some [1, 2, 3, 4]) 4 1 1 ERGBFormat.RGBA 8 0,
        Operation.SetCompressed (some webpHeader) 12]).GetRaw (testLib 1 1 true)
      ERGBFormat.Gray 8 [9]).self = ⟨webpHeader, [], 1, 1, ERGBFormat.Invalid, 0⟩ :=
  have hp : ∀ (Data : List UInt8) (W H : Int),
      (testLib 1 1 true).WebPGetInfo Data = some (W, H) → 0 < W ∧ 0 < H := by
    intro Data W H h
    simp only [testLib, Option.some.injEq, Prod.mk.injEq] at h
    omega
  ⟨(C19_getRaw_unsupported_target (testLib 1 1 true) hp
      [Operation.SetRaw testFill (some [1, 2, 3, 4]) 4 1 1 ERGBFormat.RGBA 8 0,
        Operation.SetCompressed (some webpHeader) 12] ERGBFormat.Gray 8 [9]
      (by decide) (by decide) (by decide)).1,
    by decide⟩

/-! ## Raw data without a compressed source -/

/-- Claim C20. For every instance populated by a successful `SetRaw` in one
layout, so that no compressed source is held, `GetRaw` requesting a different
layout or bit depth fails: it invokes no codec entry point, converts nothing,
does not write the output array and leaves the instance (decoded bytes, layout,
depth, width, height) exactly as it was. So with the decoded buffer populated
(non-empty), a later `GetRaw` in the original layout, after the failed request
as well, still succeeds and returns the decoded bytes. -/
theorem C20_getRaw_after_setRaw_other_layout (lib : LibWebP) (fill : Nat → UInt8)
    (self : FWebpImageWrapper) (InRawData : Option (List UInt8))
    (InRawSize InWidth InHeight : Int) (InFormat : ERGBFormat)
    (InBitDepth InBytesPerRow : Int) (Requested : ERGBFormat) (RequestedDepth : Int)
    (OutRawData : List UInt8)
    (hsucc : (self.SetRaw fill InRawData InRawSize InWidth InHeight InFormat InBitDepth
      InBytesPerRow).ret = true)
    (hother : ¬ (Requested = InFormat ∧ RequestedDepth = InBitDepth)) :
    (self.SetRaw fill InRawData InRawSize InWidth InHeight InFormat InBitDepth
        InBytesPerRow).self.CompressedData = [] ∧
    (self.SetRaw fill InRawData InRawSize InWidth InHeight InFormat InBitDepth
        InBytesPerRow).self.GetRaw lib Requested RequestedDepth OutRawData
      = ⟨(false, OutRawData), (self.SetRaw fill InRawData InRawSize InWidth InHeight InFormat
          InBitDepth InBytesPerRow).self, []⟩ ∧
    ((self.SetRaw fill InRawData InRawSize InWidth InHeight InFormat InBitDepth
        InBytesPerRow).self.RawData ≠ [] →
      ((self.SetRaw fill InRawData InRawSize InWidth InHeight InFormat InBitDepth
          InBytesPerRow).self.GetRaw lib Requested RequestedDepth
          OutRawData).self.GetRaw lib InFormat InBitDepth OutRawData
        = ⟨(true, (self.SetRaw fill InRawData InRawSize InWidth InHeight InFormat InBitDepth
            InBytesPerRow).self.RawData),
          (self.SetRaw fill InRawData InRawSize InWidth InHeight InFormat InBitDepth
            InBytesPerRow).self, []⟩) := by
  rcases setRaw_cases fill self InRawData InRawSize InWidth InHeight InFormat InBitDepth
    InBytesPerRow with h | h | ⟨-, -, hf, hd, Raw, h⟩
  · rw [h] at hsucc; exact absurd hsucc (by simp)
  · rw [h] at hsucc; exact absurd hsucc (by simp)
  subst hd
  rw [h]
  have hfmt : InFormat ≠ ERGBFormat.Invalid := by
    rcases hf with hf | hf <;> rw [hf] <;> decide
  have hfail : (FWebpImageWrapper.mk [] Raw InWidth InHeight InFormat 8).GetRaw lib Requested
      RequestedDepth OutRawData
      = ⟨(false, OutRawData), FWebpImageWrapper.mk [] Raw InWidth InHeight InFormat 8, []⟩ := by
    by_cases hraw : Raw = []
    · subst hraw
      rw [getRaw_decodes lib _ _ _ _ (Or.inl rfl),
        performUncompression_no_source lib _ _ _ (Or.inl rfl)]
      simp
    · rw [getRaw_cached lib _ _ _ _ hraw hfmt]
      have hno : ¬ (InFormat = Requested ∧ (8 : Int) = RequestedDepth) := by
        rintro ⟨h1, h2⟩
        exact hother ⟨h1.symm, h2.symm⟩
      simp only [if_neg hno]
  refine ⟨rfl, hfail, ?_⟩
  intro hraw
  rw [hfail]
  rw [getRaw_cached lib _ _ _ _ hraw hfmt]
  simp

/-- Witness for C20: after `SetRaw` of a 1 by 1 RGBA image, `GetRaw(BGRA, 8)`
fails and leaves the instance as it was. -/
theorem C20_getRaw_after_setRaw_other_layout_witness :
    (FWebpImageWrapper.Construct.SetRaw testFill (some [1, 2, 3, 4]) 4 1 1 ERGBFormat.RGBA 8
        0).self.GetRaw (testLib 1 1 true) ERGBFormat.BGRA 8 [9]
      = ⟨(false, [9]), (FWebpImageWrapper.Construct.SetRaw testFill (some [1, 2, 3, 4]) 4 1 1
          ERGBFormat.RGBA 8 0).self, []⟩ :=
  (C20_getRaw_after_setRaw_other_layout (testLib 1 1 true) testFill
    FWebpImageWrapper.Construct (some [1, 2, 3, 4]) 4 1 1 ERGBFormat.RGBA 8 0 ERGBFormat.BGRA 8
    [9] (by decide) (by decide)).2.1

/-! ## Complete outcome of `SetRaw` and safety of its copies -/

/-- A row read stays inside a buffer of `n` bytes that holds the `w * h * 4` bytes
of the tight image and, for a stride above the row size, `h` rows at that
stride. -/
theorem row_inside (w h s n r : Nat) (hsize : w * h * 4 ≤ n)
    (hcov : s ≤ w * 4 ∨ h * s ≤ n) (hr : r < h) : r * s + w * 4 ≤ n := by
  have h1 : (r + 1) * (w * 4) ≤ h * (w * 4) := Nat.mul_le_mul_right _ hr
  have e1 : h * (w * 4) = w * h * 4 := by ring
  have e2 : (r + 1) * (w * 4) = r * (w * 4) + w * 4 := by ring
  rcases Nat.le_total s (w * 4) with hle | hge
  · have h2 : r * s ≤ r * (w * 4) := Nat.mul_le_mul_left _ hle
    omega
  · rcases hcov with hle | hc
    · have h2 : r * s ≤ r * (w * 4) := Nat.mul_le_mul_left _ hle
      omega
    · have h2 : (r + 1) * s ≤ h * s := Nat.mul_le_mul_right _ hr
      have e3 : (r + 1) * s = r * s + s := by ring
      omega

/-- Within the limits of the argument types a successful `SetRaw` whose pointer
addresses at least `n` bytes stores exactly `w * h * 4` bytes. -/
theorem setRaw_in_range_length (fill : Nat → UInt8) (self : FWebpImageWrapper)
    (Src : List UInt8) (n w h : Nat) (InFormat : ERGBFormat) (InBytesPerRow : Int)
    (hn : 0 < n) (hw : 0 < w) (hh : 0 < h)
    (hf : InFormat = ERGBFormat.RGBA ∨ InFormat = ERGBFormat.BGRA)
    (hrow : w * 4 < 2147483648) (hH : h < 2147483648) (hS : InBytesPerRow < 2147483648)
    (hbuf : n ≤ Src.length)
    (hret : (self.SetRaw fill (some Src) (n : Int) (w : Int) (h : Int) InFormat 8
      InBytesPerRow).ret = true) :
    (self.SetRaw fill (some Src) (n : Int) (w : Int) (h : Int) InFormat 8
      InBytesPerRow).self.RawData.length = w * h * 4 := by
  rw [setRaw_in_range fill self Src n w h InFormat InBytesPerRow hn hw hh hf hrow hH hS]
    at hret ⊢
  by_cases h1 : n < w * h * 4
  · rw [if_pos h1] at hret
    exact absurd hret (by simp)
  rw [if_neg h1] at hret ⊢
  by_cases h2 : InBytesPerRow ≤ 0 ∨ InBytesPerRow = ((w * 4 : Nat) : Int)
  · rw [if_pos h2]
    simp only [List.length_take]
    omega
  rw [if_neg h2] at hret ⊢
  by_cases h3 : h * InBytesPerRow.toNat ≤ n
  · rw [if_pos h3]
    have hsrc : ∀ r, r < h → 0 + r * InBytesPerRow.toNat + w * 4 ≤ Src.length := by
      intro r hr
      have := row_inside w h InBytesPerRow.toNat n r (by omega) (Or.inr h3) hr
      omega
    have hlen := (copyRows_spec Src InBytesPerRow.toNat (w * 4) (by omega) h 0 0
      ((List.range (w * h * 4)).map fill)
      (by simp only [List.length_map, List.length_range]
          have : h * (w * 4) = w * h * 4 := by ring
          omega) hsrc).1
    simp only [hlen, List.length_map, List.length_range]
  · rw [if_neg h3] at hret
    exact absurd hret (by simp)

/-- The outcome of `SetRaw` within the limits of the argument types, by the two
conditions that decide it: the arguments describe an image the buffer holds,
and the buffer covers the rows at the given stride. -/
theorem setRaw_outcome (fill : Nat → UInt8) (self : FWebpImageWrapper)
    (InRawData : Option (List UInt8)) (InRawSize InWidth InHeight : Int)
    (InFormat : ERGBFormat) (InBitDepth InBytesPerRow : Int)
    (hrow : InWidth * 4 < 2147483648) (hH : InHeight < 2147483648)
    (hS : InBytesPerRow < 2147483648) :
    self.SetRaw fill InRawData InRawSize InWidth InHeight InFormat InBitDepth InBytesPerRow =
      if InRawData ≠ none ∧ 0 < InRawSize ∧ 0 < InWidth ∧ 0 < InHeight ∧
          ((InFormat = ERGBFormat.RGBA ∨ InFormat = ERGBFormat.BGRA) ∧ InBitDepth = 8) ∧
          InWidth * InHeight * 4 ≤ InRawSize then
        if InBytesPerRow ≤ 0 ∨ InBytesPerRow ≤ InWidth * 4 ∨
            InHeight * InBytesPerRow ≤ InRawSize then
          ⟨true, ⟨[], (self.SetRaw fill InRawData InRawSize InWidth InHeight InFormat
            InBitDepth InBytesPerRow).self.RawData, InWidth, InHeight, InFormat, 8⟩, []⟩
        else ⟨false, ⟨self.CompressedData, [], 0, 0, ERGBFormat.Invalid, 0⟩, []⟩
      else ⟨false, self, []⟩ := by
  by_cases hargs : InRawData = none ∨ InRawSize ≤ 0 ∨ InWidth ≤ 0 ∨ InHeight ≤ 0
  · rw [if_neg (by
      rintro ⟨h0, h1, h2, h3, -⟩
      rcases hargs with h | h | h | h
      · exact h0 h
      · omega
      · omega
      · omega)]
    exact setRaw_invalid_arguments fill self _ _ _ _ _ _ _ hargs
  by_cases hfmt : (InFormat = ERGBFormat.RGBA ∨ InFormat = ERGBFormat.BGRA) ∧ InBitDepth = 8
  swap
  · rw [if_neg (fun h => hfmt h.2.2.2.2.1)]
    exact setRaw_unsupported fill self _ _ _ _ _ _ _ hfmt
  obtain ⟨hf, hd⟩ := hfmt
  subst hd
  cases InRawData with
  | none => exact absurd (Or.inl rfl) hargs
  | some Src =>
    obtain ⟨n, rfl⟩ := Int.eq_ofNat_of_zero_le (show 0 ≤ InRawSize by omega)
    obtain ⟨w, rfl⟩ := Int.eq_ofNat_of_zero_le (show 0 ≤ InWidth by omega)
    obtain ⟨h, rfl⟩ := Int.eq_ofNat_of_zero_le (show 0 ≤ InHeight by omega)
    have hn : 0 < n := by omega
    have hw : 0 < w := by omega
    have hh : 0 < h := by omega
    have hc : ((w : Int) * (h : Int) * 4 ≤ (n : Int)) ↔ ¬ (n < w * h * 4) := by
      rw [not_lt]; exact_mod_cast Iff.rfl
    have key := setRaw_in_range fill self Src n w h InFormat InBytesPerRow hn hw hh hf
      (by omega) (by omega) hS
    by_cases hshort : n < w * h * 4
    · rw [if_pos hshort] at key
      rw [if_neg (fun hv => (hc.1 hv.2.2.2.2.2) hshort)]
      exact key
    rw [if_neg hshort] at key
    have hv : some Src ≠ none ∧ 0 < (n : Int) ∧ 0 < (w : Int) ∧ 0 < (h : Int) ∧
        ((InFormat = ERGBFormat.RGBA ∨ InFormat = ERGBFormat.BGRA) ∧ (8 : Int) = 8) ∧
        (w : Int) * (h : Int) * 4 ≤ (n : Int) :=
      ⟨by simp, by omega, by omega, by omega, ⟨hf, rfl⟩, hc.2 hshort⟩
    rw [if_pos hv]
    by_cases hdef : InBytesPerRow ≤ 0 ∨ InBytesPerRow = ((w * 4 : Nat) : Int)
    · rw [if_pos hdef] at key
      have hcov : InBytesPerRow ≤ 0 ∨ InBytesPerRow ≤ (w : Int) * 4 ∨
          (h : Int) * InBytesPerRow ≤ (n : Int) := by
        rcases hdef with h | h
        · exact Or.inl h
        · exact Or.inr (Or.inl (by rw [h]; push_cast; omega))
      rw [if_pos hcov, key]
    rw [if_neg hdef] at key
    obtain ⟨s, rfl⟩ := Int.eq_ofNat_of_zero_le (show 0 ≤ InBytesPerRow by omega)
    simp only [Int.toNat_ofNat] at key
    have hcov : ((s : Int) ≤ 0 ∨ (s : Int) ≤ (w : Int) * 4 ∨ (h : Int) * (s : Int) ≤ (n : Int))
        ↔ h * s ≤ n := by
      have hmul : ((h : Int) * (s : Int) ≤ (n : Int)) ↔ h * s ≤ n := by exact_mod_cast Iff.rfl
      constructor
      · rintro (h0 | h1 | h2)
        · exact absurd (Or.inl h0) hdef
        · have hs : s ≤ w * 4 := by exact_mod_cast h1
          have h3 : h * s ≤ h * (w * 4) := Nat.mul_le_mul_left _ hs
          have e1 : h * (w * 4) = w * h * 4 := by ring
          omega
        · exact hmul.1 h2
      · intro h2
        exact Or.inr (Or.inr (hmul.2 h2))
    by_cases hrows : h * s ≤ n
    · rw [if_pos hrows] at key
      rw [if_pos (hcov.2 hrows), key]
    · rw [if_neg hrows] at key
      rw [if_neg (fun h => hrows (hcov.1 h))]
      exact key

/-- C22: with the row size `InWidth * 4` representable in 32 bits (the height and
the stride being `int32` values), `SetRaw` returns success if and only if the
buffer is non-null and non-empty, the width and height are positive, the format
is (RGBA, 8) or (BGRA, 8), the size is at least `InWidth * InHeight * 4`, and the
stride is non-positive, or at most `InWidth * 4`, or the size is at least
`InHeight * InBytesPerRow`. When the first group of conditions fails the instance
is left as it was; the reset branch is taken exactly when the first group holds
and the stride condition fails, so only with a supplied stride strictly above
the row size; and with the default stride 0 a buffer of at least the expected
size always succeeds. -/
theorem C22_setRaw_success_iff (fill : Nat → UInt8) (self : FWebpImageWrapper)
    (InRawData : Option (List UInt8)) (InRawSize InWidth InHeight : Int)
    (InFormat : ERGBFormat) (InBitDepth InBytesPerRow : Int)
    (hrow : InWidth * 4 < 2147483648) (hH : InHeight < 2147483648)
    (hS : InBytesPerRow < 2147483648) :
    ((self.SetRaw fill InRawData InRawSize InWidth InHeight InFormat InBitDepth
        InBytesPerRow).ret = true ↔
      (InRawData ≠ none ∧ 0 < InRawSize ∧ 0 < InWidth ∧ 0 < InHeight ∧
        ((InFormat = ERGBFormat.RGBA ∨ InFormat = ERGBFormat.BGRA) ∧ InBitDepth = 8) ∧
        InWidth * InHeight * 4 ≤ InRawSize) ∧
      (InBytesPerRow ≤ 0 ∨ InBytesPerRow ≤ InWidth * 4 ∨
        InHeight * InBytesPerRow ≤ InRawSize)) ∧
    (¬ (InRawData ≠ none ∧ 0 < InRawSize ∧ 0 < InWidth ∧ 0 < InHeight ∧
        ((InFormat = ERGBFormat.RGBA ∨ InFormat = ERGBFormat.BGRA) ∧ InBitDepth = 8) ∧
        InWidth * InHeight * 4 ≤ InRawSize) →
      self.SetRaw fill InRawData InRawSize InWidth InHeight InFormat InBitDepth InBytesPerRow
        = ⟨false, self, []⟩) ∧
    ((InRawData ≠ none ∧ 0 < InRawSize ∧ 0 < InWidth ∧ 0 < InHeight ∧
        ((InFormat = ERGBFormat.RGBA ∨ InFormat = ERGBFormat.BGRA) ∧ InBitDepth = 8) ∧
        InWidth * InHeight * 4 ≤ InRawSize) →
      ¬ (InBytesPerRow ≤ 0 ∨ InBytesPerRow ≤ InWidth * 4 ∨
        InHeight * InBytesPerRow ≤ InRawSize) →
      InWidth * 4 < InBytesPerRow ∧
      self.SetRaw fill InRawData InRawSize InWidth InHeight InFormat InBitDepth InBytesPerRow
        = ⟨false, ⟨self.CompressedData, [], 0, 0, ERGBFormat.Invalid, 0⟩, []⟩) ∧
    ((InRawData ≠ none ∧ 0 < InRawSize ∧ 0 < InWidth ∧ 0 < InHeight ∧
        ((InFormat = ERGBFormat.RGBA ∨ InFormat = ERGBFormat.BGRA) ∧ InBitDepth = 8) ∧
        InWidth * InHeight * 4 ≤ InRawSize) →
      (self.SetRaw fill InRawData InRawSize InWidth InHeight InFormat InBitDepth 0).ret
        = true) := by
  have key := setRaw_outcome fill self InRawData InRawSize InWidth InHeight InFormat
    InBitDepth InBytesPerRow hrow hH hS
  have key0 := setRaw_outcome fill self InRawData InRawSize InWidth InHeight InFormat
    InBitDepth 0 hrow hH (by decide)
  refine ⟨?_, ?_, ?_, ?_⟩
  · constructor
    · intro hret
      by_cases hv : InRawData ≠ none ∧ 0 < InRawSize ∧ 0 < InWidth ∧ 0 < InHeight ∧
          ((InFormat = ERGBFormat.RGBA ∨ InFormat = ERGBFormat.BGRA) ∧ InBitDepth = 8) ∧
          InWidth * InHeight * 4 ≤ InRawSize
      · by_cases hc : InBytesPerRow ≤ 0 ∨ InBytesPerRow ≤ InWidth * 4 ∨
            InHeight * InBytesPerRow ≤ InRawSize
        · exact ⟨hv, hc⟩
        · rw [if_pos hv, if_neg hc] at key
          rw [key] at hret
          exact absurd hret (by simp)
      · rw [if_neg hv] at key
        rw [key] at hret
        exact absurd hret (by simp)
    · rintro ⟨hv, hc⟩
      rw [if_pos hv, if_pos hc] at key
      rw [key]
  · intro hv
    rw [if_neg hv] at key
    exact key
  · intro hv hc
    rw [if_pos hv, if_neg hc] at key
    exact ⟨by omega, key⟩
  · intro hv
    rw [if_pos hv, if_pos (Or.inl (le_refl 0))] at key0
    rw [key0]

/-- Witness for C22: a 1 by 1 BGRA image in a four-byte buffer with the default
stride is accepted. -/
theorem C22_setRaw_success_iff_witness :
    (FWebpImageWrapper.Construct.SetRaw testFill (some [1, 2, 3, 4]) 4 1 1 ERGBFormat.BGRA 8
      0).ret = true :=
  (C22_setRaw_success_iff testFill FWebpImageWrapper.Construct (some [1, 2, 3, 4]) 4 1 1
    ERGBFormat.BGRA 8 0 (by decide) (by decide) (by decide)).1.2
    ⟨⟨by decide, by decide, by decide, by decide, ⟨Or.inr rfl, rfl⟩, by decide⟩,
      Or.inl (by decide)⟩

/-- Within the limits of the argument types the 64-bit expected size of line 134
is the exact product `InWidth * InHeight * 4`. -/
theorem expectedSize_in_range (InWidth InHeight : Int) (hW : 0 < InWidth) (hH : 0 < InHeight)
    (hrow : InWidth * 4 < 2147483648) (hH2 : InHeight < 2147483648) :
    wrapInt64 (wrapInt64 (wrapInt64 (InWidth * InHeight) * 4) * 1)
      = InWidth * InHeight * 4 := by
  have hp : 0 < InWidth * InHeight := mul_pos hW hH
  have h1 : InWidth * 4 * InHeight < 2147483648 * 2147483648 :=
    mul_lt_mul'' hrow hH2 (by omega) (by omega)
  have h2 : InWidth * 4 * InHeight = InWidth * InHeight * 4 := by ring
  exact expectedSize_exact _ hp (by omega)

/-- The 64-bit product of a positive `int32` height and a positive `int32` stride
is exact. -/
theorem rowsSize_in_range (InHeight Stride : Int) (hH : 0 < InHeight) (hS : 0 < Stride)
    (hH2 : InHeight < 2147483648) (hS2 : Stride < 2147483648) :
    wrapInt64 (InHeight * Stride) = InHeight * Stride := by
  have hp : 0 < InHeight * Stride := mul_pos hH hS
  have h1 : InHeight * Stride < 2147483648 * 2147483648 :=
    mul_lt_mul'' hH2 hS2 (by omega) (by omega)
  unfold wrapInt64
  omega

/-- The block copies of `SetRaw` within the limits of the argument types: none
unless the arguments describe an image the buffer holds; then the one block of
`InWidth * InHeight * 4` bytes for the default stride or the row size, the rows
at the given stride when the buffer covers them, and none in the reset branch. -/
theorem setRawCopies_outcome (InRawData : Option (List UInt8))
    (InRawSize InWidth InHeight : Int) (InFormat : ERGBFormat)
    (InBitDepth InBytesPerRow : Int)
    (hrow : InWidth * 4 < 2147483648) (hH : InHeight < 2147483648)
    (hS : InBytesPerRow < 2147483648) :
    FWebpImageWrapper.SetRawCopies InRawData InRawSize InWidth InHeight InFormat InBitDepth
        InBytesPerRow =
      if InRawData ≠ none ∧ 0 < InRawSize ∧ 0 < InWidth ∧ 0 < InHeight ∧
          ((InFormat = ERGBFormat.RGBA ∨ InFormat = ERGBFormat.BGRA) ∧ InBitDepth = 8) ∧
          InWidth * InHeight * 4 ≤ InRawSize then
        if InBytesPerRow ≤ 0 ∨ InBytesPerRow = InWidth * 4 then
          [⟨0, 0, InWidth * InHeight * 4⟩]
        else if InHeight * InBytesPerRow ≤ InRawSize then
          copyRowsBlocks InBytesPerRow (InWidth * 4) InHeight.toNat 0 0
        else []
      else [] := by
  cases InRawData with
  | none => simp [FWebpImageWrapper.SetRawCopies]
  | some Src =>
    by_cases hargs : InRawSize ≤ 0 ∨ InWidth ≤ 0 ∨ InHeight ≤ 0
    · rw [if_neg (by rintro ⟨-, h1, h2, h3, -⟩; omega)]
      simp only [FWebpImageWrapper.SetRawCopies, if_pos hargs]
    by_cases hfmt : (InFormat = ERGBFormat.RGBA ∨ InFormat = ERGBFormat.BGRA) ∧ InBitDepth = 8
    swap
    · rw [if_neg (fun h => hfmt h.2.2.2.2.1)]
      have hcan : FWebpImageWrapper.CanSetRawFormat InFormat InBitDepth = false := by
        rw [← Bool.not_eq_true, canSetRawFormat_iff]; exact hfmt
      simp only [FWebpImageWrapper.SetRawCopies, if_neg hargs, hcan, ↓reduceIte]
    obtain ⟨hf, hd⟩ := hfmt
    subst hd
    have hW : 0 < InWidth := by omega
    have hH0 : 0 < InHeight := by omega
    have hch : FWebpImageWrapper.Channels InFormat = 4 := by
      simp [FWebpImageWrapper.Channels, hf]
    have hcan : FWebpImageWrapper.CanSetRawFormat InFormat 8 = true :=
      (canSetRawFormat_iff _ _).2 ⟨hf, rfl⟩
    have h88 : Int.tdiv 8 8 = 1 := by decide
    have h4 : wrapInt32 (4 * 1) = 4 := by decide
    have hD : wrapInt32 (InWidth * 4) = InWidth * 4 := by unfold wrapInt32; omega
    have hE := expectedSize_in_range InWidth InHeight hW hH0 hrow hH
    have hlhs : FWebpImageWrapper.SetRawCopies (some Src) InRawSize InWidth InHeight InFormat 8
        InBytesPerRow =
        if InRawSize < InWidth * InHeight * 4 then []
        else if (if InBytesPerRow > 0 then InBytesPerRow else InWidth * 4) = InWidth * 4 ∧
            InRawSize ≥ InWidth * InHeight * 4 then
          [⟨0, 0, InWidth * InHeight * 4⟩]
        else if InRawSize ≥ wrapInt64 (InHeight *
            (if InBytesPerRow > 0 then InBytesPerRow else InWidth * 4)) then
          copyRowsBlocks (if InBytesPerRow > 0 then InBytesPerRow else InWidth * 4)
            (InWidth * 4) InHeight.toNat 0 0
        else [] := by
      simp only [FWebpImageWrapper.SetRawCopies, hcan, hch, h88, h4, if_neg hargs, hD, hE]
      simp only [Bool.true_eq_false, ↓reduceIte, OfNat.ofNat_ne_zero, ne_eq,
        not_true_eq_false]
    rw [hlhs]
    by_cases hshort : InRawSize < InWidth * InHeight * 4
    · rw [if_pos hshort, if_neg (by rintro ⟨-, -, -, -, -, h⟩; omega)]
    have hge : InRawSize ≥ InWidth * InHeight * 4 := by omega
    have hv : some Src ≠ none ∧ 0 < InRawSize ∧ 0 < InWidth ∧ 0 < InHeight ∧
        ((InFormat = ERGBFormat.RGBA ∨ InFormat = ERGBFormat.BGRA) ∧ (8 : Int) = 8) ∧
        InWidth * InHeight * 4 ≤ InRawSize :=
      ⟨by simp, by omega, hW, hH0, ⟨hf, rfl⟩, by omega⟩
    rw [if_neg hshort, if_pos hv]
    by_cases hpos : InBytesPerRow > 0
    · rw [if_pos hpos, rowsSize_in_range InHeight InBytesPerRow hH0 hpos hH hS]
      by_cases heq : InBytesPerRow = InWidth * 4
      · rw [if_pos ⟨heq, hge⟩, if_pos (Or.inr heq)]
      · have hnd : ¬ (InBytesPerRow ≤ 0 ∨ InBytesPerRow = InWidth * 4) := by omega
        rw [if_neg (fun h => heq h.1), if_neg hnd]
    · rw [if_neg hpos, if_pos ⟨rfl, hge⟩, if_pos (Or.inl (by omega))]

/-- The blocks of the row loop: block `r` reads at `SrcRow + r * SourceRowStride`
and writes at `DestRow + r * DestRowStride`, each `DestRowStride` bytes long. -/
theorem copyRowsBlocks_mem (SourceRowStride DestRowStride : Int) :
    ∀ (Rows : Nat) (SrcRow DestRow : Int) (c : BlockCopy),
      c ∈ copyRowsBlocks SourceRowStride DestRowStride Rows SrcRow DestRow →
      ∃ r : Nat, r < Rows ∧
        c = ⟨DestRow + r * DestRowStride, SrcRow + r * SourceRowStride, DestRowStride⟩ := by
  intro Rows
  induction Rows with
  | zero =>
    intro SrcRow DestRow c hc
    simp [copyRowsBlocks] at hc
  | succ n ih =>
    intro SrcRow DestRow c hc
    simp only [copyRowsBlocks, List.mem_cons] at hc
    rcases hc with rfl | hc
    · exact ⟨0, Nat.succ_pos n, by simp⟩
    · obtain ⟨r, hr, rfl⟩ := ih _ _ c hc
      refine ⟨r + 1, Nat.succ_lt_succ hr, ?_⟩
      have e1 : DestRow + DestRowStride + (r : Int) * DestRowStride
          = DestRow + ((r + 1 : Nat) : Int) * DestRowStride := by push_cast; ring
      have e2 : SrcRow + SourceRowStride + (r : Int) * SourceRowStride
          = SrcRow + ((r + 1 : Nat) : Int) * SourceRowStride := by push_cast; ring
      rw [e1, e2]

/-- The row loop of `SetRaw` is the replay of its recorded blocks, each as one
`Memcpy`. -/
theorem copyRows_replays_blocks (Src : List UInt8) (SourceRowStride DestRowStride : Int) :
    ∀ (Rows : Nat) (SrcRow DestRow : Int) (Dest : List UInt8),
      copyRows Src SourceRowStride DestRowStride Rows SrcRow DestRow Dest =
        (copyRowsBlocks SourceRowStride DestRowStride Rows SrcRow DestRow).foldl
          (fun Buffer c => Memcpy Buffer c.DestOff Src c.SrcOff c.Count) Dest := by
  intro Rows
  induction Rows with
  | zero => intro SrcRow DestRow Dest; rfl
  | succ n ih =>
    intro SrcRow DestRow Dest
    simp only [copyRows, copyRowsBlocks, List.foldl_cons]
    exact ih _ _ _

/-- The block copies of `SetRaw` once the argument and format checks have passed,
branch by branch as in `setRaw_supported`. -/
theorem setRawCopies_supported (Src : List UInt8) (InRawSize InWidth InHeight : Int)
    (InFormat : ERGBFormat) (InBytesPerRow : Int) (hn : 0 < InRawSize) (hW : 0 < InWidth)
    (hH : 0 < InHeight) (hf : InFormat = ERGBFormat.RGBA ∨ InFormat = ERGBFormat.BGRA) :
    FWebpImageWrapper.SetRawCopies (some Src) InRawSize InWidth InHeight InFormat 8
        InBytesPerRow =
      if InRawSize < wrapInt64 (wrapInt64 (wrapInt64 (InWidth * InHeight) * 4) * 1) then []
      else if (if InBytesPerRow > 0 then InBytesPerRow else wrapInt32 (InWidth * 4))
          = wrapInt32 (InWidth * 4) then
        [⟨0, 0, wrapInt64 (wrapInt64 (wrapInt64 (InWidth * InHeight) * 4) * 1)⟩]
      else if InRawSize ≥ wrapInt64 (InHeight *
          (if InBytesPerRow > 0 then InBytesPerRow else wrapInt32 (InWidth * 4))) then
        copyRowsBlocks (if InBytesPerRow > 0 then InBytesPerRow else wrapInt32 (InWidth * 4))
          (wrapInt32 (InWidth * 4)) InHeight.toNat 0 0
      else [] := by
  have hch : FWebpImageWrapper.Channels InFormat = 4 := by
    simp [FWebpImageWrapper.Channels, hf]
  have hcan : FWebpImageWrapper.CanSetRawFormat InFormat 8 = true :=
    (canSetRawFormat_iff _ _).2 ⟨hf, rfl⟩
  have h88 : Int.tdiv 8 8 = 1 := by decide
  have h4 : wrapInt32 (4 * 1) = 4 := by decide
  have hargs : ¬ (InRawSize ≤ 0 ∨ InWidth ≤ 0 ∨ InHeight ≤ 0) := by omega
  simp only [FWebpImageWrapper.SetRawCopies, hcan, hch, h88, h4]
  rw [if_neg hargs]
  simp only [Bool.true_eq_false, ↓reduceIte, OfNat.ofNat_ne_zero, ne_eq, not_true_eq_false]
  by_cases hsz : InRawSize < wrapInt64 (wrapInt64 (wrapInt64 (InWidth * InHeight) * 4) * 1)
  · simp only [hsz, ↓reduceIte]
  · have hge : InRawSize ≥ wrapInt64 (wrapInt64 (wrapInt64 (InWidth * InHeight) * 4) * 1) := by
      omega
    simp only [hsz, ↓reduceIte, hge, and_true]

/-- The bytes a successful `SetRaw` stores are the replay of its recorded block
copies, each as one `Memcpy` from the caller's buffer, onto the freshly sized
array. -/
theorem setRaw_replays_copies (fill : Nat → UInt8) (self : FWebpImageWrapper)
    (Src : List UInt8) (InRawSize InWidth InHeight : Int) (InFormat : ERGBFormat)
    (InBitDepth InBytesPerRow : Int)
    (hret : (self.SetRaw fill (some Src) InRawSize InWidth InHeight InFormat InBitDepth
      InBytesPerRow).ret = true) :
    (self.SetRaw fill (some Src) InRawSize InWidth InHeight InFormat InBitDepth
        InBytesPerRow).self.RawData =
      (FWebpImageWrapper.SetRawCopies (some Src) InRawSize InWidth InHeight InFormat
          InBitDepth InBytesPerRow).foldl
        (fun Buffer c => Memcpy Buffer c.DestOff Src c.SrcOff c.Count)
        (SetNumUninitialized fill
          (wrapInt64 (wrapInt64 (wrapInt64 (InWidth * InHeight) * 4) * 1))) := by
  obtain ⟨hn, hW, hH, hf, hd⟩ := setRaw_success_args fill self _ _ _ _ _ _ _ hret
  subst hd
  rw [setRaw_supported fill self Src _ _ _ _ _ hn hW hH hf] at hret ⊢
  rw [setRawCopies_supported Src _ _ _ _ _ hn hW hH hf]
  by_cases h1 : InRawSize < wrapInt64 (wrapInt64 (wrapInt64 (InWidth * InHeight) * 4) * 1)
  · rw [if_pos h1] at hret
    exact absurd hret (by simp)
  rw [if_neg h1] at hret
  rw [if_neg h1, if_neg h1]
  by_cases h2 : (if InBytesPerRow > 0 then InBytesPerRow else wrapInt32 (InWidth * 4))
      = wrapInt32 (InWidth * 4)
  · rw [if_pos h2, if_pos h2]
    simp only [List.foldl_cons, List.foldl_nil, Memcpy, SetNumUninitialized]
    split_ifs with h0
    · have hz : (wrapInt64 (wrapInt64 (wrapInt64 (InWidth * InHeight) * 4) * 1)).toNat
          = 0 := by omega
      rw [hz]
      rfl
    · simp
  rw [if_neg h2] at hret
  rw [if_neg h2, if_neg h2]
  by_cases h3 : InRawSize ≥ wrapInt64 (InHeight *
      (if InBytesPerRow > 0 then InBytesPerRow else wrapInt32 (InWidth * 4)))
  · rw [if_pos h3, if_pos h3]
    exact copyRows_replays_blocks Src _ _ _ _ _ _
  · rw [if_neg h3] at hret
    exact absurd hret (by simp)

/-- Within the limits of the argument types a successful `SetRaw` had arguments
that describe an image the buffer holds and a stride the buffer covers. -/
theorem setRaw_success_in_range (fill : Nat → UInt8) (self : FWebpImageWrapper)
    (InRawData : Option (List UInt8)) (InRawSize InWidth InHeight : Int)
    (InFormat : ERGBFormat) (InBitDepth InBytesPerRow : Int)
    (hrow : InWidth * 4 < 2147483648) (hH : InHeight < 2147483648)
    (hS : InBytesPerRow < 2147483648)
    (hret : (self.SetRaw fill InRawData InRawSize InWidth InHeight InFormat InBitDepth
      InBytesPerRow).ret = true) :
    (InRawData ≠ none ∧ 0 < InRawSize ∧ 0 < InWidth ∧ 0 < InHeight ∧
      ((InFormat = ERGBFormat.RGBA ∨ InFormat = ERGBFormat.BGRA) ∧ InBitDepth = 8) ∧
      InWidth * InHeight * 4 ≤ InRawSize) ∧
    (InBytesPerRow ≤ 0 ∨ InBytesPerRow ≤ InWidth * 4 ∨
      InHeight * InBytesPerRow ≤ InRawSize) := by
  have key := setRaw_outcome fill self InRawData InRawSize InWidth InHeight InFormat
    InBitDepth InBytesPerRow hrow hH hS
  by_cases hv : InRawData ≠ none ∧ 0 < InRawSize ∧ 0 < InWidth ∧ 0 < InHeight ∧
      ((InFormat = ERGBFormat.RGBA ∨ InFormat = ERGBFormat.BGRA) ∧ InBitDepth = 8) ∧
      InWidth * InHeight * 4 ≤ InRawSize
  · by_cases hc : InBytesPerRow ≤ 0 ∨ InBytesPerRow ≤ InWidth * 4 ∨
        InHeight * InBytesPerRow ≤ InRawSize
    · exact ⟨hv, hc⟩
    · rw [if_pos hv, if_neg hc] at key
      rw [key] at hret
      exact absurd hret (by simp)
  · rw [if_neg hv] at key
    rw [key] at hret
    exact absurd hret (by simp)

/-- Within the limits of the argument types a successful `SetRaw` whose pointer
addresses at least `InRawSize` bytes stores exactly `InWidth * InHeight * 4`
bytes. -/
theorem setRaw_success_length (fill : Nat → UInt8) (self : FWebpImageWrapper)
    (Src : List UInt8) (InRawSize InWidth InHeight : Int) (InFormat : ERGBFormat)
    (InBitDepth InBytesPerRow : Int)
    (hrow : InWidth * 4 < 2147483648) (hH : InHeight < 2147483648)
    (hS : InBytesPerRow < 2147483648) (hbuf : InRawSize ≤ (Src.length : Int))
    (hret : (self.SetRaw fill (some Src) InRawSize InWidth InHeight InFormat InBitDepth
      InBytesPerRow).ret = true) :
    ((self.SetRaw fill (some Src) InRawSize InWidth InHeight InFormat InBitDepth
      InBytesPerRow).self.RawData.length : Int) = InWidth * InHeight * 4 := by
  obtain ⟨hn, hW, hH0, hf, hd⟩ := setRaw_success_args fill self _ _ _ _ _ _ _ hret
  subst hd
  obtain ⟨n, rfl⟩ := Int.eq_ofNat_of_zero_le (show 0 ≤ InRawSize by omega)
  obtain ⟨w, rfl⟩ := Int.eq_ofNat_of_zero_le (show 0 ≤ InWidth by omega)
  obtain ⟨h, rfl⟩ := Int.eq_ofNat_of_zero_le (show 0 ≤ InHeight by omega)
  rw [setRaw_in_range_length fill self Src n w h InFormat InBytesPerRow (by omega) (by omega)
    (by omega) hf (by omega) (by omega) hS (by exact_mod_cast hbuf) hret]
  push_cast
  ring

/-- Row `r` of an image of `InWidth * 4` bytes per row read at stride `Stride`
ends inside a buffer that holds the tight image and covers the stride, and is
written inside the `InWidth * InHeight * 4` bytes of the destination. -/
theorem row_inside_int (InRawSize InWidth InHeight Stride r : Int) (hW : 0 < InWidth)
    (hr0 : 0 ≤ r) (hr : r < InHeight) (hS : 0 < Stride)
    (hsize : InWidth * InHeight * 4 ≤ InRawSize)
    (hcov : Stride ≤ InWidth * 4 ∨ InHeight * Stride ≤ InRawSize) :
    r * Stride + InWidth * 4 ≤ InRawSize ∧
    r * (InWidth * 4) + InWidth * 4 ≤ InWidth * InHeight * 4 := by
  have h1 : (r + 1) * (InWidth * 4) ≤ InHeight * (InWidth * 4) :=
    mul_le_mul_of_nonneg_right (by omega) (by omega)
  have e1 : InHeight * (InWidth * 4) = InWidth * InHeight * 4 := by ring
  have e2 : (r + 1) * (InWidth * 4) = r * (InWidth * 4) + InWidth * 4 := by ring
  refine ⟨?_, by omega⟩
  rcases le_total Stride (InWidth * 4) with hle | hge
  · have h2 : r * Stride ≤ r * (InWidth * 4) := mul_le_mul_of_nonneg_left hle hr0
    omega
  · rcases hcov with hle | hc
    · have h2 : r * Stride ≤ r * (InWidth * 4) := mul_le_mul_of_nonneg_left hle hr0
      omega
    · have h2 : (r + 1) * Stride ≤ InHeight * Stride :=
        mul_le_mul_of_nonneg_right (by omega) (by omega)
      have e3 : (r + 1) * Stride = r * Stride + Stride := by ring
      omega

/-- C23: with the row size `InWidth * 4` representable in 32 bits (the height and
the stride being `int32` values) and any row stride, the copies of `SetRaw` stay
inside both buffers. A call succeeds exactly when it performs a copy; every block
copied reads `Count > 0` bytes at a source offset `SrcOff ≥ 0` with
`SrcOff + Count ≤ InRawSize` and writes them at a destination offset
`DestOff ≥ 0` with `DestOff + Count ≤ InWidth * InHeight * 4`; the stored bytes
are the replay of these blocks; for every row `r < InHeight` and every
`j < InWidth * 4` the source index `r * s + j` is below `InRawSize`, where `s` is
the effective source stride, and the destination index `r * (InWidth * 4) + j`
is below `InWidth * InHeight * 4`, which is the number of bytes stored when the
pointer addresses `InRawSize` bytes. -/
theorem C23_setRaw_copies_in_bounds (fill : Nat → UInt8) (self : FWebpImageWrapper)
    (InRawData : Option (List UInt8)) (InRawSize InWidth InHeight : Int)
    (InFormat : ERGBFormat) (InBitDepth InBytesPerRow : Int)
    (hrow : InWidth * 4 < 2147483648) (hH : InHeight < 2147483648)
    (hS : InBytesPerRow < 2147483648) :
    ((self.SetRaw fill InRawData InRawSize InWidth InHeight InFormat InBitDepth
        InBytesPerRow).ret = true ↔
      FWebpImageWrapper.SetRawCopies InRawData InRawSize InWidth InHeight InFormat InBitDepth
        InBytesPerRow ≠ []) ∧
    (∀ c, c ∈ FWebpImageWrapper.SetRawCopies InRawData InRawSize InWidth InHeight InFormat
        InBitDepth InBytesPerRow →
      0 ≤ c.SrcOff ∧ 0 ≤ c.DestOff ∧ 0 < c.Count ∧ c.SrcOff + c.Count ≤ InRawSize ∧
      c.DestOff + c.Count ≤ InWidth * InHeight * 4) ∧
    ((self.SetRaw fill InRawData InRawSize InWidth InHeight InFormat InBitDepth
        InBytesPerRow).ret = true →
      (∀ r j : Int, 0 ≤ r → r < InHeight → 0 ≤ j → j < InWidth * 4 →
        r * (if InBytesPerRow > 0 then InBytesPerRow else InWidth * 4) + j < InRawSize ∧
        r * (InWidth * 4) + j < InWidth * InHeight * 4) ∧
      (∀ Src, InRawData = some Src →
        (self.SetRaw fill InRawData InRawSize InWidth InHeight InFormat InBitDepth
            InBytesPerRow).self.RawData =
          (FWebpImageWrapper.SetRawCopies InRawData InRawSize InWidth InHeight InFormat
              InBitDepth InBytesPerRow).foldl
            (fun Buffer c => Memcpy Buffer c.DestOff Src c.SrcOff c.Count)
            (SetNumUninitialized fill (InWidth * InHeight * 4)) ∧
        (InRawSize ≤ (Src.length : Int) →
          ((self.SetRaw fill InRawData InRawSize InWidth InHeight InFormat InBitDepth
            InBytesPerRow).self.RawData.length : Int) = InWidth * InHeight * 4))) := by
  have key := setRaw_outcome fill self InRawData InRawSize InWidth InHeight InFormat
    InBitDepth InBytesPerRow hrow hH hS
  have keyc := setRawCopies_outcome InRawData InRawSize InWidth InHeight InFormat
    InBitDepth InBytesPerRow hrow hH hS
  by_cases hv : InRawData ≠ none ∧ 0 < InRawSize ∧ 0 < InWidth ∧ 0 < InHeight ∧
      ((InFormat = ERGBFormat.RGBA ∨ InFormat = ERGBFormat.BGRA) ∧ InBitDepth = 8) ∧
      InWidth * InHeight * 4 ≤ InRawSize
  swap
  · rw [if_neg hv] at key keyc
    rw [key, keyc]
    exact ⟨by simp, by simp, by simp⟩
  rw [if_pos hv] at key keyc
  obtain ⟨hnone, hn, hW, hH0, ⟨hf, hd⟩, hsize⟩ := hv
  have hrowpos : (0 : Int) < InWidth * InHeight * 4 := by positivity
  by_cases hdef : InBytesPerRow ≤ 0 ∨ InBytesPerRow = InWidth * 4
  · -- the contiguous branch
    have hc : InBytesPerRow ≤ 0 ∨ InBytesPerRow ≤ InWidth * 4 ∨
        InHeight * InBytesPerRow ≤ InRawSize := by
      rcases hdef with h | h
      · exact Or.inl h
      · exact Or.inr (Or.inl (le_of_eq h))
    have hs : (if InBytesPerRow > 0 then InBytesPerRow else InWidth * 4) = InWidth * 4 := by
      split_ifs with hp
      · rcases hdef with h | h
        · omega
        · exact h
      · rfl
    rw [if_pos hc] at key
    rw [if_pos hdef] at keyc
    have hret : (self.SetRaw fill InRawData InRawSize InWidth InHeight InFormat InBitDepth
        InBytesPerRow).ret = true := by rw [key]
    refine ⟨⟨fun _ => by rw [keyc]; simp, fun _ => hret⟩, ?_, fun _ => ⟨?_, ?_⟩⟩
    · intro c hcm
      rw [keyc, List.mem_singleton] at hcm
      subst hcm
      exact ⟨le_refl 0, le_refl 0, hrowpos, by simpa using hsize, by simp⟩
    · intro r j hr0 hr hj0 hj
      rw [hs]
      have hb := (row_inside_int InRawSize InWidth InHeight (InWidth * 4) r hW hr0 hr
        (by omega) hsize (Or.inl (le_refl _))).2
      omega
    · intro Src hsrc
      subst hsrc
      refine ⟨?_, fun hbuf => setRaw_success_length fill self Src _ _ _ _ _ _ hrow hH hS
        hbuf hret⟩
      have hrep := setRaw_replays_copies fill self Src _ _ _ _ _ _ hret
      rw [expectedSize_in_range InWidth InHeight hW hH0 hrow hH] at hrep
      exact hrep
  · -- a supplied stride other than the row size
    have hpos : InBytesPerRow > 0 := by omega
    have hs : (if InBytesPerRow > 0 then InBytesPerRow else InWidth * 4) = InBytesPerRow :=
      if_pos hpos
    rw [if_neg hdef] at keyc
    by_cases hrows : InHeight * InBytesPerRow ≤ InRawSize
    · rw [if_pos (Or.inr (Or.inr hrows))] at key
      rw [if_pos hrows] at keyc
      have hret : (self.SetRaw fill InRawData InRawSize InWidth InHeight InFormat InBitDepth
          InBytesPerRow).ret = true := by rw [key]
      obtain ⟨k, hk⟩ : ∃ k, InHeight.toNat = k + 1 := ⟨InHeight.toNat - 1, by omega⟩
      refine ⟨⟨fun _ => by rw [keyc, hk]; simp [copyRowsBlocks], fun _ => hret⟩, ?_,
        fun _ => ⟨?_, ?_⟩⟩
      · intro c hcm
        rw [keyc] at hcm
        obtain ⟨r, hr, rfl⟩ := copyRowsBlocks_mem _ _ _ _ _ c hcm
        have hb := row_inside_int InRawSize InWidth InHeight InBytesPerRow (r : Int) hW
          (by omega) (by omega) hpos hsize (Or.inr hrows)
        have h1 : (0 : Int) ≤ (r : Int) * InBytesPerRow :=
          mul_nonneg (by omega) (by omega)
        have h2 : (0 : Int) ≤ (r : Int) * (InWidth * 4) := mul_nonneg (by omega) (by omega)
        simp only
        omega
      · intro r j hr0 hr hj0 hj
        rw [hs]
        have hb := row_inside_int InRawSize InWidth InHeight InBytesPerRow r hW hr0 hr hpos
          hsize (Or.inr hrows)
        omega
      · intro Src hsrc
        subst hsrc
        refine ⟨?_, fun hbuf => setRaw_success_length fill self Src _ _ _ _ _ _ hrow hH hS
          hbuf hret⟩
        have hrep := setRaw_replays_copies fill self Src _ _ _ _ _ _ hret
        rw [expectedSize_in_range InWidth InHeight hW hH0 hrow hH] at hrep
        exact hrep
    · have hnc : ¬ (InBytesPerRow ≤ 0 ∨ InBytesPerRow ≤ InWidth * 4 ∨
          InHeight * InBytesPerRow ≤ InRawSize) := by
        rintro (h | h | h)
        · omega
        · have h3 : InHeight * InBytesPerRow ≤ InHeight * (InWidth * 4) :=
            mul_le_mul_of_nonneg_left h (by omega)
          have e1 : InHeight * (InWidth * 4) = InWidth * InHeight * 4 := by ring
          omega
        · exact hrows h
      rw [if_neg hnc] at key
      rw [if_neg hrows] at keyc
      rw [key, keyc]
      exact ⟨by simp, by simp, by simp⟩

/-- Witness for C23: a 1 by 2 RGBA image passed with a row stride of six bytes is
copied in two blocks of four bytes, read at the offsets 0 and 6 of the
twelve-byte buffer and written at the offsets 0 and 4. -/
theorem C23_setRaw_copies_in_bounds_witness :
    FWebpImageWrapper.SetRawCopies (some [1, 2, 3, 4, 0, 0, 5, 6, 7, 8, 0, 0]) 12 1 2
        ERGBFormat.RGBA 8 6 = [⟨0, 0, 4⟩, ⟨4, 6, 4⟩] ∧
    ∀ c, c ∈ FWebpImageWrapper.SetRawCopies (some [1, 2, 3, 4, 0, 0, 5, 6, 7, 8, 0, 0]) 12 1 2
        ERGBFormat.RGBA 8 6 →
      0 ≤ c.SrcOff ∧ 0 ≤ c.DestOff ∧ 0 < c.Count ∧ c.SrcOff + c.Count ≤ 12 ∧
      c.DestOff + c.Count ≤ 1 * 2 * 4 :=
  ⟨by decide,
    (C23_setRaw_copies_in_bounds testFill FWebpImageWrapper.Construct
      (some [1, 2, 3, 4, 0, 0, 5, 6, 7, 8, 0, 0]) 12 1 2 ERGBFormat.RGBA 8 6 (by decide)
      (by decide) (by decide)).2.1⟩

/-! ## Raw round trip -/

/-- A call of `SetRaw` with the default stride 0, a supported layout, positive
dimensions and a size that is an `int64` value of at least
`InWidth * InHeight * 4` stores the first `InWidth * InHeight * 4` bytes. -/
theorem setRaw_default_stride (fill : Nat → UInt8) (self : FWebpImageWrapper)
    (Src : List UInt8) (InRawSize InWidth InHeight : Int) (InFormat : ERGBFormat)
    (hW : 0 < InWidth) (hH : 0 < InHeight)
    (hf : InFormat = ERGBFormat.RGBA ∨ InFormat = ERGBFormat.BGRA)
    (hsize : InWidth * InHeight * 4 ≤ InRawSize) (h64 : InRawSize < 9223372036854775808) :
    self.SetRaw fill (some Src) InRawSize InWidth InHeight InFormat 8 0 =
      ⟨true, ⟨[], Src.take (InWidth * InHeight * 4).toNat, InWidth, InHeight, InFormat, 8⟩,
        []⟩ := by
  have hp : 0 < InWidth * InHeight := mul_pos hW hH
  have hstride : (if (0 : Int) > 0 then (0 : Int) else wrapInt32 (InWidth * 4))
      = wrapInt32 (InWidth * 4) := if_neg (by decide)
  rw [setRaw_supported fill self Src _ _ _ _ _ (by omega) hW hH hf,
    expectedSize_exact _ hp (by omega), if_neg (by omega), if_pos hstride]

/-- C24: for positive width and height, layout RGBA or BGRA and a buffer `b` of
at least `InWidth * InHeight * 4` bytes (its size an `int64` value), `SetRaw` with
depth 8 and the default stride succeeds; an immediately following
`GetRaw` for the same layout and depth succeeds without a codec call, leaves the
instance as it is and returns exactly the first `InWidth * InHeight * 4` bytes of
`b`; and `SetRaw` with the returned bytes succeeds and leaves the instance, the
decoded state included, unchanged. -/
theorem C24_raw_round_trip (lib : LibWebP) (fill fill2 : Nat → UInt8)
    (self : FWebpImageWrapper) (b : List UInt8) (InWidth InHeight : Int)
    (InFormat : ERGBFormat) (OutRawData : List UInt8)
    (hW : 0 < InWidth) (hH : 0 < InHeight)
    (hf : InFormat = ERGBFormat.RGBA ∨ InFormat = ERGBFormat.BGRA)
    (hsize : InWidth * InHeight * 4 ≤ (b.length : Int))
    (h64 : (b.length : Int) < 9223372036854775808) :
    (self.SetRaw fill (some b) (b.length : Int) InWidth InHeight InFormat 8 0).ret = true ∧
    (self.SetRaw fill (some b) (b.length : Int) InWidth InHeight InFormat 8 0).self =
      ⟨[], b.take (InWidth * InHeight * 4).toNat, InWidth, InHeight, InFormat, 8⟩ ∧
    ((b.take (InWidth * InHeight * 4).toNat).length : Int) = InWidth * InHeight * 4 ∧
    (self.SetRaw fill (some b) (b.length : Int) InWidth InHeight InFormat 8 0).self.GetRaw lib
        InFormat 8 OutRawData =
      ⟨(true, b.take (InWidth * InHeight * 4).toNat),
        (self.SetRaw fill (some b) (b.length : Int) InWidth InHeight InFormat 8 0).self, []⟩ ∧
    (self.SetRaw fill (some b) (b.length : Int) InWidth InHeight InFormat 8 0).self.SetRaw fill2
        (some (b.take (InWidth * InHeight * 4).toNat))
        ((b.take (InWidth * InHeight * 4).toNat).length : Int) InWidth InHeight InFormat 8 0 =
      ⟨true, (self.SetRaw fill (some b) (b.length : Int) InWidth InHeight InFormat 8 0).self,
        []⟩ := by
  have hp : 0 < InWidth * InHeight := mul_pos hW hH
  have hlen : ((b.take (InWidth * InHeight * 4).toNat).length : Int)
      = InWidth * InHeight * 4 := by
    rw [List.length_take]
    omega
  have hne : b.take (InWidth * InHeight * 4).toNat ≠ [] := by
    intro h
    rw [h] at hlen
    simp only [List.length_nil, Nat.cast_zero] at hlen
    omega
  have hfmt : InFormat ≠ ERGBFormat.Invalid := by
    rcases hf with h | h <;> rw [h] <;> decide
  rw [setRaw_default_stride fill self b _ _ _ _ hW hH hf hsize h64]
  refine ⟨rfl, rfl, hlen, ?_, ?_⟩
  · rw [getRaw_cached lib _ _ _ _ hne hfmt]
    simp
  · rw [setRaw_default_stride fill2 _ (b.take (InWidth * InHeight * 4).toNat) _ _ _ _ hW hH hf
      (le_of_eq hlen.symm) (by omega), List.take_take, min_self]

/-- Witness for C24: a 1 by 1 RGBA image set from a six-byte buffer; the two
bytes beyond the expected size are ignored. -/
theorem C24_raw_round_trip_witness :
    (FWebpImageWrapper.Construct.SetRaw testFill (some [1, 2, 3, 4, 5, 6])
        (([1, 2, 3, 4, 5, 6] : List UInt8).length : Int) 1 1 ERGBFormat.RGBA 8 0).self.GetRaw
        (testLib 1 1 true) ERGBFormat.RGBA 8 [] =
      ⟨(true, ([1, 2, 3, 4, 5, 6] : List UInt8).take ((1 : Int) * 1 * 4).toNat),
        (FWebpImageWrapper.Construct.SetRaw testFill (some [1, 2, 3, 4, 5, 6])
          (([1, 2, 3, 4, 5, 6] : List UInt8).length : Int) 1 1 ERGBFormat.RGBA 8 0).self,
        []⟩ :=
  (C24_raw_round_trip (testLib 1 1 true) testFill testFill FWebpImageWrapper.Construct
    [1, 2, 3, 4, 5, 6] 1 1 ERGBFormat.RGBA [] (by decide) (by decide) (Or.inl rfl)
    (by decide) (by decide)).2.2.2.1

/-! ## Size of the decoded buffer in the reachable states -/

/-- A property that holds for an instance and is kept by every call that meets a
condition holds after every sequence of calls that all meet the condition. -/
theorem run_induction_on (lib : LibWebP) (Q : Operation → Prop)
    (P : FWebpImageWrapper → Prop)
    (hstep : ∀ (s : FWebpImageWrapper) (op : Operation), Q op → P s → P (s.call lib op)) :
    ∀ (Calls : List Operation) (self : FWebpImageWrapper),
      (∀ op, op ∈ Calls → Q op) → P self → P (self.run lib Calls) := by
  intro Calls
  induction Calls with
  | nil => intro self _ h; exact h
  | cons op rest ih =>
    intro self hq h
    exact ih (self.call lib op) (fun o ho => hq o (List.mem_cons_of_mem _ ho))
      (hstep self op (hq op (List.mem_cons_self _ _)) h)

/-- The three ways `PerformUncompression` can end, with the size of the decoded
buffer: nothing happens; or the decoded state is cleared; or there was a usable
source, the target is RGBA or BGRA at 8 bits, and the instance holds a decoded
buffer of `Stride * Height` bytes, the 32-bit product of line 208 or 219. -/
theorem performUncompression_sizes (lib : LibWebP) (self : FWebpImageWrapper)
    (InFormat : ERGBFormat) (InBitDepth : Int) :
    self.PerformUncompression lib InFormat InBitDepth = ⟨false, self, []⟩ ∨
    (self.PerformUncompression lib InFormat InBitDepth).self =
      ⟨self.CompressedData, [], self.Width, self.Height, ERGBFormat.Invalid, 0⟩ ∨
    (self.CompressedData ≠ [] ∧ self.Width ≠ 0 ∧ self.Height ≠ 0 ∧
      (InFormat = ERGBFormat.RGBA ∨ InFormat = ERGBFormat.BGRA) ∧
      ∃ Raw, Raw.length = (wrapInt32 (wrapInt32 (self.Width * 4) * self.Height)).toNat ∧
        (self.PerformUncompression lib InFormat InBitDepth).self =
          ⟨self.CompressedData, Raw, self.Width, self.Height, InFormat, 8⟩) := by
  by_cases hsrc : self.CompressedData = [] ∨ self.Width = 0 ∨ self.Height = 0
  · exact Or.inl (performUncompression_no_source lib self _ _ hsrc)
  have hsrc3 : self.CompressedData ≠ [] ∧ self.Width ≠ 0 ∧ self.Height ≠ 0 :=
    ⟨fun h => hsrc (Or.inl h), fun h => hsrc (Or.inr (Or.inl h)),
      fun h => hsrc (Or.inr (Or.inr h))⟩
  by_cases hR : InFormat = ERGBFormat.RGBA ∧ InBitDepth = 8
  · obtain ⟨rfl, rfl⟩ := hR
    rw [performUncompression_RGBA lib self hsrc]
    cases hdec : lib.WebPDecodeRGBAInto self.CompressedData
        (wrapInt32 (wrapInt32 (self.Width * 4) * self.Height)).toNat
        (wrapInt32 (self.Width * 4)) with
    | none => exact Or.inr (Or.inl rfl)
    | some Pixels =>
      exact Or.inr (Or.inr ⟨hsrc3.1, hsrc3.2.1, hsrc3.2.2, Or.inl rfl, _,
        by rw [List.length_map, List.length_range], rfl⟩)
  by_cases hB : InFormat = ERGBFormat.BGRA ∧ InBitDepth = 8
  · obtain ⟨rfl, rfl⟩ := hB
    rw [performUncompression_BGRA lib self hsrc]
    cases hdec : lib.WebPDecodeBGRAInto self.CompressedData
        (wrapInt32 (wrapInt32 (self.Width * 4) * self.Height)).toNat
        (wrapInt32 (self.Width * 4)) with
    | none => exact Or.inr (Or.inl rfl)
    | some Pixels =>
      exact Or.inr (Or.inr ⟨hsrc3.1, hsrc3.2.1, hsrc3.2.2, Or.inr rfl, _,
        by rw [List.length_map, List.length_range], rfl⟩)
  · have h2 : ¬ (self.CompressedData.length = 0 ∨ self.Width = 0 ∨ self.Height = 0) := by
      simpa using hsrc
    refine Or.inr (Or.inl ?_)
    simp only [FWebpImageWrapper.PerformUncompression, if_neg h2, if_neg hR, if_neg hB]

/-- With a probe that reports only positive dimensions whose 32-bit size products
are in range, and calls within the limits of the argument types, every reachable
state with a non-empty decoded buffer holds exactly `Width * Height * 4` bytes of
an RGBA or BGRA image at 8 bits with positive width and height and a row size in
range; and while compressed bytes are held the width and height are both zero
or those of a probe. -/
theorem reachable_decoded_size (lib : LibWebP)
    (hprobe : ∀ (Data : List UInt8) (W H : Int), lib.WebPGetInfo Data = some (W, H) →
      0 < W ∧ 0 < H ∧ W * H * 4 < 2147483648)
    (Calls : List Operation) (hcalls : ∀ op, op ∈ Calls → op.InRange) :
    ((FWebpImageWrapper.Construct.run lib Calls).RawData ≠ [] →
      ((FWebpImageWrapper.Construct.run lib Calls).RawData.length : Int) =
        (FWebpImageWrapper.Construct.run lib Calls).Width *
          (FWebpImageWrapper.Construct.run lib Calls).Height * 4 ∧
      0 < (FWebpImageWrapper.Construct.run lib Calls).Width ∧
      0 < (FWebpImageWrapper.Construct.run lib Calls).Height ∧
      ((FWebpImageWrapper.Construct.run lib Calls).RawFormat = ERGBFormat.RGBA ∨
        (FWebpImageWrapper.Construct.run lib Calls).RawFormat = ERGBFormat.BGRA) ∧
      (FWebpImageWrapper.Construct.run lib Calls).RawBitDepth = 8 ∧
      (FWebpImageWrapper.Construct.run lib Calls).Width * 4 < 2147483648) ∧
    ((FWebpImageWrapper.Construct.run lib Calls).CompressedData ≠ [] →
      ((FWebpImageWrapper.Construct.run lib Calls).Width = 0 ∧
        (FWebpImageWrapper.Construct.run lib Calls).Height = 0) ∨
      (0 < (FWebpImageWrapper.Construct.run lib Calls).Width ∧
        0 < (FWebpImageWrapper.Construct.run lib Calls).Height ∧
        (FWebpImageWrapper.Construct.run lib Calls).Width *
          (FWebpImageWrapper.Construct.run lib Calls).Height * 4 < 2147483648)) := by
  refine run_induction_on lib Operation.InRange
    (fun s => (s.RawData ≠ [] →
        (s.RawData.length : Int) = s.Width * s.Height * 4 ∧ 0 < s.Width ∧ 0 < s.Height ∧
        (s.RawFormat = ERGBFormat.RGBA ∨ s.RawFormat = ERGBFormat.BGRA) ∧
        s.RawBitDepth = 8 ∧ s.Width * 4 < 2147483648) ∧
      (s.CompressedData ≠ [] →
        (s.Width = 0 ∧ s.Height = 0) ∨
        (0 < s.Width ∧ 0 < s.Height ∧ s.Width * s.Height * 4 < 2147483648)))
    ?_ Calls FWebpImageWrapper.Construct hcalls
    ⟨fun h => absurd rfl h, fun h => absurd rfl h⟩
  intro s op hop hs
  cases op with
  | SetCompressed InCompressedData InCompressedSize =>
    simp only [FWebpImageWrapper.call]
    rcases setCompressed_cases lib s InCompressedData InCompressedSize with
      h | ⟨c, -, h⟩ | ⟨c, W, H, hp, h⟩ <;> rw [h]
    · exact hs
    · exact ⟨fun h => absurd rfl h, fun h => absurd rfl h⟩
    · exact ⟨fun h => absurd rfl h, fun _ => Or.inr (hprobe c W H hp)⟩
  | SetRaw fill InRawData InRawSize InWidth InHeight InFormat InBitDepth InBytesPerRow =>
    simp only [FWebpImageWrapper.call]
    cases InRawData with
    | none => exact hs
    | some Src =>
      obtain ⟨hbuf, hrow, hH, hS⟩ := hop
      by_cases hret : (s.SetRaw fill (some Src) InRawSize InWidth InHeight InFormat
          InBitDepth InBytesPerRow).ret = true
      · have hlen := setRaw_success_length fill s Src _ _ _ _ _ _ hrow hH hS hbuf hret
        rcases setRaw_cases fill s (some Src) InRawSize InWidth InHeight InFormat
          InBitDepth InBytesPerRow with h | h | ⟨hW, hH0, hf, -, Raw, h⟩
        · rw [h] at hret; exact absurd hret (by simp)
        · rw [h] at hret; exact absurd hret (by simp)
        · rw [h] at hlen ⊢
          exact ⟨fun _ => ⟨hlen, hW, hH0, hf, rfl, hrow⟩, fun hc => absurd rfl hc⟩
      · rcases setRaw_cases fill s (some Src) InRawSize InWidth InHeight InFormat
          InBitDepth InBytesPerRow with h | h | ⟨-, -, -, -, Raw, h⟩
        · rw [h]; exact hs
        · rw [h]
          exact ⟨fun h => absurd rfl h, fun _ => Or.inl ⟨rfl, rfl⟩⟩
        · rw [h] at hret; exact absurd rfl hret
  | GetRaw InFormat InBitDepth OutRawData =>
    simp only [FWebpImageWrapper.call]
    rw [getRaw_self]
    split_ifs with hdec
    · rcases performUncompression_sizes lib s InFormat InBitDepth with
        h | h | ⟨hc, hW, hH, hf, Raw, hlen, h⟩
      · rw [h]; exact hs
      · rw [h]; exact ⟨fun h => absurd rfl h, hs.2⟩
      · rw [h]
        rcases hs.2 hc with ⟨h0, -⟩ | ⟨hWp, hHp, hin⟩
        · exact absurd h0 hW
        · have hrow : s.Width * 4 < 2147483648 := by nlinarith
          have hnum : wrapInt32 (wrapInt32 (s.Width * 4) * s.Height)
              = s.Width * s.Height * 4 := by
            have e1 : wrapInt32 (s.Width * 4) = s.Width * 4 := by unfold wrapInt32; omega
            have e2 : s.Width * 4 * s.Height = s.Width * s.Height * 4 := by ring
            have hp : 0 < s.Width * s.Height := mul_pos hWp hHp
            rw [e1, e2]
            unfold wrapInt32
            omega
          refine ⟨fun _ => ⟨?_, hWp, hHp, hf, rfl, hrow⟩, fun _ => Or.inr ⟨hWp, hHp, hin⟩⟩
          simp only [hlen, hnum]
          have hp : 0 < s.Width * s.Height := mul_pos hWp hHp
          omega
    · exact hs
  | GetCompressed Quality =>
    simp only [FWebpImageWrapper.call, getCompressed_self]
    exact hs

/-- C21: with a probe that reports only positive dimensions whose 32-bit size
products are in range, and calls within the limits of the argument types, in
every state reachable from a freshly constructed instance by any sequence of the
four operations: whenever the decoded buffer is non-empty its length is exactly
`Width * Height * 4`, the width and height are positive, the layout is RGBA or
BGRA and the bit depth is 8; hence every codec call made by `GetCompressed` is
an encode of the decoded buffer with the stride `Width * 4` over `Height` rows,
and it reads only inside that buffer. -/
theorem C21_decoded_buffer_covers_image (lib : LibWebP)
    (hprobe : ∀ (Data : List UInt8) (W H : Int), lib.WebPGetInfo Data = some (W, H) →
      0 < W ∧ 0 < H ∧ W * H * 4 < 2147483648)
    (Calls : List Operation) (hcalls : ∀ op, op ∈ Calls → op.InRange) :
    ((FWebpImageWrapper.Construct.run lib Calls).RawData ≠ [] →
      ((FWebpImageWrapper.Construct.run lib Calls).RawData.length : Int) =
        (FWebpImageWrapper.Construct.run lib Calls).Width *
          (FWebpImageWrapper.Construct.run lib Calls).Height * 4 ∧
      0 < (FWebpImageWrapper.Construct.run lib Calls).Width ∧
      0 < (FWebpImageWrapper.Construct.run lib Calls).Height ∧
      ((FWebpImageWrapper.Construct.run lib Calls).RawFormat = ERGBFormat.RGBA ∨
        (FWebpImageWrapper.Construct.run lib Calls).RawFormat = ERGBFormat.BGRA) ∧
      (FWebpImageWrapper.Construct.run lib Calls).RawBitDepth = 8) ∧
    (∀ (Quality : Int) (c : CodecCall),
      c ∈ ((FWebpImageWrapper.Construct.run lib Calls).GetCompressed lib Quality).calls →
      (c = CodecCall.EncodeRGBA (FWebpImageWrapper.Construct.run lib Calls).RawData
            (FWebpImageWrapper.Construct.run lib Calls).Width
            (FWebpImageWrapper.Construct.run lib Calls).Height
            ((FWebpImageWrapper.Construct.run lib Calls).Width * 4) (castToFloat Quality) ∨
        c = CodecCall.EncodeBGRA (FWebpImageWrapper.Construct.run lib Calls).RawData
            (FWebpImageWrapper.Construct.run lib Calls).Width
            (FWebpImageWrapper.Construct.run lib Calls).Height
            ((FWebpImageWrapper.Construct.run lib Calls).Width * 4) (castToFloat Quality)) ∧
      c.ReadsInside) := by
  obtain ⟨hraw, -⟩ := reachable_decoded_size lib hprobe Calls hcalls
  generalize FWebpImageWrapper.Construct.run lib Calls = s at hraw ⊢
  refine ⟨fun h => ⟨(hraw h).1, (hraw h).2.1, (hraw h).2.2.1, (hraw h).2.2.2.1,
    (hraw h).2.2.2.2.1⟩, ?_⟩
  intro Quality c hc
  by_cases hne : s.RawData = []
  · have hguard : s.RawData.length = 0 ∨ s.Width = 0 ∨ s.Height = 0 ∨
        s.RawFormat = ERGBFormat.Invalid := Or.inl (by rw [hne]; rfl)
    simp only [FWebpImageWrapper.GetCompressed, if_pos hguard, List.not_mem_nil] at hc
  obtain ⟨hlen, hW, hH, -, -, hrow⟩ := hraw hne
  have hstride : wrapInt32 (s.Width * 4) = s.Width * 4 := by unfold wrapInt32; omega
  have hrows : (s.Height - 1) * (s.Width * 4) + s.Width * 4 ≤ (s.RawData.length : Int) := by
    have e : (s.Height - 1) * (s.Width * 4) + s.Width * 4 = s.Width * s.Height * 4 := by ring
    omega
  simp only [FWebpImageWrapper.GetCompressed, hstride] at hc
  split_ifs at hc
  all_goals first
    | exact absurd hc (List.not_mem_nil c)
    | (rw [List.mem_singleton] at hc
       subst hc
       first
         | exact ⟨Or.inl rfl, hW, hH, le_refl _, hrows⟩
         | exact ⟨Or.inr rfl, hW, hH, le_refl _, hrows⟩)

/-- Witness for C21: with a probe that reports 2 by 2, after an accepted
`SetCompressed`, a `GetRaw` and a `SetRaw` of a 1 by 2 image with a row stride of
six bytes the decoded buffer holds 1 * 2 * 4 = 8 bytes. -/
theorem C21_decoded_buffer_covers_image_witness :
    (FWebpImageWrapper.Construct.run (testLib 2 2 true)
      [Operation.SetCompressed (some webpHeader) 12,
        Operation.GetRaw ERGBFormat.BGRA 8 [],
        Operation.SetRaw testFill (some [1, 2, 3, 4, 0, 0, 5, 6, 7, 8, 0, 0]) 12 1 2
          ERGBFormat.RGBA 8 6]).RawData = [1, 2, 3, 4, 5, 6, 7, 8] ∧
    ((FWebpImageWrapper.Construct.run (testLib 2 2 true)
      [Operation.SetCompressed (some webpHeader) 12,
        Operation.GetRaw ERGBFormat.BGRA 8 [],
        Operation.SetRaw testFill (some [1, 2, 3, 4, 0, 0, 5, 6, 7, 8, 0, 0]) 12 1 2
          ERGBFormat.RGBA 8 6]).RawData.length : Int) =
      (FWebpImageWrapper.Construct.run (testLib 2 2 true)
        [Operation.SetCompressed (some webpHeader) 12,
          Operation.GetRaw ERGBFormat.BGRA 8 [],
          Operation.SetRaw testFill (some [1, 2, 3, 4, 0, 0, 5, 6, 7, 8, 0, 0]) 12 1 2
            ERGBFormat.RGBA 8 6]).Width *
      (FWebpImageWrapper.Construct.run (testLib 2 2 true)
        [Operation.SetCompressed (some webpHeader) 12,
          Operation.GetRaw ERGBFormat.BGRA 8 [],
          Operation.SetRaw testFill (some [1, 2, 3, 4, 0, 0, 5, 6, 7, 8, 0, 0]) 12 1 2
            ERGBFormat.RGBA 8 6]).Height * 4 :=
  have hp : ∀ (Data : List UInt8) (W H : Int),
      (testLib 2 2 true).WebPGetInfo Data = some (W, H) →
      0 < W ∧ 0 < H ∧ W * H * 4 < 2147483648 := by
    intro Data W H h
    simp only [testLib, Option.some.injEq, Prod.mk.injEq] at h
    obtain ⟨rfl, rfl⟩ := h
    decide
  ⟨by decide,
    ((C21_decoded_buffer_covers_image (testLib 2 2 true) hp
      [Operation.SetCompressed (some webpHeader) 12,
        Operation.GetRaw ERGBFormat.BGRA 8 [],
        Operation.SetRaw testFill (some [1, 2, 3, 4, 0, 0, 5, 6, 7, 8, 0, 0]) 12 1 2
          ERGBFormat.RGBA 8 6]
      (by decide)).1 (by decide)).1⟩

/-! ## The two overloads of `GetRaw` -/

/-- With a probe that reports only positive dimensions, every reachable state
with a non-empty decoded buffer has positive width and height. -/
theorem reachable_decoded_positive (lib : LibWebP)
    (hprobe : ∀ (Data : List UInt8) (W H : Int),
      lib.WebPGetInfo Data = some (W, H) → 0 < W ∧ 0 < H)
    (Calls : List Operation) :
    (FWebpImageWrapper.Construct.run lib Calls).RawData ≠ [] →
      0 < (FWebpImageWrapper.Construct.run lib Calls).Width ∧
      0 < (FWebpImageWrapper.Construct.run lib Calls).Height := by
  have key : ((FWebpImageWrapper.Construct.run lib Calls).Width = 0 ∧
        (FWebpImageWrapper.Construct.run lib Calls).Height = 0 ∧
        (FWebpImageWrapper.Construct.run lib Calls).RawData = []) ∨
      (0 < (FWebpImageWrapper.Construct.run lib Calls).Width ∧
        0 < (FWebpImageWrapper.Construct.run lib Calls).Height) := by
    refine run_induction lib
      (fun s => (s.Width = 0 ∧ s.Height = 0 ∧ s.RawData = []) ∨ (0 < s.Width ∧ 0 < s.Height))
      ?_ Calls FWebpImageWrapper.Construct (Or.inl ⟨rfl, rfl, rfl⟩)
    intro s op hs
    cases op with
    | SetCompressed InCompressedData InCompressedSize =>
      simp only [FWebpImageWrapper.call]
      rcases setCompressed_cases lib s InCompressedData InCompressedSize with
        h | ⟨c, -, h⟩ | ⟨c, W, H, hp, h⟩ <;> rw [h]
      · exact hs
      · exact Or.inl ⟨rfl, rfl, rfl⟩
      · exact Or.inr (hprobe c W H hp)
    | SetRaw fill InRawData InRawSize InWidth InHeight InFormat InBitDepth InBytesPerRow =>
      simp only [FWebpImageWrapper.call]
      rcases setRaw_cases fill s InRawData InRawSize InWidth InHeight InFormat InBitDepth
        InBytesPerRow with h | h | ⟨hW, hH, -, -, Raw, h⟩ <;> rw [h]
      · exact hs
      · exact Or.inl ⟨rfl, rfl, rfl⟩
      · exact Or.inr ⟨hW, hH⟩
    | GetRaw InFormat InBitDepth OutRawData =>
      simp only [FWebpImageWrapper.call]
      rw [getRaw_self]
      split_ifs with hdec
      · rcases performUncompression_sizes lib s InFormat InBitDepth with
          h | h | ⟨-, hW, hH, -, Raw, -, h⟩
        · rw [h]; exact hs
        · rw [h]
          rcases hs with ⟨h0, h1, -⟩ | hpos
          · exact Or.inl ⟨h0, h1, rfl⟩
          · exact Or.inr hpos
        · rw [h]
          rcases hs with ⟨h0, -, -⟩ | hpos
          · exact absurd h0 hW
          · exact Or.inr hpos
      · exact hs
    | GetCompressed Quality =>
      simp only [FWebpImageWrapper.call, getCompressed_self]
      exact hs
  intro hne
  rcases key with ⟨-, -, h⟩ | h
  · exact absurd h hne
  · exact h

/-- The states after a sequence of calls followed by one more call. -/
theorem run_append_call (lib : LibWebP) (self : FWebpImageWrapper) (Calls : List Operation)
    (op : Operation) :
    self.run lib (Calls ++ [op]) = (self.run lib Calls).call lib op := by
  simp only [FWebpImageWrapper.run, List.foldl_append, List.foldl_cons, List.foldl_nil]

/-- The array passed to the flat `GetRaw` for its result has no influence on the
verdict, on the instance afterwards or on the codec calls. -/
theorem getRaw_out_irrelevant (lib : LibWebP) (self : FWebpImageWrapper)
    (InFormat : ERGBFormat) (InBitDepth : Int) (Out1 Out2 : List UInt8) :
    (self.GetRaw lib InFormat InBitDepth Out1).ret.1 =
      (self.GetRaw lib InFormat InBitDepth Out2).ret.1 ∧
    (self.GetRaw lib InFormat InBitDepth Out1).self =
      (self.GetRaw lib InFormat InBitDepth Out2).self ∧
    (self.GetRaw lib InFormat InBitDepth Out1).calls =
      (self.GetRaw lib InFormat InBitDepth Out2).calls := by
  simp only [FWebpImageWrapper.GetRaw]
  split_ifs <;> exact ⟨rfl, rfl, rfl⟩

/-- The overload of `GetRaw` with mip information once the flat overload has
succeeded, the consistency check has passed and the format bridge has given a
valid format: the outcome is decided by the sub-images `Init` creates. -/
theorem getRawDecompressedImage_checked (lib : LibWebP)
    (Init : FMipMapImage → Int → Int → Int → ERawImageFormat → EGammaSpace → FMipMapImage)
    (self : FWebpImageWrapper) (InRequestedRGBFormat : ERGBFormat)
    (InRequestedBitDepth : Int) (OutDecompressedImage : FDecompressedImageOutput)
    (hflat : (self.GetRaw lib InRequestedRGBFormat InRequestedBitDepth []).ret.1 = true)
    (hcheck : ¬ ((self.GetRaw lib InRequestedRGBFormat InRequestedBitDepth []).self.RawData.length
        = 0 ∨
      (self.GetRaw lib InRequestedRGBFormat InRequestedBitDepth []).self.RawFormat
        ≠ InRequestedRGBFormat ∨
      (self.GetRaw lib InRequestedRGBFormat InRequestedBitDepth []).self.RawBitDepth
        ≠ InRequestedBitDepth ∨
      (self.GetRaw lib InRequestedRGBFormat InRequestedBitDepth []).self.Width ≤ 0 ∨
      (self.GetRaw lib InRequestedRGBFormat InRequestedBitDepth []).self.Height ≤ 0))
    (hbridge : ToRawImageFormat InRequestedRGBFormat InRequestedBitDepth
      ≠ ERawImageFormat.Invalid) :
    (∀ (First : FMipInfo) (Rest : List FMipInfo),
      (Init OutDecompressedImage.MipMapImage
          (self.GetRaw lib InRequestedRGBFormat InRequestedBitDepth []).self.Width
          (self.GetRaw lib InRequestedRGBFormat InRequestedBitDepth []).self.Height 1
          (ToRawImageFormat InRequestedRGBFormat InRequestedBitDepth)
          EGammaSpace.sRGB).SubImages = First :: Rest →
      self.GetRawDecompressedImage lib Init InRequestedRGBFormat InRequestedBitDepth
          OutDecompressedImage =
        ⟨(true, ⟨⟨⟨0,
            ((self.GetRaw lib InRequestedRGBFormat InRequestedBitDepth []).ret.2.length : Int),
            (self.GetRaw lib InRequestedRGBFormat InRequestedBitDepth []).self.Width,
            (self.GetRaw lib InRequestedRGBFormat InRequestedBitDepth []).self.Height⟩ :: Rest,
            (self.GetRaw lib InRequestedRGBFormat InRequestedBitDepth []).ret.2,
            ToRawImageFormat InRequestedRGBFormat InRequestedBitDepth,
            (Init OutDecompressedImage.MipMapImage
              (self.GetRaw lib InRequestedRGBFormat InRequestedBitDepth []).self.Width
              (self.GetRaw lib InRequestedRGBFormat InRequestedBitDepth []).self.Height 1
              (ToRawImageFormat InRequestedRGBFormat InRequestedBitDepth)
              EGammaSpace.sRGB).GammaSpace⟩⟩),
          (self.GetRaw lib InRequestedRGBFormat InRequestedBitDepth []).self,
          (self.GetRaw lib InRequestedRGBFormat InRequestedBitDepth []).calls⟩) ∧
    ((Init OutDecompressedImage.MipMapImage
          (self.GetRaw lib InRequestedRGBFormat InRequestedBitDepth []).self.Width
          (self.GetRaw lib InRequestedRGBFormat InRequestedBitDepth []).self.Height 1
          (ToRawImageFormat InRequestedRGBFormat InRequestedBitDepth)
          EGammaSpace.sRGB).SubImages = [] →
      self.GetRawDecompressedImage lib Init InRequestedRGBFormat InRequestedBitDepth
          OutDecompressedImage =
        ⟨(false, ⟨Init OutDecompressedImage.MipMapImage
            (self.GetRaw lib InRequestedRGBFormat InRequestedBitDepth []).self.Width
            (self.GetRaw lib InRequestedRGBFormat InRequestedBitDepth []).self.Height 1
            (ToRawImageFormat InRequestedRGBFormat InRequestedBitDepth) EGammaSpace.sRGB⟩),
          (self.GetRaw lib InRequestedRGBFormat InRequestedBitDepth []).self,
          (self.GetRaw lib InRequestedRGBFormat InRequestedBitDepth []).calls⟩) := by
  have h1 : ¬ ((self.GetRaw lib InRequestedRGBFormat InRequestedBitDepth []).ret.1 = false) := by
    rw [hflat]; decide
  unfold FWebpImageWrapper.GetRawDecompressedImage
  simp only [if_neg h1, if_neg hcheck, if_neg hbridge]
  constructor
  · intro First Rest hsub
    rw [hsub]
  · intro hsub
    rw [hsub]

/-- Claim C25. Assuming the codec probe reports only positive dimensions on
success, as the codec does: in every reachable state and for every requested
(layout, depth), whenever the flat `GetRaw` succeeds, the consistency check of
the overload with
mip information holds on the instance it leaves (decoded buffer non-empty,
layout and depth equal to the request, width and height positive) and the
format bridge gives BGRA8 for the request, never `Invalid`; the overload leaves
the same instance and makes the same codec calls as the flat one, and it
succeeds exactly when `Init` creates at least one sub-image. Assuming `Init`
creates one sub-image, it succeeds with a single mip of width `GetWidth`, height
`GetHeight`, offset 0 and size the pixel byte count, format BGRA8, and the pixel
bytes of the flat overload. -/
theorem C25_getRaw_overloads_agree (lib : LibWebP)
    (Init : FMipMapImage → Int → Int → Int → ERawImageFormat → EGammaSpace → FMipMapImage)
    (hprobe : ∀ (Data : List UInt8) (W H : Int),
      lib.WebPGetInfo Data = some (W, H) → 0 < W ∧ 0 < H)
    (Calls : List Operation) (InFormat : ERGBFormat) (InBitDepth : Int)
    (OutRawData : List UInt8) (OutDecompressedImage : FDecompressedImageOutput)
    (hflat : ((FWebpImageWrapper.Construct.run lib Calls).GetRaw lib InFormat InBitDepth
      OutRawData).ret.1 = true) :
    (((FWebpImageWrapper.Construct.run lib Calls).GetRaw lib InFormat InBitDepth
        OutRawData).self.RawData ≠ [] ∧
      ((FWebpImageWrapper.Construct.run lib Calls).GetRaw lib InFormat InBitDepth
        OutRawData).self.RawFormat = InFormat ∧
      ((FWebpImageWrapper.Construct.run lib Calls).GetRaw lib InFormat InBitDepth
        OutRawData).self.RawBitDepth = InBitDepth ∧
      0 < ((FWebpImageWrapper.Construct.run lib Calls).GetRaw lib InFormat InBitDepth
        OutRawData).self.Width ∧
      0 < ((FWebpImageWrapper.Construct.run lib Calls).GetRaw lib InFormat InBitDepth
        OutRawData).self.Height) ∧
    ToRawImageFormat InFormat InBitDepth = ERawImageFormat.BGRA8 ∧
    ((FWebpImageWrapper.Construct.run lib Calls).GetRawDecompressedImage lib Init InFormat
        InBitDepth OutDecompressedImage).self =
      ((FWebpImageWrapper.Construct.run lib Calls).GetRaw lib InFormat InBitDepth
        OutRawData).self ∧
    ((FWebpImageWrapper.Construct.run lib Calls).GetRawDecompressedImage lib Init InFormat
        InBitDepth OutDecompressedImage).calls =
      ((FWebpImageWrapper.Construct.run lib Calls).GetRaw lib InFormat InBitDepth
        OutRawData).calls ∧
    (((FWebpImageWrapper.Construct.run lib Calls).GetRawDecompressedImage lib Init InFormat
        InBitDepth OutDecompressedImage).ret.1 = true ↔
      (Init OutDecompressedImage.MipMapImage
        ((FWebpImageWrapper.Construct.run lib Calls).GetRaw lib InFormat InBitDepth
          OutRawData).self.Width
        ((FWebpImageWrapper.Construct.run lib Calls).GetRaw lib InFormat InBitDepth
          OutRawData).self.Height 1 ERawImageFormat.BGRA8 EGammaSpace.sRGB).SubImages ≠ []) ∧
    ((Init OutDecompressedImage.MipMapImage
        ((FWebpImageWrapper.Construct.run lib Calls).GetRaw lib InFormat InBitDepth
          OutRawData).self.Width
        ((FWebpImageWrapper.Construct.run lib Calls).GetRaw lib InFormat InBitDepth
          OutRawData).self.Height 1 ERawImageFormat.BGRA8 EGammaSpace.sRGB).SubImages.length
        = 1 →
      ((FWebpImageWrapper.Construct.run lib Calls).GetRawDecompressedImage lib Init InFormat
        InBitDepth OutDecompressedImage).ret.1 = true ∧
      ((FWebpImageWrapper.Construct.run lib Calls).GetRawDecompressedImage lib Init InFormat
        InBitDepth OutDecompressedImage).ret.2.MipMapImage.SubImages =
        [⟨0,
          (((FWebpImageWrapper.Construct.run lib Calls).GetRaw lib InFormat InBitDepth
            OutRawData).ret.2.length : Int),
          ((FWebpImageWrapper.Construct.run lib Calls).GetRaw lib InFormat InBitDepth
            OutRawData).self.GetWidth,
          ((FWebpImageWrapper.Construct.run lib Calls).GetRaw lib InFormat InBitDepth
            OutRawData).self.GetHeight⟩] ∧
      ((FWebpImageWrapper.Construct.run lib Calls).GetRawDecompressedImage lib Init InFormat
        InBitDepth OutDecompressedImage).ret.2.MipMapImage.Format = ERawImageFormat.BGRA8 ∧
      ((FWebpImageWrapper.Construct.run lib Calls).GetRawDecompressedImage lib Init InFormat
        InBitDepth OutDecompressedImage).ret.2.MipMapImage.RawData =
        ((FWebpImageWrapper.Construct.run lib Calls).GetRaw lib InFormat InBitDepth
          OutRawData).ret.2) := by
  -- the instance after the flat call is itself reachable
  have hreach : ((FWebpImageWrapper.Construct.run lib Calls).GetRaw lib InFormat InBitDepth
      OutRawData).self =
      FWebpImageWrapper.Construct.run lib (Calls ++ [Operation.GetRaw InFormat InBitDepth
        OutRawData]) := by
    rw [run_append_call]
    rfl
  have hpos := reachable_decoded_positive lib hprobe
    (Calls ++ [Operation.GetRaw InFormat InBitDepth OutRawData])
  have hlay := (reachable_decoded_state lib
    (Calls ++ [Operation.GetRaw InFormat InBitDepth OutRawData])).1
  rw [← hreach] at hpos hlay
  obtain ⟨hne, hfmt, hdepth, hbytes⟩ := getRaw_success lib _ InFormat InBitDepth OutRawData hflat
  obtain ⟨hW, hH⟩ := hpos hne
  obtain ⟨hf, hd⟩ := hlay hne
  rw [hfmt] at hf
  rw [hdepth] at hd
  have hbridge : ToRawImageFormat InFormat InBitDepth = ERawImageFormat.BGRA8 := by
    rw [hd]
    rcases hf with h | h <;> rw [h] <;> rfl
  -- the call made inside the overload, on an empty temporary array
  obtain ⟨e1, e2, e3⟩ := getRaw_out_irrelevant lib (FWebpImageWrapper.Construct.run lib Calls)
    InFormat InBitDepth [] OutRawData
  have hflat0 : ((FWebpImageWrapper.Construct.run lib Calls).GetRaw lib InFormat InBitDepth
      []).ret.1 = true := by rw [e1]; exact hflat
  have hbytes0 := (getRaw_success lib _ InFormat InBitDepth [] hflat0).2.2.2
  have hret2 : ((FWebpImageWrapper.Construct.run lib Calls).GetRaw lib InFormat InBitDepth
      []).ret.2 = ((FWebpImageWrapper.Construct.run lib Calls).GetRaw lib InFormat InBitDepth
      OutRawData).ret.2 := by rw [hbytes0, hbytes, e2]
  have hcheck : ¬ (((FWebpImageWrapper.Construct.run lib Calls).GetRaw lib InFormat InBitDepth
        []).self.RawData.length = 0 ∨
      ((FWebpImageWrapper.Construct.run lib Calls).GetRaw lib InFormat InBitDepth
        []).self.RawFormat ≠ InFormat ∨
      ((FWebpImageWrapper.Construct.run lib Calls).GetRaw lib InFormat InBitDepth
        []).self.RawBitDepth ≠ InBitDepth ∨
      ((FWebpImageWrapper.Construct.run lib Calls).GetRaw lib InFormat InBitDepth
        []).self.Width ≤ 0 ∨
      ((FWebpImageWrapper.Construct.run lib Calls).GetRaw lib InFormat InBitDepth
        []).self.Height ≤ 0) := by
    rw [e2]
    rintro (h | h | h | h | h)
    · exact hne (List.length_eq_zero.1 h)
    · exact h hfmt
    · exact h hdepth
    · omega
    · omega
  obtain ⟨hsome, hnil⟩ := getRawDecompressedImage_checked lib Init
    (FWebpImageWrapper.Construct.run lib Calls) InFormat InBitDepth OutDecompressedImage hflat0
    hcheck (by rw [hbridge]; decide)
  rw [hbridge, e2, e3, hret2] at hsome
  rw [hbridge, e2, e3] at hnil
  refine ⟨⟨hne, hfmt, hdepth, hW, hH⟩, hbridge, ?_, ?_, ?_, ?_⟩
  · cases hsub : (Init OutDecompressedImage.MipMapImage
        ((FWebpImageWrapper.Construct.run lib Calls).GetRaw lib InFormat InBitDepth
          OutRawData).self.Width
        ((FWebpImageWrapper.Construct.run lib Calls).GetRaw lib InFormat InBitDepth
          OutRawData).self.Height 1 ERawImageFormat.BGRA8 EGammaSpace.sRGB).SubImages with
    | nil => rw [hnil hsub]
    | cons First Rest => rw [hsome First Rest hsub]
  · cases hsub : (Init OutDecompressedImage.MipMapImage
        ((FWebpImageWrapper.Construct.run lib Calls).GetRaw lib InFormat InBitDepth
          OutRawData).self.Width
        ((FWebpImageWrapper.Construct.run lib Calls).GetRaw lib InFormat InBitDepth
          OutRawData).self.Height 1 ERawImageFormat.BGRA8 EGammaSpace.sRGB).SubImages with
    | nil => rw [hnil hsub]
    | cons First Rest => rw [hsome First Rest hsub]
  · cases hsub : (Init OutDecompressedImage.MipMapImage
        ((FWebpImageWrapper.Construct.run lib Calls).GetRaw lib InFormat InBitDepth
          OutRawData).self.Width
        ((FWebpImageWrapper.Construct.run lib Calls).GetRaw lib InFormat InBitDepth
          OutRawData).self.Height 1 ERawImageFormat.BGRA8 EGammaSpace.sRGB).SubImages with
    | nil =>
      rw [hnil hsub]
      simp
    | cons First Rest =>
      rw [hsome First Rest hsub]
      simp
  · intro hone
    cases hsub : (Init OutDecompressedImage.MipMapImage
        ((FWebpImageWrapper.Construct.run lib Calls).GetRaw lib InFormat InBitDepth
          OutRawData).self.Width
        ((FWebpImageWrapper.Construct.run lib Calls).GetRaw lib InFormat InBitDepth
          OutRawData).self.Height 1 ERawImageFormat.BGRA8 EGammaSpace.sRGB).SubImages with
    | nil =>
      rw [hsub] at hone
      exact absurd hone (by decide)
    | cons First Rest =>
      rw [hsub] at hone
      have hrest : Rest = [] := by
        simp only [List.length_cons, Nat.add_eq_right, List.length_eq_zero] at hone
        exact hone
      subst hrest
      rw [hsome First [] hsub]
      exact ⟨rfl, rfl, rfl, rfl⟩

/-- Witness for C25: with a probe that reports 2 by 2, after an accepted
`SetCompressed` the flat `GetRaw(BGRA, 8)` succeeds, and the overload with mip
information succeeds with the 16 decoded bytes in format BGRA8. -/
theorem C25_getRaw_overloads_agree_witness :
    ((FWebpImageWrapper.Construct.run (testLib 2 2 true)
      [Operation.SetCompressed (some webpHeader) 12]).GetRaw (testLib 2 2 true)
      ERGBFormat.BGRA 8 []).ret.1 = true ∧
    ((FWebpImageWrapper.Construct.run (testLib 2 2 true)
      [Operation.SetCompressed (some webpHeader) 12]).GetRawDecompressedImage
      (testLib 2 2 true) testInit ERGBFormat.BGRA 8 emptyImage).ret.2.MipMapImage.SubImages
      = [⟨0, 16, 2, 2⟩] ∧
    ((FWebpImageWrapper.Construct.run (testLib 2 2 true)
      [Operation.SetCompressed (some webpHeader) 12]).GetRawDecompressedImage
      (testLib 2 2 true) testInit ERGBFormat.BGRA 8 emptyImage).ret.1 = true ∧
    ((FWebpImageWrapper.Construct.run (testLib 2 2 true)
      [Operation.SetCompressed (some webpHeader) 12]).GetRawDecompressedImage
      (testLib 2 2 true) testInit ERGBFormat.BGRA 8 emptyImage).ret.2.MipMapImage.Format
      = ERawImageFormat.BGRA8 :=
  have hp : ∀ (Data : List UInt8) (W H : Int),
      (testLib 2 2 true).WebPGetInfo Data = some (W, H) → 0 < W ∧ 0 < H := by
    intro Data W H h
    simp only [testLib, Option.some.injEq, Prod.mk.injEq] at h
    omega
  ⟨by decide, by decide,
    ((C25_getRaw_overloads_agree (testLib 2 2 true) testInit hp
      [Operation.SetCompressed (some webpHeader) 12] ERGBFormat.BGRA 8 [] emptyImage
      (by decide)).2.2.2.2.2 (by decide)).1,
    ((C25_getRaw_overloads_agree (testLib 2 2 true) testInit hp
      [Operation.SetCompressed (some webpHeader) 12] ERGBFormat.BGRA 8 [] emptyImage
      (by decide)).2.2.2.2.2 (by decide)).2.2.1⟩
